import Mathlib

/- Shallow embedding of the Medieval-Rulers world-map generation and
   validation pipeline: the seed generator (XorShift32 PRNG, region
   growing, adjacency projection, perturbation, title/character
   assignment), the payload validator, and the read-only selectors.

   Modelling conventions:
   - JS numbers that hold 32-bit patterns are Nat below 2^32, with
     explicit reductions mod 2^32 where JS coerces with | 0;
   - JS arrays are Lean lists; reads `arr[i]` that the source guards
     with atOrThrow are modelled with atE (an Except-returning bounds
     check), reads the source leaves unguarded use getD, whose default
     is never observable at the guarded call sites;
   - while-loops without a built-in iteration ceiling take a fuel
     argument and return Option (Except String _): none is running out
     of fuel, some (.error m) a thrown Error, some (.ok v) a return;
   - floats appear only as next() / 4294967296 scaling, the 0.35
     variance factor, the 0.1 difference ratios and the HSL color math;
     they are modelled with exact Nat / Rat arithmetic, which agrees
     with the JS double computations at every reachable call site
     (operands stay far below 2^53). -/

def U32 : Nat := 4294967296

/-- Two's-complement 32-bit pattern of a JS integer (the result of x | 0). -/
def pat32 (x : Int) : Nat := (x % (U32 : Int)).toNat

/-- atOrThrow from seedGenerator.ts: a bounds-checked read. -/
def atE {α : Type} (l : List α) (i : Nat) (label : String) : Except String α :=
  match l[i]? with
  | some a => .ok a
  | none => .error (label ++ " index out of bounds")

/-- atOrThrow with a JS-number index that may be negative (undefined in JS). -/
def atIntE {α : Type} (l : List α) (i : Int) (label : String) : Except String α :=
  if 0 ≤ i then atE l i.toNat label else .error (label ++ " index out of bounds")

/-- One step of the XorShift32 recurrence (shift-xor triple 13 / 17 / 5),
    on unsigned 32-bit patterns; xor of two masked words needs no further
    masking. -/
def xsStep (x : Nat) : Nat :=
  let a := x ^^^ ((x <<< 13) % U32)
  let b := a ^^^ (a >>> 17)
  b ^^^ ((b <<< 5) % U32)

/-- XorShift32 constructor state: (seed | 0) || 1, as an unsigned pattern. -/
def mkXorShift32 (seed : Int) : Nat :=
  let p := pat32 seed
  if p = 0 then 1 else p

/-- nextInt(maxExclusive): floor(next() * maxExclusive) where
    next() = state / 2^32 after one step. The double arithmetic of the
    source computes exactly s * max / 2^32 whenever s * max < 2^53,
    which covers every call site (max is at most a few thousand). -/
def nextInt (maxExclusive : Nat) (state : Nat) : Except String (Nat × Nat) :=
  if maxExclusive = 0 then .error "maxExclusive must be > 0"
  else
    let s := xsStep state
    .ok ((s % U32) * maxExclusive / U32, s)

/-- tileNeighbors: up to 4 axis neighbors (west, east, north, south). -/
def tileNeighbors (tileId width height : Nat) : List Nat :=
  let x := tileId % width
  let y := tileId / width
  (if 0 < x then [tileId - 1] else []) ++
    (if x + 1 < width then [tileId + 1] else []) ++
    (if 0 < y then [tileId - width] else []) ++
    (if y + 1 < height then [tileId + width] else [])

/-- Rejection-sampling loop of chooseUniqueSeeds; the used set of the
    source always holds exactly the members of out. -/
def chooseSeedsLoop (totalNodes seedCount : Nat) :
    Nat → List Nat → Nat → Option (Except String (List Nat × Nat))
  | 0, out, rng =>
    if seedCount ≤ out.length then some (.ok (out, rng)) else none
  | fuel + 1, out, rng =>
    if seedCount ≤ out.length then some (.ok (out, rng))
    else
      match nextInt totalNodes rng with
      | .error e => some (.error e)
      | .ok (candidate, r1) =>
        if candidate ∈ out then chooseSeedsLoop totalNodes seedCount fuel out r1
        else chooseSeedsLoop totalNodes seedCount fuel (out ++ [candidate]) r1

def chooseUniqueSeeds (totalNodes seedCount : Nat) (rng : Nat) (fuel : Nat) :
    Option (Except String (List Nat × Nat)) :=
  if totalNodes < seedCount then
    some (.error "seedCount must be <= totalNodes")
  else chooseSeedsLoop totalNodes seedCount fuel [] rng

/-- First phase of buildDesiredSizes: per-bucket target
    max(1, base + offset) with offset drawn from [-variance, variance].
    base + draw - variance is computed in Nat; when the JS value is
    negative the Nat value is 0 and both are clamped to 1 by the max. -/
def desiredSizesInit (variance base : Nat) :
    Nat → Nat → Except String (List Nat × Nat)
  | 0, rng => .ok ([], rng)
  | k + 1, rng =>
    match nextInt (variance * 2 + 1) rng with
    | .error e => .error e
    | .ok (draw, r1) =>
      match desiredSizesInit variance base k r1 with
      | .error e => .error e
      | .ok (rest, r2) => .ok ((max 1 (base + draw - variance)) :: rest, r2)

/-- Repair loop of buildDesiredSizes: adjust random buckets until the
    sizes sum to the total, never reducing a bucket below 1. -/
def desiredRepair (bucketCount : Nat) :
    Nat → List Nat → Int → Nat → Option (Except String (List Nat × Nat))
  | 0, desired, diff, rng =>
    if diff = 0 then some (.ok (desired, rng)) else none
  | fuel + 1, desired, diff, rng =>
    if diff = 0 then some (.ok (desired, rng))
    else
      match nextInt bucketCount rng with
      | .error e => some (.error e)
      | .ok (index, r1) =>
        if 0 < diff then
          desiredRepair bucketCount fuel
            (desired.set index (desired.getD index 0 + 1)) (diff - 1) r1
        else if 1 < desired.getD index 0 then
          desiredRepair bucketCount fuel
            (desired.set index (desired.getD index 0 - 1)) (diff + 1) r1
        else desiredRepair bucketCount fuel desired diff r1

/-- buildDesiredSizes: base = floor(total / bucketCount),
    variance = max(1, floor(base * 0.35)) -- the float product is exact
    floor(base * 35 / 100) at every reachable magnitude. -/
def buildDesiredSizes (total bucketCount : Nat) (rng : Nat) (fuel : Nat) :
    Option (Except String (List Nat × Nat)) :=
  let base := total / bucketCount
  let variance := max 1 (base * 35 / 100)
  match desiredSizesInit variance base bucketCount rng with
  | .error e => some (.error e)
  | .ok (desired, r1) =>
    desiredRepair bucketCount fuel desired ((total : Int) - (desired.sum : Int)) r1

/-- removeAtSwap: overwrite with the last element and pop. Call sites
    guarantee a non-empty buffer (the source throws otherwise). -/
def removeAtSwap (buffer : List Nat) (index : Nat) : List Nat :=
  (buffer.set index (buffer.getLastD 0)).dropLast

structure GrowState where
  owner : List Int
  regionSizes : List Nat
  frontiers : List (List Nat)
  unassigned : Nat
  rng : Nat

/-- Inner loop of regionGrow: expand the chosen region once, discarding
    frontier entries with no unclaimed neighbor. Fuel is the frontier
    length at entry: each non-expanding pass removes one entry. -/
def growInner (adjacency : List (List Nat)) (regionId : Nat) :
    Nat → List Nat → List Int → List Nat → Nat → Nat →
    Option (Except String (List Nat × List Int × List Nat × Nat × Nat))
  | 0, frontier, owner, sizes, unassigned, rng =>
    if frontier.length = 0 then some (.ok (frontier, owner, sizes, unassigned, rng))
    else none
  | fuel + 1, frontier, owner, sizes, unassigned, rng =>
    if frontier.length = 0 then some (.ok (frontier, owner, sizes, unassigned, rng))
    else
      match nextInt frontier.length rng with
      | .error e => some (.error e)
      | .ok (frontierIndex, r1) =>
        let node := frontier.getD frontierIndex 0
        match atE adjacency node "adjacency" with
        | .error e => some (.error e)
        | .ok neighbors =>
          let unclaimedNeighbors := neighbors.filter (fun next => owner.getD next 0 == -1)
          if unclaimedNeighbors.length = 0 then
            growInner adjacency regionId fuel (removeAtSwap frontier frontierIndex)
              owner sizes unassigned r1
          else
            match nextInt unclaimedNeighbors.length r1 with
            | .error e => some (.error e)
            | .ok (choiceIndex, r2) =>
              let nextNode := unclaimedNeighbors.getD choiceIndex 0
              some (.ok (frontier ++ [nextNode],
                owner.set nextNode (regionId : Int),
                sizes.set regionId (sizes.getD regionId 0 + 1),
                unassigned - 1, r2))

/-- Outer loop of regionGrow: pick a region with a non-empty frontier
    (preferring those under their desired size) and expand it. -/
def growLoop (adjacency : List (List Nat)) (desired : List Nat) (seedCount : Nat) :
    Nat → GrowState → Option (Except String (List Int))
  | 0, _ => none
  | fuel + 1, st =>
    if st.unassigned = 0 then some (.ok st.owner)
    else
      let fallback := (List.range seedCount).filter
        (fun r => !(st.frontiers.getD r []).isEmpty)
      let preferred := (List.range seedCount).filter
        (fun r => !(st.frontiers.getD r []).isEmpty &&
          decide (st.regionSizes.getD r 0 < desired.getD r 0))
      let candidates := if preferred.isEmpty then fallback else preferred
      if candidates.isEmpty then
        some (.error "regionGrow stuck: no expandable frontier while nodes remain")
      else
        match nextInt candidates.length st.rng with
        | .error e => some (.error e)
        | .ok (ci, r1) =>
          let regionId := candidates.getD ci 0
          let frontier := st.frontiers.getD regionId []
          match growInner adjacency regionId frontier.length frontier
              st.owner st.regionSizes st.unassigned r1 with
          | none => none
          | some (.error e) => some (.error e)
          | some (.ok (frontier2, owner2, sizes2, unassigned2, rng2)) =>
            growLoop adjacency desired seedCount fuel
              { owner := owner2, regionSizes := sizes2,
                frontiers := st.frontiers.set regionId frontier2,
                unassigned := unassigned2, rng := rng2 }

/-- Seeding loop of regionGrow: one region per seed node. -/
def seedRegions :
    List Nat → Nat → List Int → List Nat → List (List Nat) →
    List Int × List Nat × List (List Nat)
  | [], _, owner, sizes, frontiers => (owner, sizes, frontiers)
  | seed :: rest, regionId, owner, sizes, frontiers =>
    seedRegions rest (regionId + 1) (owner.set seed (regionId : Int))
      (sizes.set regionId 1) (frontiers.set regionId [seed])

def regionGrow (totalNodes seedCount : Nat) (rng : Nat) (adjacency : List (List Nat))
    (fuelSizes fuelSeeds fuelLoop : Nat) : Option (Except String (List Int)) :=
  match buildDesiredSizes totalNodes seedCount rng fuelSizes with
  | none => none
  | some (.error e) => some (.error e)
  | some (.ok (desiredSizes, r1)) =>
    match chooseUniqueSeeds totalNodes seedCount r1 fuelSeeds with
    | none => none
    | some (.error e) => some (.error e)
    | some (.ok (seeds, r2)) =>
      let init := seedRegions seeds 0 (List.replicate totalNodes (-1))
        (List.replicate seedCount 0) (List.replicate seedCount [])
      growLoop adjacency desiredSizes seedCount fuelLoop
        { owner := init.1, regionSizes := init.2.1, frontiers := init.2.2,
          unassigned := totalNodes - seedCount, rng := r2 }

def buildTileAdjacency (width height : Nat) : List (List Nat) :=
  (List.range (width * height)).map (fun tileId => tileNeighbors tileId width height)

/-- JS Set.add modelled on lists: keeps first-insertion order. -/
def insertIfAbsent {α : Type} [DecidableEq α] (l : List α) (a : α) : List α :=
  if a ∈ l then l else l ++ [a]

/-- An Except-valued fold over 0, 1, ..., n-1 (a for-loop that can throw). -/
def foldRangeE {σ : Type} (n : Nat) (f : Nat → σ → Except String σ) (init : σ) :
    Except String σ :=
  (List.range n).foldlM (fun s i => f i s) init

/-- Add an undirected region edge into both adjacency sets, with the
    source's atOrThrow bounds checks on both region indices. -/
def addRegionEdge (sets : List (List Nat)) (a b : Int) :
    Except String (List (List Nat)) :=
  if 0 ≤ a ∧ a.toNat < sets.length ∧ 0 ≤ b ∧ b.toNat < sets.length then
    let s1 := sets.set a.toNat (insertIfAbsent (sets.getD a.toNat []) b.toNat)
    .ok (s1.set b.toNat (insertIfAbsent (s1.getD b.toNat []) a.toNat))
  else .error "sets index out of bounds"

/-- Body of buildRegionAdjacencyFromTiles for one tile: look east and south. -/
def regionAdjStep (tileOwner : List Int) (width height y x : Nat)
    (sets : List (List Nat)) : Except String (List (List Nat)) := do
  let tileId := y * width + x
  let region ← atE tileOwner tileId "tileOwner"
  let sets1 ←
    if x + 1 < width then do
      let eastRegion ← atE tileOwner (tileId + 1) "tileOwner"
      if eastRegion ≠ region then addRegionEdge sets region eastRegion else pure sets
    else pure sets
  if y + 1 < height then do
    let southRegion ← atE tileOwner (tileId + width) "tileOwner"
    if southRegion ≠ region then addRegionEdge sets1 region southRegion else pure sets1
  else pure sets1

def buildRegionAdjacencyFromTiles (tileOwner : List Int) (regionCount width height : Nat) :
    Except String (List (List Nat)) := do
  let sets ← foldRangeE height
    (fun y s => foldRangeE width (fun x s2 => regionAdjStep tileOwner width height y x s2) s)
    (List.replicate regionCount [])
  pure (sets.map (fun l => l.mergeSort (· ≤ ·)))

def projectAdjacency (sourceAdjacency : List (List Nat)) (sourceToTarget : List Int)
    (targetCount : Nat) : Except String (List (List Nat)) := do
  let sets ← foldRangeE sourceAdjacency.length
    (fun sourceId sets => do
      let targetA ← atE sourceToTarget sourceId "sourceToTarget"
      let neighbors ← atE sourceAdjacency sourceId "sourceAdjacency"
      neighbors.foldlM (fun s2 sourceNeighbor => do
        let targetB ← atE sourceToTarget sourceNeighbor "sourceToTarget"
        if targetA = targetB then pure s2 else addRegionEdge s2 targetA targetB) sets)
    (List.replicate targetCount [])
  pure (sets.map (fun l => l.mergeSort (· ≤ ·)))

def buildNames (pfx : String) (count : Nat) : List String :=
  (List.range count).map (fun i => pfx ++ " " ++ toString (i + 1))

/-- Fisher-Yates loop of shuffledIndices, from index i+1 down to 1. -/
def shuffleLoop : Nat → List Nat → Nat → Except String (List Nat × Nat)
  | 0, out, rng => .ok (out, rng)
  | i + 1, out, rng =>
    match nextInt (i + 2) rng with
    | .error e => .error e
    | .ok (j, r1) =>
      let tmp := out.getD (i + 1) 0
      let out1 := (out.set (i + 1) (out.getD j 0)).set j tmp
      shuffleLoop i out1 r1

def shuffledIndices (count : Nat) (rng : Nat) : Except String (List Nat × Nat) :=
  shuffleLoop (count - 1) (List.range count) rng

def buildBucketCounts (assignments : List Int) (bucketCount : Nat) :
    Except String (List Nat) :=
  assignments.foldlM
    (fun counts bucketId =>
      if 0 ≤ bucketId ∧ bucketId.toNat < counts.length then
        .ok (counts.set bucketId.toNat (counts.getD bucketId.toNat 0 + 1))
      else .error "assignment out of bounds")
    (List.replicate bucketCount 0)

def maxAttemptsFor (len : Nat) : Nat := max 500 (len * 120)

/-- Attempt loop of perturbAssignments; budget is the remaining attempt
    count below the max(500, length * 120) ceiling. -/
def perturbLoop (base : List Int) (adjacency : List (List Nat)) (desired : Nat) :
    Nat → List Int → List Nat → List Nat → Nat →
    Except String (List Int × List Nat × List Nat × Nat)
  | 0, out, counts, changed, rng => .ok (out, counts, changed, rng)
  | budget + 1, out, counts, changed, rng =>
    if desired ≤ changed.length then .ok (out, counts, changed, rng)
    else
      match nextInt out.length rng with
      | .error e => .error e
      | .ok (nodeId, r1) =>
        let sourceBucket := out.getD nodeId 0
        match atIntE counts sourceBucket "counts" with
        | .error e => .error e
        | .ok cnt =>
          if cnt ≤ 1 then perturbLoop base adjacency desired budget out counts changed r1
          else
            match atE adjacency nodeId "adjacency" with
            | .error e => .error e
            | .ok neighbors =>
              match neighbors.foldlM
                  (fun acc neighborNode =>
                    (match atE out neighborNode "out" with
                    | .error e => .error e
                    | .ok candidateBucket =>
                      .ok (if candidateBucket ≠ sourceBucket
                        then insertIfAbsent acc candidateBucket else acc) :
                      Except String (List Int)))
                  ([] : List Int) with
              | .error e => .error e
              | .ok candidates =>
                if candidates.length = 0 then
                  perturbLoop base adjacency desired budget out counts changed r1
                else
                  match nextInt candidates.length r1 with
                  | .error e => .error e
                  | .ok (ti, r2) =>
                    let targetBucket := candidates.getD ti 0
                    let out2 := out.set nodeId targetBucket
                    let counts1 := counts.set sourceBucket.toNat (cnt - 1)
                    match atIntE counts1 targetBucket "counts" with
                    | .error e => .error e
                    | .ok tcnt =>
                      let counts2 := counts1.set targetBucket.toNat (tcnt + 1)
                      let changed2 :=
                        if out2.getD nodeId 0 = base.getD nodeId 0
                        then changed.erase nodeId
                        else insertIfAbsent changed nodeId
                      perturbLoop base adjacency desired budget out2 counts2 changed2 r2

/-- perturbAssignments, returning also the state the shared rng object
    is left in (the JS mutates the caller's rng in place). -/
def perturbAssignmentsFull (baseAssignments : List Int) (adjacency : List (List Nat))
    (bucketCount : Nat) (targetDifferences : Int) (rng : Nat) (label : String) :
    Except String (List Int × Nat) :=
  if baseAssignments.length = 0 then
    .error (label ++ " cannot perturb an empty assignment array")
  else
    let desiredDifferences := (max 1 targetDifferences).toNat
    match buildBucketCounts baseAssignments bucketCount with
    | .error e => .error e
    | .ok counts =>
      match perturbLoop baseAssignments adjacency desiredDifferences
          (maxAttemptsFor baseAssignments.length) baseAssignments counts [] rng with
      | .error e => .error e
      | .ok (out, _, changed, rng2) =>
        if changed.length < desiredDifferences then
          .error (label ++ " perturbation did not reach target differences")
        else .ok (out, rng2)

def perturbAssignments (baseAssignments : List Int) (adjacency : List (List Nat))
    (bucketCount : Nat) (targetDifferences : Int) (rng : Nat) (label : String) :
    Except String (List Int) :=
  match perturbAssignmentsFull baseAssignments adjacency bucketCount
      targetDifferences rng label with
  | .error e => .error e
  | .ok (out, _) => .ok out

inductive TitleRank where
  | county
  | duchy
  | kingdom
deriving DecidableEq, Repr

/-- The canonical title id string rank:entityId, kept as a structured
    pair; the encoding is injective on canonical ids, which is all the
    generator emits and all the claims mutate. -/
structure TitleId where
  rank : TitleRank
  num : Nat
deriving DecidableEq, Repr

/-- character:index ids, kept as the numeric index (the part after the colon). -/
abbrev CharacterId := Nat

structure MapTitle where
  id : TitleId
  rank : TitleRank
  entityId : Int
  name : String
  mapColor : Int
  coatOfArmsSeed : String
  holderCharacterId : CharacterId
  deJureParentTitleId : Option TitleId
  deFactoParentTitleId : Option TitleId
deriving DecidableEq, Repr

structure MapCharacter where
  id : CharacterId
  name : String
  primaryTitleId : TitleId
  heldTitleIds : List TitleId
deriving DecidableEq, Repr

structure HierarchyData where
  tileToCounty : List Int
  countyToDuchy : List Int
  duchyToKingdom : List Int
  countyNames : List String
  duchyNames : List String
  kingdomNames : List String
deriving DecidableEq, Repr

structure GridConfig where
  width : Nat
  height : Nat
  tileSizePx : Nat
  chunkSize : Nat
  seed : Int
deriving DecidableEq, Repr

/-- WorldMapDataV2; modes is the two-field record deJure / deFacto. -/
structure WorldMapDataV2 where
  version : Nat
  grid : GridConfig
  deJure : HierarchyData
  deFacto : HierarchyData
  titles : List MapTitle
  characters : List MapCharacter
deriving DecidableEq, Repr

def MAP_WIDTH : Nat := 80
def MAP_HEIGHT : Nat := 80
def TILE_SIZE_PX : Nat := 10
def CHUNK_SIZE : Nat := 20
def MAP_VERSION : Nat := 2
def DEFAULT_SEED : Int := 9527
def DEFAULT_COUNTY_COUNT : Int := 320
def DEFAULT_DUCHY_COUNT : Int := 52
def DEFAULT_KINGDOM_COUNT : Int := 7

/-- DEFACTO_COUNTY_DIFF_RATIO and DEFACTO_DUCHY_DIFF_RATIO, both 0.1. -/
def defactoCountyDiffRatio : ℚ := 1 / 10
def defactoDuchyDiffRatio : ℚ := 1 / 10

def COUNTY_BASE_SALT : Nat := 0x3c6ef372
def DEJURE_SALT : Nat := 0xa5a5a5a5
def DEFACTO_SALT : Nat := 0x5a5a5a5a
def CHARACTER_SALT : Nat := 0x7f4a7c15
def NAME_SALT : Nat := 0x6d2b79f5

/-- Pattern of the JS int32 seed ^ salt (xor acts bitwise on patterns). -/
def seedXor (seed : Int) (salt : Nat) : Nat := pat32 seed ^^^ (salt % U32)

/-- XorShift32 constructor on an already 32-bit pattern. -/
def mkXorShift32P (p : Nat) : Nat := if p % U32 = 0 then 1 else p % U32

def buildTitleId (rank : TitleRank) (entityId : Nat) : TitleId := TitleId.mk rank entityId

def buildCharacterId (characterIndex : Nat) : CharacterId := characterIndex + 1

def rankToString : TitleRank → String
  | .county => "county"
  | .duchy => "duchy"
  | .kingdom => "kingdom"

def titleIdString (t : TitleId) : String := rankToString t.rank ++ ":" ++ toString t.num

/-- FNV-1a over UTF-16 char codes (all strings here are ASCII), with
    Math.imul modelled as multiplication mod 2^32. -/
def hashString (input : String) : Nat :=
  input.toList.foldl (fun hash c => ((hash ^^^ c.toNat) * 16777619) % U32) 2166136261

/-- Math.round: floor(x + 1/2), which is JS round-half-up for every sign. -/
def jsRound (x : ℚ) : Int := Int.floor (x + 1 / 2)

/-- JS remainder on nonnegative operands (fmod). -/
def jsFmod (x y : ℚ) : ℚ := x - y * ((Int.floor (x / y) : Int) : ℚ)

def hueToRgb (p q t : ℚ) : ℚ :=
  let t1 := if t < 0 then t + 1 else t
  let t2 := if t1 > 1 then t1 - 1 else t1
  if t2 < 1 / 6 then p + (q - p) * 6 * t2
  else if t2 < 1 / 2 then q
  else if t2 < 2 / 3 then p + (q - p) * (2 / 3 - t2) * 6
  else p

/-- (Math.round(v * 255) & 0xff): int32 pattern masked to a byte. -/
def colorByte (v : ℚ) : Nat := pat32 (jsRound (v * 255)) &&& 255

def hslToHex (h s l : ℚ) : Int :=
  let sat := s / 100
  let light := l / 100
  let hue := h / 360
  let rgb :=
    if sat = 0 then (light, light, light)
    else
      let q := if light < 1 / 2 then light * (1 + sat) else light + sat - light * sat
      let p := 2 * light - q
      (hueToRgb p q (hue + 1 / 3), hueToRgb p q hue, hueToRgb p q (hue - 1 / 3))
  (((colorByte rgb.1 <<< 16) ||| (colorByte rgb.2.1 <<< 8) ||| colorByte rgb.2.2 : Nat) : Int)

/-- colorForTitle; 137.508 is modelled as the exact rational (the double
    rounding error never moves the resulting masked byte triple across
    any claim-visible boundary, as only membership in [0, 0xffffff]
    is ever checked). -/
def colorForTitle (rank : TitleRank) (entityId : Nat) : Int :=
  let rankOffset : ℚ := match rank with
    | .county => 17
    | .duchy => 131
    | .kingdom => 257
  let hue := jsFmod ((entityId : ℚ) * (137508 / 1000) + rankOffset) 360
  hslToHex hue 45 42

def hexPad8 (n : Nat) : String :=
  let s := String.mk (Nat.toDigits 16 n)
  String.mk (List.replicate (8 - s.length) '0') ++ s

def buildCoatOfArmsSeed (seed : Int) (titleId : TitleId) : String :=
  "coa-" ++ hexPad8 (hashString (toString seed ++ ":" ++ titleIdString titleId))

def firstNamesList : List String :=
  ["Aldric", "Baldwin", "Cedric", "Darian", "Edric", "Falk", "Garin", "Hadrian",
   "Ivar", "Joran", "Kellan", "Leofric", "Merek", "Niall", "Osmund", "Perrin",
   "Quint", "Roderic", "Stefan", "Tristan", "Ulric", "Varric", "Wulfric", "Yorick"]

def familyNamesList : List String :=
  ["Ashford", "Blackmere", "Crownhill", "Dunwall", "Elden", "Frostmere",
   "Greywatch", "Highvale", "Ironwood", "Kingsley", "Longford", "Mornfield",
   "Northmarch", "Oakheart", "Ravencrest", "Stonehelm", "Thornwall", "Umber",
   "Valewood", "Westmere", "Yarborough", "Windmere", "Stormford", "Redwyne"]

def nameCombinations : List String :=
  firstNamesList.flatMap (fun firstName =>
    familyNamesList.map (fun familyName => firstName ++ " " ++ familyName))

def buildCharacterNames (count : Nat) (rng : Nat) : Except String (List String) :=
  match shuffledIndices nameCombinations.length rng with
  | .error e => .error e
  | .ok (order, _) =>
    .ok ((List.range count).map (fun i =>
      if i < nameCombinations.length then
        nameCombinations.getD (order.getD i 0) ""
      else "Ruler " ++ toString (i + 1)))

def rankWeight : TitleRank → Nat
  | .county => 1
  | .duchy => 2
  | .kingdom => 3

/-- Lookup in a Map built by inserting every title keyed by its id in
    list order (on a duplicate id the later insertion wins, as Map.set). -/
def titleMapGet (titles : List MapTitle) (id : TitleId) : Option MapTitle :=
  titles.foldl (fun acc t => if t.id = id then some t else acc) none

def selectPrimaryLoop (titles : List MapTitle) :
    List TitleId → Option MapTitle → Except String (Option MapTitle)
  | [], best => .ok best
  | id :: rest, best =>
    match titleMapGet titles id with
    | none => .error "missing title while choosing primary title"
    | some title =>
      match best with
      | none => selectPrimaryLoop titles rest (some title)
      | some bestTitle =>
        if rankWeight bestTitle.rank < rankWeight title.rank then
          selectPrimaryLoop titles rest (some title)
        else if rankWeight title.rank = rankWeight bestTitle.rank ∧
            title.entityId < bestTitle.entityId then
          selectPrimaryLoop titles rest (some title)
        else selectPrimaryLoop titles rest (some bestTitle)

def selectPrimaryTitleId (heldTitleIds : List TitleId) (titles : List MapTitle) :
    Except String TitleId :=
  match selectPrimaryLoop titles heldTitleIds none with
  | .error e => .error e
  | .ok none => .error "cannot choose primary title from empty held title list"
  | .ok (some bestTitle) => .ok bestTitle.id

/-- atOrThrow on an array with holes (new Array(n) unfilled): a hole is
    undefined and throws exactly like an out-of-bounds read. -/
def atSomeE {α : Type} (l : List (Option α)) (i : Nat) (label : String) :
    Except String α :=
  match l[i]? with
  | some (some a) => .ok a
  | _ => .error (label ++ " index out of bounds")

/-- array.push onto the list stored at index i, with the source's
    atOrThrow check on i. -/
def pushAtE {α : Type} (ls : List (List α)) (i : Nat) (a : α) (label : String) :
    Except String (List (List α)) :=
  match ls[i]? with
  | some l => .ok (ls.set i (l ++ [a]))
  | none => .error (label ++ " index out of bounds")

def pushAtIntE {α : Type} (ls : List (List α)) (i : Int) (a : α) (label : String) :
    Except String (List (List α)) :=
  if 0 ≤ i then pushAtE ls i.toNat a label
  else .error (label ++ " index out of bounds")

/-- Set.add into the set stored at a JS-number index. -/
def addSetAtIntE (ls : List (List Nat)) (i : Int) (a : Nat) (label : String) :
    Except String (List (List Nat)) :=
  if 0 ≤ i then
    match ls[i.toNat]? with
    | some s => .ok (ls.set i.toNat (insertIfAbsent s a))
    | none => .error (label ++ " index out of bounds")
  else .error (label ++ " index out of bounds")

structure UpperHierarchy where
  countyToDuchy : List Int
  duchyToKingdom : List Int
  duchyNames : List String
  kingdomNames : List String

structure CountyBase where
  tileToCounty : List Int
  countyNames : List String
  countyAdjacency : List (List Nat)

structure TitlesAndCharacters where
  titles : List MapTitle
  characters : List MapCharacter

/-- First loop of generateTitlesAndCharacters: character i takes the
    county title of countyOrder[i] and is recorded as its holder. -/
def assignCountyLoop (countyOrder : List Nat) :
    Nat → Nat → List (Option Nat) → List (List TitleId) →
    Except String (List (Option Nat) × List (List TitleId))
  | 0, _, holder, held => .ok (holder, held)
  | k + 1, characterIndex, holder, held => do
    let countyId ← atE countyOrder characterIndex "countyOrder"
    let held2 ← pushAtE held characterIndex (buildTitleId .county countyId)
      "heldTitleIdsByCharacter"
    assignCountyLoop countyOrder k (characterIndex + 1)
      (holder.set countyId (some characterIndex)) held2

/-- Second loop: bucket the county holders by their de facto duchy. -/
def duchyCandidatesLoop (countyToDuchy : List Int) (countyHolderByCounty : List (Option Nat)) :
    Nat → Nat → List (List Nat) → Except String (List (List Nat))
  | 0, _, cands => .ok cands
  | k + 1, countyId, cands => do
    let duchyId ← atE countyToDuchy countyId "deFactoUpper.countyToDuchy"
    let holderIndex ← atSomeE countyHolderByCounty countyId "countyHolderByCounty"
    let cands2 ← pushAtIntE cands duchyId holderIndex "duchyCandidates"
    duchyCandidatesLoop countyToDuchy countyHolderByCounty k (countyId + 1) cands2

/-- Third loop: pick one duchy holder per duchy and push the duchy title. -/
def duchyHolderLoop (duchyCandidates : List (List Nat)) :
    Nat → Nat → List (Option Nat) → List (List TitleId) → Nat →
    Except String (List (Option Nat) × List (List TitleId) × Nat)
  | 0, _, holder, held, rng => .ok (holder, held, rng)
  | k + 1, duchyId, holder, held, rng => do
    let candidates ← atE duchyCandidates duchyId "duchyCandidates"
    if candidates.length = 0 then .error "duchy has no county holder candidates"
    else
      match nextInt candidates.length rng with
      | .error e => .error e
      | .ok (ci, r1) => do
        let holderIndex := candidates.getD ci 0
        let held2 ← pushAtE held holderIndex (buildTitleId .duchy duchyId)
          "heldTitleIdsByCharacter"
        duchyHolderLoop duchyCandidates k (duchyId + 1)
          (holder.set duchyId (some holderIndex)) held2 r1

/-- Fourth loop: collect the duchy holders of each kingdom (a Set). -/
def kingdomCandidatesLoop (duchyToKingdom : List Int) (duchyHolderByDuchy : List (Option Nat)) :
    Nat → Nat → List (List Nat) → Except String (List (List Nat))
  | 0, _, sets => .ok sets
  | k + 1, duchyId, sets => do
    let kingdomId ← atE duchyToKingdom duchyId "deFactoUpper.duchyToKingdom"
    let holderIndex ← atSomeE duchyHolderByDuchy duchyId "duchyHolderByDuchy"
    let sets2 ← addSetAtIntE sets kingdomId holderIndex "kingdomCandidateSets"
    kingdomCandidatesLoop duchyToKingdom duchyHolderByDuchy k (duchyId + 1) sets2

/-- Fifth loop: pick one kingdom holder per kingdom and push the title. -/
def kingdomHolderLoop (kingdomCandidateSets : List (List Nat)) :
    Nat → Nat → List (Option Nat) → List (List TitleId) → Nat →
    Except String (List (Option Nat) × List (List TitleId) × Nat)
  | 0, _, holder, held, rng => .ok (holder, held, rng)
  | k + 1, kingdomId, holder, held, rng => do
    let candidates ← atE kingdomCandidateSets kingdomId "kingdomCandidateSets"
    if candidates.length = 0 then .error "kingdom has no duchy holder candidates"
    else
      match nextInt candidates.length rng with
      | .error e => .error e
      | .ok (ci, r1) => do
        let holderIndex := candidates.getD ci 0
        let held2 ← pushAtE held holderIndex (buildTitleId .kingdom kingdomId)
          "heldTitleIdsByCharacter"
        kingdomHolderLoop kingdomCandidateSets k (kingdomId + 1)
          (holder.set kingdomId (some holderIndex)) held2 r1

/-- County title records; parent duchy indices come from the hierarchy
    mappings (nonnegative whenever region growing succeeded, which is
    the only reachable case; toNat is the identity there). -/
def buildCountyTitles (seed : Int) (countyNames : List String)
    (countyHolderByCounty : List (Option Nat)) (deJureCtd deFactoCtd : List Int) :
    Except String (List MapTitle) :=
  (List.range countyNames.length).foldlM
    (fun acc countyId => do
      let holderIndex ← atSomeE countyHolderByCounty countyId "countyHolderByCounty"
      let name ← atE countyNames countyId "countyNames"
      let dj ← atE deJureCtd countyId "deJureUpper.countyToDuchy"
      let df ← atE deFactoCtd countyId "deFactoUpper.countyToDuchy"
      let t : MapTitle :=
        { id := buildTitleId .county countyId, rank := .county,
          entityId := (countyId : Int), name := name,
          mapColor := colorForTitle .county countyId,
          coatOfArmsSeed := buildCoatOfArmsSeed seed (buildTitleId .county countyId),
          holderCharacterId := buildCharacterId holderIndex,
          deJureParentTitleId := some (buildTitleId .duchy dj.toNat),
          deFactoParentTitleId := some (buildTitleId .duchy df.toNat) }
      .ok (acc ++ [t]))
    []

def buildDuchyTitles (seed : Int) (duchyNames : List String)
    (duchyHolderByDuchy : List (Option Nat)) (deJureDtk deFactoDtk : List Int) :
    Except String (List MapTitle) :=
  (List.range duchyNames.length).foldlM
    (fun acc duchyId => do
      let holderIndex ← atSomeE duchyHolderByDuchy duchyId "duchyHolderByDuchy"
      let name ← atE duchyNames duchyId "duchyNames"
      let dj ← atE deJureDtk duchyId "deJureUpper.duchyToKingdom"
      let df ← atE deFactoDtk duchyId "deFactoUpper.duchyToKingdom"
      let t : MapTitle :=
        { id := buildTitleId .duchy duchyId, rank := .duchy,
          entityId := (duchyId : Int), name := name,
          mapColor := colorForTitle .duchy duchyId,
          coatOfArmsSeed := buildCoatOfArmsSeed seed (buildTitleId .duchy duchyId),
          holderCharacterId := buildCharacterId holderIndex,
          deJureParentTitleId := some (buildTitleId .kingdom dj.toNat),
          deFactoParentTitleId := some (buildTitleId .kingdom df.toNat) }
      .ok (acc ++ [t]))
    []

def buildKingdomTitles (seed : Int) (kingdomNames : List String)
    (kingdomHolderByKingdom : List (Option Nat)) : Except String (List MapTitle) :=
  (List.range kingdomNames.length).foldlM
    (fun acc kingdomId => do
      let holderIndex ← atSomeE kingdomHolderByKingdom kingdomId "kingdomHolderByKingdom"
      let name ← atE kingdomNames kingdomId "kingdomNames"
      let t : MapTitle :=
        { id := buildTitleId .kingdom kingdomId, rank := .kingdom,
          entityId := (kingdomId : Int), name := name,
          mapColor := colorForTitle .kingdom kingdomId,
          coatOfArmsSeed := buildCoatOfArmsSeed seed (buildTitleId .kingdom kingdomId),
          holderCharacterId := buildCharacterId holderIndex,
          deJureParentTitleId := none, deFactoParentTitleId := none }
      .ok (acc ++ [t]))
    []

def buildCharactersList (characterNames : List String) (titles : List MapTitle)
    (held : List (List TitleId)) (countyCount : Nat) :
    Except String (List MapCharacter) :=
  (List.range countyCount).foldlM
    (fun acc characterIndex => do
      let heldTitleIds ← atE held characterIndex "heldTitleIdsByCharacter"
      if heldTitleIds.length = 0 then .error "character has no titles"
      else do
        let primaryTitleId ← selectPrimaryTitleId heldTitleIds titles
        let name ← atE characterNames characterIndex "characterNames"
        let c : MapCharacter :=
          { id := buildCharacterId characterIndex, name := name,
            primaryTitleId := primaryTitleId, heldTitleIds := heldTitleIds }
        .ok (acc ++ [c]))
    []

def generateTitlesAndCharacters (seed : Int)
    (countyNames duchyNames kingdomNames : List String)
    (deJureUpper deFactoUpper : UpperHierarchy) :
    Except String TitlesAndCharacters := do
  let countyCount := countyNames.length
  let duchyCount := duchyNames.length
  let kingdomCount := kingdomNames.length
  let assignmentRng := mkXorShift32P (seedXor seed CHARACTER_SALT)
  let nameRng := mkXorShift32P (seedXor seed NAME_SALT)
  let characterNames ← buildCharacterNames countyCount nameRng
  match shuffledIndices countyCount assignmentRng with
  | .error e => .error e
  | .ok (countyOrder, r1) => do
    let s1 ← assignCountyLoop countyOrder countyCount 0
      (List.replicate countyCount none) (List.replicate countyCount [])
    let duchyCands ← duchyCandidatesLoop deFactoUpper.countyToDuchy s1.1
      countyCount 0 (List.replicate duchyCount [])
    let s2 ← duchyHolderLoop duchyCands duchyCount 0
      (List.replicate duchyCount none) s1.2 r1
    let kingdomSets ← kingdomCandidatesLoop deFactoUpper.duchyToKingdom s2.1
      duchyCount 0 (List.replicate kingdomCount [])
    let s3 ← kingdomHolderLoop kingdomSets kingdomCount 0
      (List.replicate kingdomCount none) s2.2.1 s2.2.2
    let countyTitles ← buildCountyTitles seed countyNames s1.1
      deJureUpper.countyToDuchy deFactoUpper.countyToDuchy
    let duchyTitles ← buildDuchyTitles seed duchyNames s2.1
      deJureUpper.duchyToKingdom deFactoUpper.duchyToKingdom
    let kingdomTitles ← buildKingdomTitles seed kingdomNames s3.1
    let titles := countyTitles ++ duchyTitles ++ kingdomTitles
    let characters ← buildCharactersList characterNames titles s3.2.1 countyCount
    .ok { titles := titles, characters := characters }

def calculateModeDifference (leftArray rightArray : List Int) : Except String ℚ :=
  if leftArray.length ≠ rightArray.length then
    .error "arrays must have the same length to compare"
  else
    .ok (((List.range leftArray.length).countP
      (fun i => leftArray.getD i 0 ≠ rightArray.getD i 0) : ℚ) / leftArray.length)

def generateCountyBase (width height countyCount : Nat) (seedP : Nat)
    (fuel : Nat) : Option (Except String CountyBase) :=
  let tileAdjacency := buildTileAdjacency width height
  let countyRng := mkXorShift32P (seedP ^^^ 0x9e3779b9)
  match regionGrow (width * height) countyCount countyRng tileAdjacency fuel fuel fuel with
  | none => none
  | some (.error e) => some (.error e)
  | some (.ok tileToCounty) =>
    match buildRegionAdjacencyFromTiles tileToCounty countyCount width height with
    | .error e => some (.error e)
    | .ok countyAdjacency =>
      some (.ok
        { tileToCounty := tileToCounty,
          countyNames := buildNames "County" countyCount,
          countyAdjacency := countyAdjacency })

def generateUpperHierarchy (countyAdjacency : List (List Nat))
    (countyCount duchyCount kingdomCount : Nat) (seedP : Nat) (fuel : Nat) :
    Option (Except String UpperHierarchy) :=
  let duchyRng := mkXorShift32P (seedP ^^^ 0x85ebca6b)
  match regionGrow countyCount duchyCount duchyRng countyAdjacency fuel fuel fuel with
  | none => none
  | some (.error e) => some (.error e)
  | some (.ok countyToDuchy) =>
    match projectAdjacency countyAdjacency countyToDuchy duchyCount with
    | .error e => some (.error e)
    | .ok duchyAdjacency =>
      let kingdomRng := mkXorShift32P (seedP ^^^ 0xc2b2ae35)
      match regionGrow duchyCount kingdomCount kingdomRng duchyAdjacency fuel fuel fuel with
      | none => none
      | some (.error e) => some (.error e)
      | some (.ok duchyToKingdom) =>
        some (.ok
          { countyToDuchy := countyToDuchy, duchyToKingdom := duchyToKingdom,
            duchyNames := buildNames "Duchy" duchyCount,
            kingdomNames := buildNames "Kingdom" kingdomCount })

/-- Math.max(1, Math.round(count * 0.1)): the double product is within
    one ulp of count / 10, and Math.round(x) = floor(x + 1/2) agrees with
    the exact rational rounding at every reachable count. -/
def diffTarget (count : Nat) (r : ℚ) : Int := max 1 (jsRound ((count : ℚ) * r))

def generateDeFactoUpperHierarchy (countyAdjacency : List (List Nat))
    (countyCount duchyCount kingdomCount : Nat) (seed : Int)
    (deJureUpper : UpperHierarchy) : Except String UpperHierarchy := do
  let rng := mkXorShift32P (seedXor seed DEFACTO_SALT)
  let countyDifferenceCount := diffTarget countyCount defactoCountyDiffRatio
  match perturbAssignmentsFull deJureUpper.countyToDuchy countyAdjacency duchyCount
      countyDifferenceCount rng "countyToDuchy" with
  | .error e => .error e
  | .ok (countyToDuchy, rng2) =>
    match projectAdjacency countyAdjacency countyToDuchy duchyCount with
    | .error e => .error e
    | .ok deFactoDuchyAdjacency =>
      let duchyDifferenceCount := diffTarget duchyCount defactoDuchyDiffRatio
      match perturbAssignments deJureUpper.duchyToKingdom deFactoDuchyAdjacency
          kingdomCount duchyDifferenceCount rng2 "duchyToKingdom" with
      | .error e => .error e
      | .ok duchyToKingdom =>
        .ok
          { countyToDuchy := countyToDuchy, duchyToKingdom := duchyToKingdom,
            duchyNames := deJureUpper.duchyNames,
            kingdomNames := deJureUpper.kingdomNames }

/-- generateWorldMapData after the entry precondition checks. -/
def generateWorldMapDataBody (seed : Int) (countyCount duchyCount kingdomCount : Nat)
    (fuel : Nat) : Option (Except String WorldMapDataV2) :=
  match generateCountyBase MAP_WIDTH MAP_HEIGHT countyCount
      (seedXor seed COUNTY_BASE_SALT) fuel with
  | none => none
  | some (.error e) => some (.error e)
  | some (.ok countyBase) =>
    match generateUpperHierarchy countyBase.countyAdjacency countyCount duchyCount
        kingdomCount (seedXor seed DEJURE_SALT) fuel with
    | none => none
    | some (.error e) => some (.error e)
    | some (.ok deJureUpper) =>
      match generateDeFactoUpperHierarchy countyBase.countyAdjacency countyCount
          duchyCount kingdomCount seed deJureUpper with
      | .error e => some (.error e)
      | .ok deFactoUpper =>
        match generateTitlesAndCharacters seed countyBase.countyNames
            deJureUpper.duchyNames deJureUpper.kingdomNames deJureUpper deFactoUpper with
        | .error e => some (.error e)
        | .ok tc =>
          some (.ok
            { version := MAP_VERSION,
              grid :=
                { width := MAP_WIDTH, height := MAP_HEIGHT,
                  tileSizePx := TILE_SIZE_PX, chunkSize := CHUNK_SIZE, seed := seed },
              deJure :=
                { tileToCounty := countyBase.tileToCounty,
                  countyNames := countyBase.countyNames,
                  countyToDuchy := deJureUpper.countyToDuchy,
                  duchyToKingdom := deJureUpper.duchyToKingdom,
                  duchyNames := deJureUpper.duchyNames,
                  kingdomNames := deJureUpper.kingdomNames },
              deFacto :=
                { tileToCounty := countyBase.tileToCounty,
                  countyNames := countyBase.countyNames,
                  countyToDuchy := deFactoUpper.countyToDuchy,
                  duchyToKingdom := deFactoUpper.duchyToKingdom,
                  duchyNames := deFactoUpper.duchyNames,
                  kingdomNames := deFactoUpper.kingdomNames },
              titles := tc.titles, characters := tc.characters })

/-- generateWorldMapData. The seed option is a JS number, modelled as a
    rational; the Number.isInteger precondition is den = 1. Counts are
    modelled as integers. -/
def generateWorldMapData (seed : ℚ) (countyCount duchyCount kingdomCount : Int)
    (fuel : Nat) : Option (Except String WorldMapDataV2) :=
  if seed.den ≠ 1 then some (.error "seed must be integer")
  else if countyCount ≤ 0 ∨ duchyCount ≤ 0 ∨ kingdomCount ≤ 0 then
    some (.error "county/duchy/kingdom counts must be > 0")
  else if countyCount < duchyCount then
    some (.error "duchyCount must be <= countyCount")
  else if duchyCount < kingdomCount then
    some (.error "kingdomCount must be <= duchyCount")
  else generateWorldMapDataBody seed.num countyCount.toNat duchyCount.toNat
    kingdomCount.toNat fuel

inductive MapMode where
  | deJure
  | deFacto
deriving DecidableEq, Repr

inductive MapLevel where
  | county
  | duchy
  | kingdom
deriving DecidableEq, Repr

def getTileCount (grid : GridConfig) : Nat := grid.width * grid.height

/-- isValidTileId on a nonnegative integer tile id (the claims only
    range over [0, width * height)). -/
def isValidTileId (tileId : Nat) (grid : GridConfig) : Bool :=
  decide (tileId < getTileCount grid)

def getHierarchyByMode (data : WorldMapDataV2) (mode : MapMode) : HierarchyData :=
  match mode with
  | .deJure => data.deJure
  | .deFacto => data.deFacto

/-- A JS array read at a JS-number index: undefined outside [0, length). -/
def intIndex (l : List Int) (i : Int) : Option Int :=
  if 0 ≤ i then l[i.toNat]? else none

def getEntityIdForTile (hierarchy : HierarchyData) (tileId : Nat) (level : MapLevel) :
    Option Int :=
  match hierarchy.tileToCounty[tileId]? with
  | none => none
  | some countyId =>
    match level with
    | .county => some countyId
    | _ =>
      match intIndex hierarchy.countyToDuchy countyId with
      | none => none
      | some duchyId =>
        match level with
        | .duchy => some duchyId
        | _ => intIndex hierarchy.duchyToKingdom duchyId

def resolveEntityId (data : WorldMapDataV2) (mode : MapMode) (level : MapLevel)
    (tileId : Nat) : Option Int :=
  if isValidTileId tileId data.grid then
    getEntityIdForTile (getHierarchyByMode data mode) tileId level
  else none

def buildActiveEntityByTile (data : WorldMapDataV2) (mode : MapMode) (level : MapLevel) :
    List Int :=
  let hierarchy := getHierarchyByMode data mode
  if level = .county then hierarchy.tileToCounty
  else
    (List.range hierarchy.tileToCounty.length).map (fun tileId =>
      match hierarchy.tileToCounty[tileId]? with
      | none => -1
      | some countyId =>
        match intIndex hierarchy.countyToDuchy countyId with
        | none => -1
        | some duchyId =>
          if level = .duchy then duchyId
          else (intIndex hierarchy.duchyToKingdom duchyId).getD (-1))

/-- assert from mapValidation.ts: condition check with a prefixed message. -/
def assertE (cond : Prop) [Decidable cond] (msg : String) : Except String Unit :=
  if cond then .ok () else .error ("[map validation] " ++ msg)

/-- assertIndexBounds: every entry an integer in [0, size). -/
def boundsOk (indices : List Int) (size : Nat) : Prop :=
  ∀ v ∈ indices, 0 ≤ v ∧ v < size

/-- assertNonEmptyDistribution: every entity id in [0, size) is hit. -/
def coveredOk (indices : List Int) (size : Nat) : Prop :=
  ∀ i < size, (i : Int) ∈ indices

instance (indices : List Int) (size : Nat) : Decidable (boundsOk indices size) := by
  unfold boundsOk; infer_instance

instance (indices : List Int) (size : Nat) : Decidable (coveredOk indices size) := by
  unfold coveredOk; infer_instance

def validateHierarchy (h : HierarchyData) (tileCount : Nat) (mode : String) :
    Except String HierarchyData := do
  assertE (h.tileToCounty.length = tileCount) (mode ++ ": tileToCounty length mismatch")
  assertE (0 < h.countyNames.length) (mode ++ ": countyNames cannot be empty")
  assertE (0 < h.duchyNames.length) (mode ++ ": duchyNames cannot be empty")
  assertE (0 < h.kingdomNames.length) (mode ++ ": kingdomNames cannot be empty")
  assertE (h.countyToDuchy.length = h.countyNames.length)
    (mode ++ ": countyToDuchy length must match countyNames")
  assertE (h.duchyToKingdom.length = h.duchyNames.length)
    (mode ++ ": duchyToKingdom length must match duchyNames")
  assertE (boundsOk h.tileToCounty h.countyNames.length)
    (mode ++ ": tileToCounty out of bounds")
  assertE (boundsOk h.countyToDuchy h.duchyNames.length)
    (mode ++ ": countyToDuchy out of bounds")
  assertE (boundsOk h.duchyToKingdom h.kingdomNames.length)
    (mode ++ ": duchyToKingdom out of bounds")
  assertE (coveredOk h.tileToCounty h.countyNames.length)
    (mode ++ ": county has empty entity")
  assertE (coveredOk h.countyToDuchy h.duchyNames.length)
    (mode ++ ": duchy has empty entity")
  assertE (coveredOk h.duchyToKingdom h.kingdomNames.length)
    (mode ++ ": kingdom has empty entity")
  pure h

def expectedCountByRank (rank : TitleRank) (deJure : HierarchyData) : Nat :=
  match rank with
  | .county => deJure.countyNames.length
  | .duchy => deJure.duchyNames.length
  | .kingdom => deJure.kingdomNames.length

/-- The per-title checks of validateTitles: id/rank/entityId agreement
    (the id string parses back to the rank and entity fields), entity
    bounds, non-empty name and coat of arms, mapColor a 24-bit integer.
    The purely dynamic type checks of the source are vacuous on the
    typed model. -/
def titleFieldsOk (deJure : HierarchyData) (t : MapTitle) : Prop :=
  t.rank = t.id.rank ∧ t.entityId = (t.id.num : Int) ∧
    0 ≤ t.entityId ∧ t.entityId < (expectedCountByRank t.rank deJure : Int) ∧
    t.name ≠ "" ∧ 0 ≤ t.mapColor ∧ t.mapColor ≤ 0xffffff ∧ t.coatOfArmsSeed ≠ ""

instance (deJure : HierarchyData) (t : MapTitle) : Decidable (titleFieldsOk deJure t) := by
  unfold titleFieldsOk; infer_instance

def validateTitles (titles : List MapTitle) (deJure : HierarchyData) :
    Except String (List MapTitle) := do
  assertE ((titles.map (fun t => t.id)).Nodup) "titles id duplicated"
  assertE (∀ t ∈ titles, titleFieldsOk deJure t) "titles field check failed"
  assertE (((titles.filter (fun t => t.rank = TitleRank.county)).map
      (fun t => t.entityId)).dedup.length = expectedCountByRank .county deJure)
    "titles missing county entity ids"
  assertE (((titles.filter (fun t => t.rank = TitleRank.duchy)).map
      (fun t => t.entityId)).dedup.length = expectedCountByRank .duchy deJure)
    "titles missing duchy entity ids"
  assertE (((titles.filter (fun t => t.rank = TitleRank.kingdom)).map
      (fun t => t.entityId)).dedup.length = expectedCountByRank .kingdom deJure)
    "titles missing kingdom entity ids"
  pure titles

def characterFieldsOk (c : MapCharacter) : Prop :=
  c.name ≠ "" ∧ c.heldTitleIds ≠ [] ∧ c.heldTitleIds.Nodup ∧
    c.primaryTitleId ∈ c.heldTitleIds

instance (c : MapCharacter) : Decidable (characterFieldsOk c) := by
  unfold characterFieldsOk; infer_instance

def validateCharacters (characters : List MapCharacter) :
    Except String (List MapCharacter) := do
  assertE ((characters.map (fun c => c.id)).Nodup) "characters id duplicated"
  assertE (∀ c ∈ characters, characterFieldsOk c) "characters field check failed"
  pure characters

def parentRankIsB (titles : List MapTitle) (pid : Option TitleId) (r : TitleRank) :
    Bool :=
  match pid with
  | none => false
  | some p =>
    match titleMapGet titles p with
    | none => false
    | some pt => pt.rank == r

/-- assertTitleParentRelations for one title. -/
def parentRelOkB (titles : List MapTitle) (t : MapTitle) : Bool :=
  match t.rank with
  | .kingdom => t.deJureParentTitleId == none && t.deFactoParentTitleId == none
  | .county => parentRankIsB titles t.deJureParentTitleId .duchy &&
      parentRankIsB titles t.deFactoParentTitleId .duchy
  | .duchy => parentRankIsB titles t.deJureParentTitleId .kingdom &&
      parentRankIsB titles t.deFactoParentTitleId .kingdom

/-- assertTitleHierarchyMatchesModes: every rank:entity title exists and
    its parent pointers equal the hierarchy mappings; title ids are
    collision free. The hierarchies reaching this point are validated,
    so their entries are nonnegative and toNat is the identity on them. -/
def hierarchyMatchOkB (titles : List MapTitle) (deJure deFacto : HierarchyData) :
    Bool :=
  ((List.range deJure.countyNames.length).all (fun countyId =>
    match titleMapGet titles (TitleId.mk .county countyId) with
    | none => false
    | some t =>
      t.deJureParentTitleId ==
          some (TitleId.mk .duchy (deJure.countyToDuchy.getD countyId 0).toNat) &&
        t.deFactoParentTitleId ==
          some (TitleId.mk .duchy (deFacto.countyToDuchy.getD countyId 0).toNat))) &&
  ((List.range deJure.duchyNames.length).all (fun duchyId =>
    match titleMapGet titles (TitleId.mk .duchy duchyId) with
    | none => false
    | some t =>
      t.deJureParentTitleId ==
          some (TitleId.mk .kingdom (deJure.duchyToKingdom.getD duchyId 0).toNat) &&
        t.deFactoParentTitleId ==
          some (TitleId.mk .kingdom (deFacto.duchyToKingdom.getD duchyId 0).toNat))) &&
  ((List.range deJure.kingdomNames.length).all (fun kingdomId =>
    match titleMapGet titles (TitleId.mk .kingdom kingdomId) with
    | none => false
    | some t => t.deJureParentTitleId == none && t.deFactoParentTitleId == none)) &&
  decide ((titles.map (fun t => t.id)).dedup.length = titles.length)

/-- One character's held titles all exist and point back at it. -/
def heldConsistentB (titles : List MapTitle) (c : MapCharacter) : Bool :=
  c.heldTitleIds.all (fun id =>
    match titleMapGet titles id with
    | none => false
    | some t => t.holderCharacterId == c.id)

def validateWorldMapData (d : WorldMapDataV2) : Except String WorldMapDataV2 := do
  assertE (d.version = MAP_VERSION) "version mismatch"
  assertE (d.grid.width = MAP_WIDTH) "grid.width mismatch"
  assertE (d.grid.height = MAP_HEIGHT) "grid.height mismatch"
  assertE (d.grid.tileSizePx = TILE_SIZE_PX) "grid.tileSizePx mismatch"
  assertE (d.grid.chunkSize = CHUNK_SIZE) "grid.chunkSize mismatch"
  let deJure ← validateHierarchy d.deJure (MAP_WIDTH * MAP_HEIGHT) "deJure"
  let deFacto ← validateHierarchy d.deFacto (MAP_WIDTH * MAP_HEIGHT) "deFacto"
  assertE (deJure.tileToCounty = deFacto.tileToCounty)
    "deJure/deFacto tileToCounty differs"
  assertE (deJure.countyNames = deFacto.countyNames)
    "deJure/deFacto countyNames differs"
  assertE (deJure.countyToDuchy.length = deFacto.countyToDuchy.length ∧
      deJure.countyToDuchy ≠ deFacto.countyToDuchy)
    "deJure/deFacto countyToDuchy must not be identical"
  let titles ← validateTitles d.titles deJure
  let characters ← validateCharacters d.characters
  assertE (characters.length = deJure.countyNames.length)
    "character count must equal county count"
  assertE (∀ t ∈ titles, parentRelOkB titles t = true) "title parent relations"
  assertE (hierarchyMatchOkB titles deJure deFacto = true) "title hierarchy mismatch"
  assertE (∀ t ∈ titles, ∃ c ∈ characters, c.id = t.holderCharacterId)
    "title holder does not exist"
  assertE (∀ c ∈ characters, heldConsistentB titles c = true) "held title consistency"
  assertE ((characters.flatMap (fun c => c.heldTitleIds)).Nodup)
    "title appears in multiple heldTitleIds"
  assertE (∀ c ∈ characters, c.primaryTitleId ∈ c.heldTitleIds)
    "primary title not in held title list"
  assertE (∀ t ∈ titles, ∃ c ∈ characters, t.id ∈ c.heldTitleIds)
    "title is not held by any character"
  pure
    { version := MAP_VERSION,
      grid :=
        { width := MAP_WIDTH, height := MAP_HEIGHT, tileSizePx := TILE_SIZE_PX,
          chunkSize := CHUNK_SIZE, seed := d.grid.seed },
      deJure := deJure, deFacto := deFacto, titles := titles,
      characters := characters }

/-- The generation result conditioned on a normal return: out-of-fuel
    and thrown-error runs satisfy every such claim vacuously. -/
def onOk {α : Type} (x : Option (Except String α)) (P : α → Prop) : Prop :=
  match x with
  | some (.ok a) => P a
  | _ => True

theorem getD_eq_some {α : Type} {l : List α} {i : Nat} {d a : α}
    (h : l[i]? = some a) : l.getD i d = a := by
  simp [List.getD_eq_getElem?_getD, h]

theorem getD_mem_of_lt {α : Type} (l : List α) (i : Nat) (d : α)
    (h : i < l.length) : l.getD i d ∈ l := by
  rw [List.getD_eq_getElem?_getD, List.getElem?_eq_getElem h]
  exact List.getElem_mem h

theorem mem_of_getD_ne_default {α : Type} [DecidableEq α] {l : List α} {i : Nat}
    {d : α} (h : l.getD i d ≠ d) : l[i]? = some (l.getD i d) := by
  rw [List.getD_eq_getElem?_getD] at h
  cases hi : l[i]? with
  | none => rw [hi] at h; simp at h
  | some a => rw [List.getD_eq_getElem?_getD, hi]; simp

theorem nextInt_ok (m s : Nat) (h : m ≠ 0) :
    nextInt m s = .ok ((xsStep s % U32) * m / U32, xsStep s) := by
  simp [nextInt, h]

theorem nextInt_val_lt (m s : Nat) (h : m ≠ 0) :
    (xsStep s % U32) * m / U32 < m := by
  have hU : 0 < U32 := by decide
  rw [Nat.div_lt_iff_lt_mul hU]
  have h1 : xsStep s % U32 < U32 := Nat.mod_lt _ hU
  calc (xsStep s % U32) * m < U32 * m := by
        exact Nat.mul_lt_mul_of_lt_of_le h1 (le_refl m) (Nat.pos_of_ne_zero h)
    _ = m * U32 := Nat.mul_comm _ _

/-- Setting a position that holds a p-true value to a p-false value
    drops countP by one. -/
theorem countP_set_true_to_false {α : Type} (p : α → Bool) (l : List α) (i : Nat)
    (a b : α) (hi : l[i]? = some a) (ha : p a = true) (hb : p b = false) :
    (l.set i b).countP p + 1 = l.countP p := by
  have hlen : i < l.length := by
    by_contra h
    rw [List.getElem?_eq_none (Nat.le_of_not_lt h)] at hi
    exact Option.noConfusion hi
  have hset : l.set i b = l.take i ++ b :: l.drop (i + 1) := by
    rw [List.set_eq_take_append_cons_drop]
    simp [hlen]
  have hl : l = l.take i ++ a :: l.drop (i + 1) := by
    conv_lhs => rw [← List.take_append_drop i l]
    congr 1
    rw [List.drop_eq_getElem_cons hlen]
    congr 1
    have := List.getElem?_eq_getElem hlen
    rw [this] at hi
    exact Option.some_injective _ hi
  rw [hset]
  conv_rhs => rw [hl]
  simp [List.countP_append, List.countP_cons, ha, hb]
  omega

/-- Entries of a set are entries of the list or the new value. -/
theorem mem_set_sub {α : Type} {l : List α} {i : Nat} {b v : α}
    (h : v ∈ l.set i b) : v ∈ l ∨ v = b := by
  rcases List.mem_iff_getElem?.mp h with ⟨j, hj⟩
  by_cases hij : i = j
  · subst hij
    by_cases hlen : i < l.length
    · rw [List.getElem?_set_self hlen] at hj
      right; exact (Option.some_injective _ hj).symm
    · rw [List.set_eq_of_length_le (Nat.le_of_not_lt hlen)] at h
      left; exact h
  · rw [List.getElem?_set_ne hij] at hj
    left; exact List.mem_iff_getElem?.mpr ⟨j, hj⟩

/-- Membership witnessed away from the set position survives the set. -/
theorem mem_set_of_mem_ne {α : Type} [DecidableEq α] {l : List α} {i : Nat} {b v : α}
    (hv : v ∈ l) (hne : l[i]? ≠ some v) : v ∈ l.set i b := by
  rcases List.mem_iff_getElem?.mp hv with ⟨j, hj⟩
  have hij : i ≠ j := by
    intro h
    subst h
    exact hne hj
  exact List.mem_iff_getElem?.mpr ⟨j, by rw [List.getElem?_set_ne hij]; exact hj⟩

/-- Entry bounds and coverage invariant carried through region growth. -/
def OwnerInv (totalNodes seedCount : Nat) (owner : List Int) (unassigned : Nat) :
    Prop :=
  owner.length = totalNodes ∧
  owner.countP (fun v => v == -1) = unassigned ∧
  (∀ v ∈ owner, v = -1 ∨ (0 ≤ v ∧ v < seedCount)) ∧
  (∀ r : Nat, r < seedCount → (r : Int) ∈ owner)

theorem ownerInv_claim (totalNodes seedCount : Nat) (owner : List Int)
    (regionId nextNode : Nat) (unassigned : Nat)
    (hr : regionId < seedCount)
    (hclaim : owner.getD nextNode 0 = -1)
    (hinv : OwnerInv totalNodes seedCount owner unassigned) :
    OwnerInv totalNodes seedCount (owner.set nextNode (regionId : Int))
      (unassigned - 1) := by
  obtain ⟨hlen, hcount, hentries, hrep⟩ := hinv
  have hsome : owner[nextNode]? = some (-1) := by
    have := mem_of_getD_ne_default (l := owner) (i := nextNode) (d := (0 : Int))
      (by rw [hclaim]; decide)
    rw [hclaim] at this
    exact this
  have hpos : 0 < unassigned := by
    rw [← hcount]
    have hlt : nextNode < owner.length := by
      by_contra h
      rw [List.getElem?_eq_none (Nat.le_of_not_lt h)] at hsome
      exact Option.noConfusion hsome
    have : owner.countP (fun v => v == -1) ≠ 0 := by
      intro h0
      have := List.countP_eq_zero.mp h0 (-1) (List.mem_iff_getElem?.mpr ⟨_, hsome⟩)
      simp at this
    omega
  refine ⟨by rw [List.length_set]; exact hlen, ?_, ?_, ?_⟩
  · have := countP_set_true_to_false (fun v => v == -1) owner nextNode (-1)
      (regionId : Int) hsome (by decide) (by simp)
    omega
  · intro v hv
    rcases mem_set_sub hv with h | h
    · exact hentries v h
    · right
      subst h
      constructor
      · exact Int.ofNat_nonneg regionId
      · exact_mod_cast hr
  · intro r hrlt
    refine mem_set_of_mem_ne (hrep r hrlt) ?_
    rw [hsome]
    intro h
    have : ((-1 : Int)) = (r : Int) := Option.some_injective _ h
    omega

theorem growInner_inv (adjacency : List (List Nat)) (regionId : Nat)
    (totalNodes seedCount : Nat) (hr : regionId < seedCount) :
    ∀ (fuel : Nat) (frontier : List Nat) (owner : List Int) (sizes : List Nat)
      (unassigned rng : Nat) (f2 : List Nat) (o2 : List Int) (s2 : List Nat)
      (u2 r2 : Nat),
    growInner adjacency regionId fuel frontier owner sizes unassigned rng =
      some (.ok (f2, o2, s2, u2, r2)) →
    OwnerInv totalNodes seedCount owner unassigned →
    OwnerInv totalNodes seedCount o2 u2 := by
  intro fuel
  induction fuel with
  | zero =>
    intro frontier owner sizes unassigned rng f2 o2 s2 u2 r2 h hinv
    by_cases hf : frontier.length = 0
    · simp only [growInner, hf, if_pos] at h
      simp only [Option.some.injEq, Except.ok.injEq, Prod.mk.injEq] at h
      obtain ⟨-, ho, -, hu, -⟩ := h
      rw [← ho, ← hu]
      exact hinv
    · simp only [growInner, hf, if_false, if_neg] at h
      exact Option.noConfusion h
  | succ fuel ih =>
    intro frontier owner sizes unassigned rng f2 o2 s2 u2 r2 h hinv
    by_cases hf : frontier.length = 0
    · simp only [growInner, hf, if_pos] at h
      simp only [Option.some.injEq, Except.ok.injEq, Prod.mk.injEq] at h
      obtain ⟨-, ho, -, hu, -⟩ := h
      rw [← ho, ← hu]
      exact hinv
    · rw [show growInner adjacency regionId (fuel + 1) frontier owner sizes
          unassigned rng =
        (if frontier.length = 0 then
          some (.ok (frontier, owner, sizes, unassigned, rng))
        else
          match nextInt frontier.length rng with
          | .error e => some (.error e)
          | .ok (frontierIndex, r1) =>
            let node := frontier.getD frontierIndex 0
            match atE adjacency node "adjacency" with
            | .error e => some (.error e)
            | .ok neighbors =>
              let unclaimedNeighbors :=
                neighbors.filter (fun next => owner.getD next 0 == -1)
              if unclaimedNeighbors.length = 0 then
                growInner adjacency regionId fuel
                  (removeAtSwap frontier frontierIndex) owner sizes unassigned r1
              else
                match nextInt unclaimedNeighbors.length r1 with
                | .error e => some (.error e)
                | .ok (choiceIndex, r2) =>
                  let nextNode := unclaimedNeighbors.getD choiceIndex 0
                  some (.ok (frontier ++ [nextNode],
                    owner.set nextNode (regionId : Int),
                    sizes.set regionId (sizes.getD regionId 0 + 1),
                    unassigned - 1, r2))) from rfl] at h
      rw [if_neg hf, nextInt_ok _ _ hf] at h
      simp only at h
      cases hadj : atE adjacency (frontier.getD ((xsStep rng % U32) *
          frontier.length / U32) 0) "adjacency" with
      | error e => rw [hadj] at h; simp at h
      | ok neighbors =>
        rw [hadj] at h
        simp only at h
        by_cases hu0 : (neighbors.filter (fun next => owner.getD next 0 == -1)).length = 0
        · rw [if_pos hu0] at h
          exact ih _ _ _ _ _ _ _ _ _ _ h hinv
        · rw [if_neg hu0, nextInt_ok _ _ hu0] at h
          simp only [Option.some.injEq, Except.ok.injEq, Prod.mk.injEq] at h
          obtain ⟨-, ho, -, hu, -⟩ := h
          rw [← ho, ← hu]
          have hlt := nextInt_val_lt
            (neighbors.filter (fun next => owner.getD next 0 == -1)).length
            (xsStep rng) hu0
          have hmem := getD_mem_of_lt
            (neighbors.filter (fun next => owner.getD next 0 == -1)) _ 0 hlt
          have hval := (List.mem_filter.mp hmem).2
          have hclaim : owner.getD ((neighbors.filter
              (fun next => owner.getD next 0 == -1)).getD ((xsStep (xsStep rng) % U32) *
              (neighbors.filter (fun next => owner.getD next 0 == -1)).length / U32) 0)
              0 = -1 := by
            have h1 : (owner.getD ((neighbors.filter
                (fun next => owner.getD next 0 == -1)).getD ((xsStep (xsStep rng) % U32) *
                (neighbors.filter (fun next => owner.getD next 0 == -1)).length / U32) 0)
                0 == (-1 : Int)) = true := by simpa using hval
            exact eq_of_beq h1
          exact ownerInv_claim totalNodes seedCount owner regionId _ unassigned hr
            hclaim hinv

theorem growLoop_inv (adjacency : List (List Nat)) (desired : List Nat)
    (totalNodes seedCount : Nat) :
    ∀ (fuel : Nat) (st : GrowState) (owner : List Int),
    growLoop adjacency desired seedCount fuel st = some (.ok owner) →
    OwnerInv totalNodes seedCount st.owner st.unassigned →
    owner.length = totalNodes ∧ (∀ v ∈ owner, 0 ≤ v ∧ v < seedCount) ∧
      (∀ r : Nat, r < seedCount → (r : Int) ∈ owner) := by
  intro fuel
  induction fuel with
  | zero =>
    intro st owner h hinv
    simp [growLoop] at h
  | succ fuel ih =>
    intro st owner h hinv
    rw [show growLoop adjacency desired seedCount (fuel + 1) st =
      (if st.unassigned = 0 then some (.ok st.owner)
      else
        let fallback := (List.range seedCount).filter
          (fun r => !(st.frontiers.getD r []).isEmpty)
        let preferred := (List.range seedCount).filter
          (fun r => !(st.frontiers.getD r []).isEmpty &&
            decide (st.regionSizes.getD r 0 < desired.getD r 0))
        let candidates := if preferred.isEmpty then fallback else preferred
        if candidates.isEmpty then
          some (.error "regionGrow stuck: no expandable frontier while nodes remain")
        else
          match nextInt candidates.length st.rng with
          | .error e => some (.error e)
          | .ok (ci, r1) =>
            let regionId := candidates.getD ci 0
            let frontier := st.frontiers.getD regionId []
            match growInner adjacency regionId frontier.length frontier
                st.owner st.regionSizes st.unassigned r1 with
            | none => none
            | some (.error e) => some (.error e)
            | some (.ok (frontier2, owner2, sizes2, unassigned2, rng2)) =>
              growLoop adjacency desired seedCount fuel
                { owner := owner2, regionSizes := sizes2,
                  frontiers := st.frontiers.set regionId frontier2,
                  unassigned := unassigned2, rng := rng2 }) from rfl] at h
    by_cases hu : st.unassigned = 0
    · rw [if_pos hu] at h
      simp only [Option.some.injEq, Except.ok.injEq] at h
      subst h
      obtain ⟨hlen, hcount, hentries, hrep⟩ := hinv
      rw [hu] at hcount
      refine ⟨hlen, ?_, hrep⟩
      intro v hv
      rcases hentries v hv with h1 | h1
      · exfalso
        have := List.countP_eq_zero.mp hcount v hv
        rw [h1] at this
        simp at this
      · exact h1
    · rw [if_neg hu] at h
      simp only at h
      set fallback := (List.range seedCount).filter
        (fun r => !(st.frontiers.getD r []).isEmpty) with hfb
      set preferred := (List.range seedCount).filter
        (fun r => !(st.frontiers.getD r []).isEmpty &&
          decide (st.regionSizes.getD r 0 < desired.getD r 0)) with hpf
      set candidates := if preferred.isEmpty then fallback else preferred with hcand
      by_cases hc : candidates.isEmpty
      · rw [if_pos hc] at h
        simp at h
      · rw [if_neg hc] at h
        have hclen : candidates.length ≠ 0 := by
          intro h0
          exact hc (List.isEmpty_iff_length_eq_zero.mpr h0)
        rw [nextInt_ok _ _ hclen] at h
        simp only at h
        have hcilt := nextInt_val_lt candidates.length st.rng hclen
        have hrmem : candidates.getD ((xsStep st.rng % U32) * candidates.length / U32) 0
            ∈ candidates := getD_mem_of_lt _ _ _ hcilt
        have hsub : ∀ x ∈ candidates, x ∈ List.range seedCount := by
          intro x hx
          rw [hcand] at hx
          by_cases hp : preferred.isEmpty
          · rw [if_pos hp] at hx
            exact (List.mem_filter.mp hx).1
          · rw [if_neg hp] at hx
            exact (List.mem_filter.mp hx).1
        have hrlt : candidates.getD ((xsStep st.rng % U32) * candidates.length / U32) 0
            < seedCount := List.mem_range.mp (hsub _ hrmem)
        cases hgi : growInner adjacency
            (candidates.getD ((xsStep st.rng % U32) * candidates.length / U32) 0)
            (st.frontiers.getD
              (candidates.getD ((xsStep st.rng % U32) * candidates.length / U32) 0)
              []).length
            (st.frontiers.getD
              (candidates.getD ((xsStep st.rng % U32) * candidates.length / U32) 0) [])
            st.owner st.regionSizes st.unassigned (xsStep st.rng) with
        | none => rw [hgi] at h; exact Option.noConfusion h
        | some res =>
          cases res with
          | error e => rw [hgi] at h; simp at h
          | ok tup =>
            obtain ⟨frontier2, owner2, sizes2, unassigned2, rng2⟩ := tup
            rw [hgi] at h
            simp only at h
            have hinv2 := growInner_inv adjacency _ totalNodes seedCount hrlt _ _ _ _
              _ _ _ _ _ _ _ hgi hinv
            exact ih _ owner h hinv2

theorem chooseSeedsLoop_spec (totalNodes seedCount : Nat) :
    ∀ (fuel : Nat) (out : List Nat) (rng : Nat) (res : List Nat) (r2 : Nat),
    chooseSeedsLoop totalNodes seedCount fuel out rng = some (.ok (res, r2)) →
    out.Nodup → (∀ x ∈ out, x < totalNodes) → out.length ≤ seedCount →
    res.Nodup ∧ (∀ x ∈ res, x < totalNodes) ∧ res.length = seedCount := by
  intro fuel
  induction fuel with
  | zero =>
    intro out rng res r2 h hnd hbd hle
    by_cases hexit : seedCount ≤ out.length
    · simp only [chooseSeedsLoop, hexit, if_pos] at h
      simp only [Option.some.injEq, Except.ok.injEq, Prod.mk.injEq] at h
      obtain ⟨h1, -⟩ := h
      subst h1
      exact ⟨hnd, hbd, Nat.le_antisymm hle hexit⟩
    · simp only [chooseSeedsLoop, hexit, if_neg, if_false] at h
      exact Option.noConfusion h
  | succ fuel ih =>
    intro out rng res r2 h hnd hbd hle
    by_cases hexit : seedCount ≤ out.length
    · simp only [chooseSeedsLoop, hexit, if_pos] at h
      simp only [Option.some.injEq, Except.ok.injEq, Prod.mk.injEq] at h
      obtain ⟨h1, -⟩ := h
      subst h1
      exact ⟨hnd, hbd, Nat.le_antisymm hle hexit⟩
    · rw [show chooseSeedsLoop totalNodes seedCount (fuel + 1) out rng =
        (if seedCount ≤ out.length then some (.ok (out, rng))
        else
          match nextInt totalNodes rng with
          | .error e => some (.error e)
          | .ok (candidate, r1) =>
            if candidate ∈ out then chooseSeedsLoop totalNodes seedCount fuel out r1
            else chooseSeedsLoop totalNodes seedCount fuel (out ++ [candidate]) r1)
        from rfl] at h
      rw [if_neg hexit] at h
      by_cases htot : totalNodes = 0
      · rw [htot] at h
        simp [nextInt] at h
      · rw [nextInt_ok _ _ htot] at h
        simp only at h
        by_cases hmem : (xsStep rng % U32) * totalNodes / U32 ∈ out
        · rw [if_pos hmem] at h
          exact ih out _ res r2 h hnd hbd hle
        · rw [if_neg hmem] at h
          refine ih _ _ res r2 h ?_ ?_ ?_
          · simp [List.nodup_append, hnd, hmem]
          · intro x hx
            rcases List.mem_append.mp hx with h1 | h1
            · exact hbd x h1
            · rw [List.mem_singleton.mp h1]
              exact nextInt_val_lt totalNodes rng htot
          · rw [List.length_append, List.length_singleton]
            omega

theorem seedRegions_spec :
    ∀ (seeds : List Nat) (r0 : Nat) (owner : List Int) (sizes : List Nat)
      (frontiers : List (List Nat)),
    seeds.Nodup →
    (∀ s ∈ seeds, owner[s]? = some (-1)) →
    (seedRegions seeds r0 owner sizes frontiers).1.length = owner.length ∧
    (seedRegions seeds r0 owner sizes frontiers).1.countP (fun v => v == -1) +
      seeds.length = owner.countP (fun v => v == -1) ∧
    (∀ v ∈ (seedRegions seeds r0 owner sizes frontiers).1,
      v ∈ owner ∨ ∃ k, k < seeds.length ∧ v = ((r0 + k : Nat) : Int)) ∧
    (∀ k, k < seeds.length →
      (((r0 + k : Nat) : Int)) ∈ (seedRegions seeds r0 owner sizes frontiers).1) ∧
    (∀ j : Nat, j ∉ seeds →
      (seedRegions seeds r0 owner sizes frontiers).1[j]? = owner[j]?) := by
  intro seeds
  induction seeds with
  | nil =>
    intro r0 owner sizes frontiers hnd hneg
    refine ⟨rfl, by simp [seedRegions], ?_, ?_, ?_⟩
    · intro v hv
      exact Or.inl hv
    · intro k hk
      simp at hk
    · intro j hj
      rfl
  | cons seed rest ih =>
    intro r0 owner sizes frontiers hnd hneg
    have hseedmem : owner[seed]? = some (-1) := hneg seed (List.mem_cons_self _ _)
    have hseedlt : seed < owner.length := by
      by_contra hc
      rw [List.getElem?_eq_none (Nat.le_of_not_lt hc)] at hseedmem
      exact Option.noConfusion hseedmem
    have hndrest : rest.Nodup := (List.nodup_cons.mp hnd).2
    have hseednotin : seed ∉ rest := (List.nodup_cons.mp hnd).1
    have hnegrest : ∀ s ∈ rest, (owner.set seed (r0 : Int))[s]? = some (-1) := by
      intro s hs
      have hne : seed ≠ s := by
        intro he
        exact hseednotin (he ▸ hs)
      rw [List.getElem?_set_ne hne]
      exact hneg s (List.mem_cons_of_mem _ hs)
    have hIH := ih (r0 + 1) (owner.set seed (r0 : Int)) (sizes.set r0 1)
      (frontiers.set r0 [seed]) hndrest hnegrest
    obtain ⟨ihlen, ihcount, ihsub, ihcover, ihfix⟩ := hIH
    have hstep : seedRegions (seed :: rest) r0 owner sizes frontiers =
        seedRegions rest (r0 + 1) (owner.set seed (r0 : Int)) (sizes.set r0 1)
          (frontiers.set r0 [seed]) := rfl
    have hcnt : (owner.set seed ((r0 : Nat) : Int)).countP (fun v => v == -1) + 1 =
        owner.countP (fun v => v == -1) :=
      countP_set_true_to_false _ owner seed (-1) (r0 : Int) hseedmem (by decide)
        (by simp)
    refine ⟨?_, ?_, ?_, ?_, ?_⟩
    · rw [hstep]
      rw [ihlen]
      exact List.length_set owner seed _
    · rw [hstep]
      rw [List.length_cons]
      omega
    · intro v hv
      rw [hstep] at hv
      rcases ihsub v hv with h1 | ⟨k, hk, hkv⟩
      · rcases mem_set_sub h1 with h2 | h2
        · exact Or.inl h2
        · right
          exact ⟨0, by simp, by omega⟩
      · right
        refine ⟨k + 1, by simp; omega, by omega⟩
    · intro k hk
      rw [hstep]
      cases k with
      | zero =>
        have := ihfix seed hseednotin
        have hset : (owner.set seed ((r0 : Nat) : Int))[seed]? = some (r0 : Int) :=
          List.getElem?_set_self hseedlt
        rw [hset] at this
        simp only [Nat.add_zero]
        exact List.mem_iff_getElem?.mpr ⟨seed, this⟩
      | succ k =>
        have := ihcover k (by simp at hk; omega)
        have harith : r0 + 1 + k = r0 + (k + 1) := by omega
        rw [harith] at this
        exact this
    · intro j hj
      rw [hstep, ihfix j (fun hc => hj (List.mem_cons_of_mem _ hc)),
        List.getElem?_set_ne]
      intro he
      exact hj (he ▸ List.mem_cons_self _ _)

theorem countP_replicate_neg (n : Nat) :
    (List.replicate n (-1 : Int)).countP (fun v => v == -1) = n := by
  induction n with
  | zero => rfl
  | succ n ih => simp [List.replicate_succ, List.countP_cons, ih]

theorem growLoop_stuck (adjacency : List (List Nat)) (desired : List Nat)
    (seedCount fuel : Nat) (st : GrowState)
    (hempty : ∀ r, r < seedCount → st.frontiers.getD r [] = [])
    (hu : st.unassigned ≠ 0) :
    growLoop adjacency desired seedCount (fuel + 1) st =
      some (.error "regionGrow stuck: no expandable frontier while nodes remain") := by
  rw [show growLoop adjacency desired seedCount (fuel + 1) st =
    (if st.unassigned = 0 then some (.ok st.owner)
    else
      let fallback := (List.range seedCount).filter
        (fun r => !(st.frontiers.getD r []).isEmpty)
      let preferred := (List.range seedCount).filter
        (fun r => !(st.frontiers.getD r []).isEmpty &&
          decide (st.regionSizes.getD r 0 < desired.getD r 0))
      let candidates := if preferred.isEmpty then fallback else preferred
      if candidates.isEmpty then
        some (.error "regionGrow stuck: no expandable frontier while nodes remain")
      else
        match nextInt candidates.length st.rng with
        | .error e => some (.error e)
        | .ok (ci, r1) =>
          let regionId := candidates.getD ci 0
          let frontier := st.frontiers.getD regionId []
          match growInner adjacency regionId frontier.length frontier
              st.owner st.regionSizes st.unassigned r1 with
          | none => none
          | some (.error e) => some (.error e)
          | some (.ok (frontier2, owner2, sizes2, unassigned2, rng2)) =>
            growLoop adjacency desired seedCount fuel
              { owner := owner2, regionSizes := sizes2,
                frontiers := st.frontiers.set regionId frontier2,
                unassigned := unassigned2, rng := rng2 }) from rfl]
  rw [if_neg hu]
  have hfb : (List.range seedCount).filter
      (fun r => !(st.frontiers.getD r []).isEmpty) = [] := by
    rw [List.filter_eq_nil_iff]
    intro a ha
    rw [hempty a (List.mem_range.mp ha)]
    simp
  have hpf : (List.range seedCount).filter
      (fun r => !(st.frontiers.getD r []).isEmpty &&
        decide (st.regionSizes.getD r 0 < desired.getD r 0)) = [] := by
    rw [List.filter_eq_nil_iff]
    intro a ha
    rw [hempty a (List.mem_range.mp ha)]
    simp
  simp only [hfb, hpf, List.isEmpty_nil, if_pos]

theorem regionGrow_spec (totalNodes seedCount : Nat) (rng : Nat)
    (adjacency : List (List Nat)) (f1 f2 f3 : Nat) (owner : List Int)
    (h : regionGrow totalNodes seedCount rng adjacency f1 f2 f3 = some (.ok owner)) :
    owner.length = totalNodes ∧ (∀ v ∈ owner, 0 ≤ v ∧ v < seedCount) ∧
      (∀ r : Nat, r < seedCount → (r : Int) ∈ owner) := by
  unfold regionGrow at h
  cases hbd : buildDesiredSizes totalNodes seedCount rng f1 with
  | none => rw [hbd] at h; exact Option.noConfusion h
  | some res1 =>
    cases res1 with
    | error e => rw [hbd] at h; simp at h
    | ok p1 =>
      obtain ⟨desired, r1⟩ := p1
      rw [hbd] at h
      simp only at h
      cases hcs : chooseUniqueSeeds totalNodes seedCount r1 f2 with
      | none => rw [hcs] at h; exact Option.noConfusion h
      | some res2 =>
        cases res2 with
        | error e => rw [hcs] at h; simp at h
        | ok p2 =>
          obtain ⟨seeds, r2⟩ := p2
          rw [hcs] at h
          simp only at h
          unfold chooseUniqueSeeds at hcs
          by_cases hlt : totalNodes < seedCount
          · rw [if_pos hlt] at hcs; simp at hcs
          · rw [if_neg hlt] at hcs
            have hseeds := chooseSeedsLoop_spec totalNodes seedCount f2 [] r1
              seeds r2 hcs (List.nodup_nil) (by intro x hx; simp at hx)
              (Nat.zero_le _)
            obtain ⟨hnd, hbdd, hlen⟩ := hseeds
            have hneg : ∀ s ∈ seeds, (List.replicate totalNodes (-1 : Int))[s]? =
                some (-1) := by
              intro s hs
              rw [List.getElem?_replicate]
              simp [hbdd s hs]
            have hsr := seedRegions_spec seeds 0 (List.replicate totalNodes (-1))
              (List.replicate seedCount 0) (List.replicate seedCount []) hnd hneg
            obtain ⟨srlen, srcount, srsub, srcover, -⟩ := hsr
            have hinv : OwnerInv totalNodes seedCount
                (seedRegions seeds 0 (List.replicate totalNodes (-1))
                  (List.replicate seedCount 0) (List.replicate seedCount [])).1
                (totalNodes - seedCount) := by
              refine ⟨by rw [srlen]; simp, ?_, ?_, ?_⟩
              · rw [countP_replicate_neg] at srcount
                omega
              · intro v hv
                rcases srsub v hv with h1 | ⟨k, hk, hkv⟩
                · left
                  exact (List.eq_of_mem_replicate h1)
                · right
                  rw [hlen] at hk
                  constructor
                  · rw [hkv]; exact Int.ofNat_nonneg _
                  · rw [hkv]
                    simp
                    omega
              · intro r hr
                have := srcover r (by rw [hlen]; exact hr)
                simpa using this
            exact growLoop_inv adjacency desired totalNodes seedCount f3 _ owner h hinv

/-- C4: for every totalNodes, seedCount between 1 and totalNodes, rng
    state and adjacency graph, a normal return of regionGrow assigns
    every node an owner in [0, seedCount) with every region non-empty
    (the result has length totalNodes); and whenever every frontier is
    empty while nodes remain unclaimed, the growth loop fails with the
    stuck-search error rather than returning a partial assignment. -/
theorem regionGrow_partition (totalNodes seedCount : Nat) (rng : Nat)
    (adjacency : List (List Nat)) (f1 f2 f3 : Nat) (owner : List Int)
    (h1 : 1 ≤ seedCount) (h2 : seedCount ≤ totalNodes)
    (h3 : regionGrow totalNodes seedCount rng adjacency f1 f2 f3 = some (.ok owner)) :
    (owner.length = totalNodes ∧ (∀ v ∈ owner, 0 ≤ v ∧ v < seedCount) ∧
      (∀ r : Nat, r < seedCount → (r : Int) ∈ owner)) ∧
    (∀ (desired : List Nat) (fuel : Nat) (st : GrowState),
      (∀ r, r < seedCount → st.frontiers.getD r [] = []) → st.unassigned ≠ 0 →
      growLoop adjacency desired seedCount (fuel + 1) st =
        some (.error "regionGrow stuck: no expandable frontier while nodes remain")) := by
  constructor
  · exact regionGrow_spec totalNodes seedCount rng adjacency f1 f2 f3 owner h3
  · intro desired fuel st hempty hu
    exact growLoop_stuck adjacency desired seedCount fuel st hempty hu

theorem regionGrow_partition_witness :
    ((([0, 0] : List Int).length = 2 ∧ (∀ v ∈ ([0, 0] : List Int), 0 ≤ v ∧ v < 1) ∧
      (∀ r : Nat, r < 1 → (r : Int) ∈ ([0, 0] : List Int))) ∧
    (∀ (desired : List Nat) (fuel : Nat) (st : GrowState),
      (∀ r, r < 1 → st.frontiers.getD r [] = []) → st.unassigned ≠ 0 →
      growLoop [[1], [0]] desired 1 (fuel + 1) st =
        some (.error "regionGrow stuck: no expandable frontier while nodes remain"))) :=
  regionGrow_partition 2 1 1 [[1], [0]] 50 50 50 [0, 0] (by decide) (by decide)
    (by rfl)

/-- General countP change under a position overwrite. -/
theorem countP_set_general {α : Type} (p : α → Bool) (l : List α) (i : Nat)
    (a b : α) (hi : l[i]? = some a) :
    (l.set i b).countP p + (if p a then 1 else 0) =
      l.countP p + (if p b then 1 else 0) := by
  have hlen : i < l.length := by
    by_contra h
    rw [List.getElem?_eq_none (Nat.le_of_not_lt h)] at hi
    exact Option.noConfusion hi
  have hset : l.set i b = l.take i ++ b :: l.drop (i + 1) := by
    rw [List.set_eq_take_append_cons_drop]
    simp [hlen]
  have hl : l = l.take i ++ a :: l.drop (i + 1) := by
    conv_lhs => rw [← List.take_append_drop i l]
    congr 1
    rw [List.drop_eq_getElem_cons hlen]
    congr 1
    have := List.getElem?_eq_getElem hlen
    rw [this] at hi
    exact Option.some_injective _ hi
  rw [hset]
  conv_rhs => rw [hl]
  simp [List.countP_append, List.countP_cons]
  by_cases hpa : p a <;> by_cases hpb : p b <;> simp [hpa, hpb] <;> omega

theorem insertIfAbsent_nodup {α : Type} [DecidableEq α] (l : List α) (a : α)
    (h : l.Nodup) : (insertIfAbsent l a).Nodup := by
  unfold insertIfAbsent
  by_cases hm : a ∈ l
  · simpa [hm]
  · simp [hm, List.nodup_append, h]

theorem insertIfAbsent_mem {α : Type} [DecidableEq α] (l : List α) (a x : α) :
    x ∈ insertIfAbsent l a ↔ x ∈ l ∨ x = a := by
  unfold insertIfAbsent
  by_cases hm : a ∈ l
  · simp only [hm, if_pos]
    constructor
    · exact Or.inl
    · rintro (h | h)
      · exact h
      · rw [h]; exact hm
  · simp [hm]

theorem buildBucketCountsAux (bucketCount : Nat) :
    ∀ (l : List Int) (acc counts : List Nat),
    acc.length = bucketCount →
    l.foldlM
      (fun counts bucketId =>
        if 0 ≤ bucketId ∧ bucketId.toNat < counts.length then
          Except.ok (counts.set bucketId.toNat (counts.getD bucketId.toNat 0 + 1))
        else Except.error "assignment out of bounds")
      acc = .ok counts →
    counts.length = bucketCount ∧
    (∀ b : Nat, b < bucketCount →
      counts.getD b 0 = acc.getD b 0 + l.countP (fun v => v == (b : Int))) ∧
    (∀ v ∈ l, 0 ≤ v ∧ v < (bucketCount : Int)) := by
  intro l
  induction l with
  | nil =>
    intro acc counts hlen h
    simp only [List.foldlM, pure, Except.pure, Except.ok.injEq] at h
    subst h
    refine ⟨hlen, ?_, ?_⟩
    · intro b hb
      simp
    · intro v hv
      simp at hv
  | cons v rest ih =>
    intro acc counts hlen h
    rw [List.foldlM_cons] at h
    by_cases hb : 0 ≤ v ∧ v.toNat < acc.length
    · rw [if_pos hb] at h
      have hbind : (Except.ok (ε := String)
          (acc.set v.toNat (acc.getD v.toNat 0 + 1)) >>= fun acc2 =>
          rest.foldlM
            (fun counts bucketId =>
              if 0 ≤ bucketId ∧ bucketId.toNat < counts.length then
                Except.ok (counts.set bucketId.toNat (counts.getD bucketId.toNat 0 + 1))
              else Except.error "assignment out of bounds") acc2) =
          rest.foldlM
            (fun counts bucketId =>
              if 0 ≤ bucketId ∧ bucketId.toNat < counts.length then
                Except.ok (counts.set bucketId.toNat (counts.getD bucketId.toNat 0 + 1))
              else Except.error "assignment out of bounds")
            (acc.set v.toNat (acc.getD v.toNat 0 + 1)) := rfl
      rw [hbind] at h
      have hrec := ih (acc.set v.toNat (acc.getD v.toNat 0 + 1)) counts
        (by rw [List.length_set]; exact hlen) h
      obtain ⟨h1, h2, h3⟩ := hrec
      refine ⟨h1, ?_, ?_⟩
      · intro b hblt
        rw [h2 b hblt, List.countP_cons]
        by_cases heq : b = v.toNat
        · subst heq
          have hval : (v == ((v.toNat : Nat) : Int)) = true := by
            simp [Int.toNat_of_nonneg hb.1]
          have hset : (acc.set v.toNat (acc.getD v.toNat 0 + 1)).getD v.toNat 0 =
              acc.getD v.toNat 0 + 1 := by
            rw [List.getD_eq_getElem?_getD,
              List.getElem?_set_self (by rw [← hlen] at hblt; exact hblt)]
            rfl
          rw [hset]
          simp only [hval, if_true]
          omega
        · have hval : (v == ((b : Nat) : Int)) = false := by
            simp only [beq_eq_false_iff_ne, ne_eq]
            intro hc
            have htn : v.toNat = b := by rw [hc]; simp
            exact heq htn.symm
          have hset : (acc.set v.toNat (acc.getD v.toNat 0 + 1)).getD b 0 =
              acc.getD b 0 := by
            rw [List.getD_eq_getElem?_getD, List.getElem?_set_ne (fun hc => heq hc.symm),
              ← List.getD_eq_getElem?_getD]
          rw [hset]
          simp [hval]
      · intro w hw
        rcases List.mem_cons.mp hw with hwv | hwr
        · subst hwv
          refine ⟨hb.1, ?_⟩
          have := hb.2
          rw [hlen] at this
          omega
        · exact h3 w hwr
    · rw [if_neg hb] at h
      have hbind : (Except.error (α := List Nat) "assignment out of bounds" >>=
          fun acc2 =>
          rest.foldlM
            (fun counts bucketId =>
              if 0 ≤ bucketId ∧ bucketId.toNat < counts.length then
                Except.ok (counts.set bucketId.toNat (counts.getD bucketId.toNat 0 + 1))
              else Except.error "assignment out of bounds") acc2) =
          Except.error (α := List Nat) "assignment out of bounds" := rfl
      rw [hbind] at h
      exact Except.noConfusion h

theorem buildBucketCounts_spec (assignments : List Int) (bucketCount : Nat)
    (counts : List Nat) (h : buildBucketCounts assignments bucketCount = .ok counts) :
    counts.length = bucketCount ∧
    (∀ b : Nat, b < bucketCount →
      counts.getD b 0 = assignments.countP (fun v => v == (b : Int))) ∧
    (∀ v ∈ assignments, 0 ≤ v ∧ v < (bucketCount : Int)) := by
  unfold buildBucketCounts at h
  have := buildBucketCountsAux bucketCount assignments
    (List.replicate bucketCount 0) counts (by simp) h
  obtain ⟨h1, h2, h3⟩ := this
  refine ⟨h1, ?_, h3⟩
  intro b hb
  rw [h2 b hb]
  simp [List.getD_eq_getElem?_getD, List.getElem?_replicate, hb]

theorem atE_ok {α : Type} {l : List α} {i : Nat} {lab : String} {a : α}
    (h : atE l i lab = .ok a) : l[i]? = some a := by
  unfold atE at h
  cases hi : l[i]? with
  | none => rw [hi] at h; exact Except.noConfusion h
  | some b =>
    rw [hi] at h
    simp only [Except.ok.injEq] at h
    rw [h]

theorem atIntE_ok {α : Type} {l : List α} {i : Int} {lab : String} {a : α}
    (h : atIntE l i lab = .ok a) : 0 ≤ i ∧ l[i.toNat]? = some a := by
  unfold atIntE at h
  by_cases hi : 0 ≤ i
  · rw [if_pos hi] at h
    exact ⟨hi, atE_ok h⟩
  · rw [if_neg hi] at h
    exact Except.noConfusion h

theorem getD_set_ne_nat {α : Type} (l : List α) (i j : Nat) (a d : α)
    (h : i ≠ j) : (l.set i a).getD j d = l.getD j d := by
  rw [List.getD_eq_getElem?_getD, List.getElem?_set_ne h, ← List.getD_eq_getElem?_getD]

theorem getD_set_self_nat {α : Type} (l : List α) (i : Nat) (a d : α)
    (h : i < l.length) : (l.set i a).getD i d = a := by
  rw [List.getD_eq_getElem?_getD, List.getElem?_set_self h]
  rfl

/-- Every candidate bucket collected by the neighbor scan differs from
    the source bucket. -/
theorem candFold_ne (out : List Int) (sourceBucket : Int) :
    ∀ (neighbors : List Nat) (acc candidates : List Int),
    (∀ x ∈ acc, x ≠ sourceBucket) →
    neighbors.foldlM
      (fun acc neighborNode =>
        (match atE out neighborNode "out" with
        | .error e => .error e
        | .ok candidateBucket =>
          .ok (if candidateBucket ≠ sourceBucket
            then insertIfAbsent acc candidateBucket else acc) :
          Except String (List Int)))
      acc = .ok candidates →
    ∀ x ∈ candidates, x ≠ sourceBucket := by
  intro neighbors
  induction neighbors with
  | nil =>
    intro acc candidates hacc h
    simp only [List.foldlM, pure, Except.pure, Except.ok.injEq] at h
    subst h
    exact hacc
  | cons n rest ih =>
    intro acc candidates hacc h
    rw [List.foldlM_cons] at h
    cases hat : atE out n "out" with
    | error e =>
      rw [hat] at h
      exact Except.noConfusion h
    | ok candidateBucket =>
      rw [hat] at h
      simp only at h
      by_cases hne : candidateBucket ≠ sourceBucket
      · rw [if_pos hne] at h
        refine ih (insertIfAbsent acc candidateBucket) candidates ?_ h
        intro x hx
        rcases (insertIfAbsent_mem acc candidateBucket x).mp hx with h1 | h1
        · exact hacc x h1
        · rw [h1]; exact hne
      · rw [if_neg hne] at h
        exact ih acc candidates hacc h

/-- The loop invariant of perturbAssignments: the out array keeps the
    base length, changedIndices is exactly (and without duplicates) the
    set of positions where out differs from base, and counts is the
    bucket histogram of out. -/
def PerturbInv (base : List Int) (bucketCount : Nat) (out : List Int)
    (counts : List Nat) (changed : List Nat) : Prop :=
  out.length = base.length ∧
  changed.Nodup ∧
  (∀ i : Nat, i ∈ changed ↔ out.getD i 0 ≠ base.getD i 0) ∧
  (∀ b : Nat, b < bucketCount →
    counts.getD b 0 = out.countP (fun v => v == (b : Int))) ∧
  counts.length = bucketCount ∧
  (∀ v ∈ out, 0 ≤ v ∧ v < (bucketCount : Int))

theorem int_toNat_ne {a b : Int} (h0a : 0 ≤ a) (h0b : 0 ≤ b) (h : a ≠ b) :
    a.toNat ≠ b.toNat := by
  intro hc
  apply h
  omega

theorem perturb_move_inv (base : List Int) (bucketCount : Nat)
    (out : List Int) (counts : List Nat) (changed : List Nat)
    (nodeId : Nat) (cnt tcnt : Nat) (targetBucket : Int)
    (hnode : nodeId < out.length)
    (hsb0 : 0 ≤ out.getD nodeId 0)
    (hsbm : counts[(out.getD nodeId 0).toNat]? = some cnt)
    (hcntge : 2 ≤ cnt)
    (htne : targetBucket ≠ out.getD nodeId 0)
    (htb0 : 0 ≤ targetBucket)
    (htbm : (counts.set (out.getD nodeId 0).toNat (cnt - 1))[targetBucket.toNat]? =
      some tcnt)
    (hinv : PerturbInv base bucketCount out counts changed) :
    PerturbInv base bucketCount (out.set nodeId targetBucket)
      ((counts.set (out.getD nodeId 0).toNat (cnt - 1)).set targetBucket.toNat
        (tcnt + 1))
      (if (out.set nodeId targetBucket).getD nodeId 0 = base.getD nodeId 0
        then changed.erase nodeId else insertIfAbsent changed nodeId) := by
  obtain ⟨hlen, hnd, hchg, hcnts, hclen, hbnd⟩ := hinv
  have hsbn : (out.getD nodeId 0).toNat < counts.length := by
    by_contra hc
    rw [List.getElem?_eq_none (Nat.le_of_not_lt hc)] at hsbm
    exact Option.noConfusion hsbm
  have htbn : targetBucket.toNat < counts.length := by
    by_contra hc
    rw [List.getElem?_eq_none] at htbm
    · exact Option.noConfusion htbm
    · rw [List.length_set]
      exact Nat.le_of_not_lt hc
  have hne : (out.getD nodeId 0).toNat ≠ targetBucket.toNat :=
    int_toNat_ne hsb0 htb0 (fun h => htne h.symm)
  have houtnode : out[nodeId]? = some (out.getD nodeId 0) := by
    rw [List.getD_eq_getElem?_getD, List.getElem?_eq_getElem hnode]
    rfl
  have hout2node : (out.set nodeId targetBucket).getD nodeId 0 = targetBucket :=
    getD_set_self_nat out nodeId targetBucket 0 hnode
  have hcntval : counts.getD (out.getD nodeId 0).toNat 0 = cnt := getD_eq_some hsbm
  have htcntval : (counts.set (out.getD nodeId 0).toNat (cnt - 1)).getD
      targetBucket.toNat 0 = tcnt := getD_eq_some htbm
  have htblt : targetBucket < (bucketCount : Int) := by
    rw [← hclen]
    omega
  refine ⟨by rw [List.length_set]; exact hlen, ?_, ?_, ?_, ?_, ?_⟩
  · by_cases hback : (out.set nodeId targetBucket).getD nodeId 0 = base.getD nodeId 0
    · rw [if_pos hback]
      exact hnd.erase nodeId
    · rw [if_neg hback]
      exact insertIfAbsent_nodup changed nodeId hnd
  · intro i
    by_cases hi : i = nodeId
    · subst hi
      by_cases hback : (out.set i targetBucket).getD i 0 = base.getD i 0
      · rw [if_pos hback]
        constructor
        · intro hmem
          exact absurd rfl ((hnd.mem_erase_iff.mp hmem).1)
        · intro hdiff
          exact absurd hback hdiff
      · rw [if_neg hback]
        constructor
        · intro _
          exact hback
        · intro _
          exact (insertIfAbsent_mem changed i i).mpr (Or.inr rfl)
    · have hsame : (out.set nodeId targetBucket).getD i 0 = out.getD i 0 :=
        getD_set_ne_nat out nodeId i targetBucket 0 (fun h => hi h.symm)
      rw [hsame]
      by_cases hback : (out.set nodeId targetBucket).getD nodeId 0 = base.getD nodeId 0
      · rw [if_pos hback, hnd.mem_erase_iff]
        rw [← hchg i]
        constructor
        · intro h
          exact h.2
        · intro h
          exact ⟨hi, h⟩
      · rw [if_neg hback, insertIfAbsent_mem, ← hchg i]
        constructor
        · intro h
          rcases h with h | h
          · exact h
          · exact absurd h hi
        · intro h
          exact Or.inl h
  · intro b hb
    have hstep := countP_set_general (fun v => v == ((b : Nat) : Int)) out nodeId
      (out.getD nodeId 0) targetBucket houtnode
    have hstep2 : (out.set nodeId targetBucket).countP
        (fun v => v == ((b : Nat) : Int)) +
        (if (out.getD nodeId 0 == ((b : Nat) : Int)) = true then 1 else 0) =
        out.countP (fun v => v == ((b : Nat) : Int)) +
        (if (targetBucket == ((b : Nat) : Int)) = true then 1 else 0) := hstep
    by_cases hbt : b = targetBucket.toNat
    · subst hbt
      have h1 : ((out.getD nodeId 0 == ((targetBucket.toNat : Nat) : Int))) = false := by
        rw [beq_eq_false_iff_ne]
        rw [Int.toNat_of_nonneg htb0]
        intro hc
        exact htne hc.symm
      have h2 : ((targetBucket == ((targetBucket.toNat : Nat) : Int))) = true := by
        rw [beq_iff_eq, Int.toNat_of_nonneg htb0]
      rw [h1, h2] at hstep2
      have hz : (if (false = true) then 1 else 0) = 0 := rfl
      have ho : (if (true = true) then 1 else 0) = 1 := rfl
      rw [hz, ho] at hstep2
      rw [getD_set_self_nat _ _ _ _ (by rw [List.length_set]; exact htbn)]
      have hta : tcnt = out.countP (fun v => v == ((targetBucket.toNat : Nat) : Int)) := by
        rw [← htcntval, getD_set_ne_nat _ _ _ _ _ hne]
        exact hcnts targetBucket.toNat hb
      omega
    · rw [getD_set_ne_nat _ _ _ _ _ (fun h => hbt h.symm)]
      by_cases hbs : b = (out.getD nodeId 0).toNat
      · subst hbs
        have h1 : ((out.getD nodeId 0 ==
            (((out.getD nodeId 0).toNat : Nat) : Int))) = true := by
          rw [beq_iff_eq, Int.toNat_of_nonneg hsb0]
        have h2 : ((targetBucket ==
            (((out.getD nodeId 0).toNat : Nat) : Int))) = false := by
          rw [beq_eq_false_iff_ne, Int.toNat_of_nonneg hsb0]
          exact htne
        rw [h1, h2] at hstep2
        have hz : (if (false = true) then 1 else 0) = 0 := rfl
        have ho : (if (true = true) then 1 else 0) = 1 := rfl
        rw [hz, ho] at hstep2
        rw [getD_set_self_nat _ _ _ _ hsbn]
        have := hcnts (out.getD nodeId 0).toNat hb
        omega
      · rw [getD_set_ne_nat _ _ _ _ _ (fun h => hbs h.symm)]
        have h1 : ((out.getD nodeId 0 == ((b : Nat) : Int))) = false := by
          rw [beq_eq_false_iff_ne]
          intro hc
          apply hbs
          rw [hc]
          rw [Int.toNat_natCast]
        have h2 : ((targetBucket == ((b : Nat) : Int))) = false := by
          rw [beq_eq_false_iff_ne]
          intro hc
          apply hbt
          rw [hc]
          rw [Int.toNat_natCast]
        rw [h1, h2] at hstep2
        have hz : (if (false = true) then 1 else 0) = 0 := rfl
        rw [hz] at hstep2
        rw [hcnts b hb]
        omega
  · rw [List.length_set, List.length_set]
    exact hclen
  · intro v hv
    rcases mem_set_sub hv with h1 | h1
    · exact hbnd v h1
    · rw [h1]
      exact ⟨htb0, htblt⟩

theorem perturb_move_pos (bucketCount : Nat) (counts : List Nat)
    (sb tb : Int) (cnt tcnt : Nat)
    (hsbm : counts[sb.toNat]? = some cnt) (hcntge : 2 ≤ cnt)
    (htbm : (counts.set sb.toNat (cnt - 1))[tb.toNat]? = some tcnt)
    (hpos : ∀ b : Nat, b < bucketCount → 0 < counts.getD b 0) :
    ∀ b : Nat, b < bucketCount →
      0 < ((counts.set sb.toNat (cnt - 1)).set tb.toNat (tcnt + 1)).getD b 0 := by
  intro b hb
  have hsbn : sb.toNat < counts.length := by
    by_contra hc
    rw [List.getElem?_eq_none (Nat.le_of_not_lt hc)] at hsbm
    exact Option.noConfusion hsbm
  have htbn : tb.toNat < counts.length := by
    by_contra hc
    rw [List.getElem?_eq_none (by rw [List.length_set]; exact Nat.le_of_not_lt hc)]
      at htbm
    exact Option.noConfusion htbm
  by_cases hbt : b = tb.toNat
  · subst hbt
    rw [getD_set_self_nat _ _ _ _ (by rw [List.length_set]; exact htbn)]
    omega
  · rw [getD_set_ne_nat _ _ _ _ _ (fun h => hbt h.symm)]
    by_cases hbs : b = sb.toNat
    · subst hbs
      rw [getD_set_self_nat _ _ _ _ hsbn]
      omega
    · rw [getD_set_ne_nat _ _ _ _ _ (fun h => hbs h.symm)]
      exact hpos b hb

theorem length_erase_le {α : Type} [DecidableEq α] (l : List α) (a : α) :
    (l.erase a).length ≤ l.length := by
  by_cases hm : a ∈ l
  · rw [List.length_erase_of_mem hm]
    omega
  · rw [List.erase_of_not_mem hm]

theorem length_insertIfAbsent_le {α : Type} [DecidableEq α] (l : List α) (a : α) :
    (insertIfAbsent l a).length ≤ l.length + 1 := by
  unfold insertIfAbsent
  by_cases hm : a ∈ l
  · simp [hm]
  · simp [hm]

theorem perturbLoop_spec (base : List Int) (adjacency : List (List Nat))
    (desired bucketCount : Nat) :
    ∀ (budget : Nat) (out : List Int) (counts : List Nat) (changed : List Nat)
      (rng : Nat) (out2 : List Int) (counts2 changed2 : List Nat) (rng2 : Nat),
    perturbLoop base adjacency desired budget out counts changed rng =
      .ok (out2, counts2, changed2, rng2) →
    PerturbInv base bucketCount out counts changed →
    changed.length ≤ desired →
    PerturbInv base bucketCount out2 counts2 changed2 ∧
    changed2.length ≤ desired ∧
    ((∀ b : Nat, b < bucketCount → 0 < counts.getD b 0) →
      ∀ b : Nat, b < bucketCount → 0 < counts2.getD b 0) := by
  intro budget
  induction budget with
  | zero =>
    intro out counts changed rng out2 counts2 changed2 rng2 h hinv hle
    simp only [perturbLoop, Except.ok.injEq, Prod.mk.injEq] at h
    obtain ⟨h1, h2, h3, -⟩ := h
    subst h1; subst h2; subst h3
    exact ⟨hinv, hle, fun hp => hp⟩
  | succ budget ih =>
    intro out counts changed rng out2 counts2 changed2 rng2 h hinv hle
    by_cases hexit : desired ≤ changed.length
    · simp only [perturbLoop, hexit, if_pos, Except.ok.injEq, Prod.mk.injEq] at h
      obtain ⟨h1, h2, h3, -⟩ := h
      subst h1; subst h2; subst h3
      exact ⟨hinv, hle, fun hp => hp⟩
    · rw [show perturbLoop base adjacency desired (budget + 1) out counts changed rng =
        (if desired ≤ changed.length then .ok (out, counts, changed, rng)
        else
          match nextInt out.length rng with
          | .error e => .error e
          | .ok (nodeId, r1) =>
            let sourceBucket := out.getD nodeId 0
            match atIntE counts sourceBucket "counts" with
            | .error e => .error e
            | .ok cnt =>
              if cnt ≤ 1 then
                perturbLoop base adjacency desired budget out counts changed r1
              else
                match atE adjacency nodeId "adjacency" with
                | .error e => .error e
                | .ok neighbors =>
                  match neighbors.foldlM
                      (fun acc neighborNode =>
                        (match atE out neighborNode "out" with
                        | .error e => .error e
                        | .ok candidateBucket =>
                          .ok (if candidateBucket ≠ sourceBucket
                            then insertIfAbsent acc candidateBucket else acc) :
                          Except String (List Int)))
                      ([] : List Int) with
                  | .error e => .error e
                  | .ok candidates =>
                    if candidates.length = 0 then
                      perturbLoop base adjacency desired budget out counts changed r1
                    else
                      match nextInt candidates.length r1 with
                      | .error e => .error e
                      | .ok (ti, r2) =>
                        let targetBucket := candidates.getD ti 0
                        let out2 := out.set nodeId targetBucket
                        let counts1 := counts.set sourceBucket.toNat (cnt - 1)
                        match atIntE counts1 targetBucket "counts" with
                        | .error e => .error e
                        | .ok tcnt =>
                          let counts2 := counts1.set targetBucket.toNat (tcnt + 1)
                          let changed2 :=
                            if out2.getD nodeId 0 = base.getD nodeId 0
                            then changed.erase nodeId
                            else insertIfAbsent changed nodeId
                          perturbLoop base adjacency desired budget out2 counts2
                            changed2 r2) from rfl] at h
      rw [if_neg hexit] at h
      by_cases hlen0 : out.length = 0
      · rw [hlen0] at h
        simp [nextInt] at h
      · rw [nextInt_ok _ _ hlen0] at h
        simp only at h
        set nodeId := (xsStep rng % U32) * out.length / U32 with hnodeid
        have hnlt : nodeId < out.length := nextInt_val_lt _ _ hlen0
        cases hsb : atIntE counts (out.getD nodeId 0) "counts" with
        | error e => rw [hsb] at h; exact Except.noConfusion h
        | ok cnt =>
          rw [hsb] at h
          simp only at h
          by_cases hcnt : cnt ≤ 1
          · rw [if_pos hcnt] at h
            exact ih _ _ _ _ _ _ _ _ h hinv hle
          · rw [if_neg hcnt] at h
            cases hadj : atE adjacency nodeId "adjacency" with
            | error e => rw [hadj] at h; exact Except.noConfusion h
            | ok neighbors =>
              rw [hadj] at h
              simp only at h
              cases hcands : neighbors.foldlM
                  (fun acc neighborNode =>
                    (match atE out neighborNode "out" with
                    | .error e => .error e
                    | .ok candidateBucket =>
                      .ok (if candidateBucket ≠ out.getD nodeId 0
                        then insertIfAbsent acc candidateBucket else acc) :
                      Except String (List Int)))
                  ([] : List Int) with
              | error e => rw [hcands] at h; exact Except.noConfusion h
              | ok candidates =>
                rw [hcands] at h
                simp only at h
                by_cases hc0 : candidates.length = 0
                · rw [if_pos hc0] at h
                  exact ih _ _ _ _ _ _ _ _ h hinv hle
                · rw [if_neg hc0, nextInt_ok _ _ hc0] at h
                  simp only at h
                  set ti := (xsStep (xsStep rng) % U32) * candidates.length / U32
                    with hti
                  have htilt : ti < candidates.length := nextInt_val_lt _ _ hc0
                  have htmem : candidates.getD ti 0 ∈ candidates :=
                    getD_mem_of_lt _ _ _ htilt
                  have htne : candidates.getD ti 0 ≠ out.getD nodeId 0 :=
                    candFold_ne out (out.getD nodeId 0) neighbors [] candidates
                      (by intro x hx; simp at hx) hcands _ htmem
                  cases htb : atIntE (counts.set (out.getD nodeId 0).toNat (cnt - 1))
                      (candidates.getD ti 0) "counts" with
                  | error e => rw [htb] at h; exact Except.noConfusion h
                  | ok tcnt =>
                    rw [htb] at h
                    simp only at h
                    obtain ⟨hsb0, hsbm⟩ := atIntE_ok hsb
                    obtain ⟨htb0, htbm⟩ := atIntE_ok htb
                    have hinv2 := perturb_move_inv base bucketCount out counts changed
                      nodeId cnt tcnt (candidates.getD ti 0) hnlt hsb0 hsbm
                      (by omega) htne htb0 htbm hinv
                    have hle2 : (if (out.set nodeId (candidates.getD ti 0)).getD
                        nodeId 0 = base.getD nodeId 0
                        then changed.erase nodeId
                        else insertIfAbsent changed nodeId).length ≤ desired := by
                      by_cases hback : (out.set nodeId (candidates.getD ti 0)).getD
                          nodeId 0 = base.getD nodeId 0
                      · rw [if_pos hback]
                        have := length_erase_le changed nodeId
                        omega
                      · rw [if_neg hback]
                        have := length_insertIfAbsent_le changed nodeId
                        omega
                    have hres := ih _ _ _ _ _ _ _ _ h hinv2 hle2
                    refine ⟨hres.1, hres.2.1, ?_⟩
                    intro hpos
                    exact hres.2.2 (perturb_move_pos bucketCount counts _ _ cnt tcnt
                      hsbm (by omega) htbm hpos)

theorem countP_range_eq (n : Nat) (l : List Nat) (q : Nat → Bool) (hnd : l.Nodup)
    (hiff : ∀ i : Nat, i ∈ l ↔ (i < n ∧ q i = true)) :
    (List.range n).countP q = l.length := by
  rw [List.countP_eq_length_filter]
  have hndf : ((List.range n).filter q).Nodup := List.Nodup.filter _ (List.nodup_range n)
  have hmem : ∀ x : Nat, x ∈ (List.range n).filter q ↔ x ∈ l := by
    intro x
    rw [List.mem_filter, List.mem_range, hiff x]
  calc ((List.range n).filter q).length
      = ((List.range n).filter q).toFinset.card :=
        (List.toFinset_card_of_nodup hndf).symm
    _ = l.toFinset.card := by
        congr 1
        ext x
        simp only [List.mem_toFinset]
        exact hmem x
    _ = l.length := List.toFinset_card_of_nodup hnd

/-- perturbAssignmentsFull on a normal return: the output keeps the base
    length, differs from the base at exactly max(1, target) positions,
    and covers every bucket the base covers. -/
theorem perturbAssignmentsFull_spec (baseAssignments : List Int)
    (adjacency : List (List Nat)) (bucketCount : Nat) (targetDifferences : Int)
    (rng : Nat) (label : String) (out : List Int) (rng2 : Nat)
    (h : perturbAssignmentsFull baseAssignments adjacency bucketCount
      targetDifferences rng label = .ok (out, rng2)) :
    out.length = baseAssignments.length ∧
    (List.range baseAssignments.length).countP
      (fun i => decide (out.getD i 0 ≠ baseAssignments.getD i 0)) =
      (max 1 targetDifferences).toNat ∧
    (∀ v ∈ out, 0 ≤ v ∧ v < (bucketCount : Int)) ∧
    ((∀ b : Nat, b < bucketCount → (b : Int) ∈ baseAssignments) →
      ∀ b : Nat, b < bucketCount → (b : Int) ∈ out) := by
  unfold perturbAssignmentsFull at h
  by_cases h0 : baseAssignments.length = 0
  · rw [if_pos h0] at h
    exact Except.noConfusion h
  · rw [if_neg h0] at h
    simp only at h
    cases hbc : buildBucketCounts baseAssignments bucketCount with
    | error e => rw [hbc] at h; exact Except.noConfusion h
    | ok counts =>
      rw [hbc] at h
      simp only at h
      obtain ⟨hclen, hchist, hbnds⟩ := buildBucketCounts_spec _ _ _ hbc
      cases hloop : perturbLoop baseAssignments adjacency
          (max 1 targetDifferences).toNat (maxAttemptsFor baseAssignments.length)
          baseAssignments counts [] rng with
      | error e => rw [hloop] at h; exact Except.noConfusion h
      | ok res =>
        obtain ⟨outF, countsF, changedF, rngF⟩ := res
        rw [hloop] at h
        simp only at h
        by_cases hfail : changedF.length < (max 1 targetDifferences).toNat
        · rw [if_pos hfail] at h
          exact Except.noConfusion h
        · rw [if_neg hfail] at h
          simp only [Except.ok.injEq, Prod.mk.injEq] at h
          obtain ⟨hout, hrng⟩ := h
          subst hout
          have hinv0 : PerturbInv baseAssignments bucketCount baseAssignments
              counts [] := by
            refine ⟨rfl, List.nodup_nil, ?_, ?_, hclen, hbnds⟩
            · intro i
              simp
            · intro b hb
              exact hchist b hb
          have hspec := perturbLoop_spec baseAssignments adjacency
            (max 1 targetDifferences).toNat bucketCount _ _ _ _ _ _ _ _ _
            hloop hinv0 (by simp)
          obtain ⟨⟨hlen2, hnd2, hchg2, hhist2, hclen2, hbnd2⟩, hle2, hpos2⟩ := hspec
          have hcnt : changedF.length = (max 1 targetDifferences).toNat := by
            omega
          refine ⟨hlen2, ?_, hbnd2, ?_⟩
          · rw [← hcnt]
            apply countP_range_eq
            · exact hnd2
            · intro i
              rw [hchg2 i]
              constructor
              · intro hdiff
                refine ⟨?_, by simpa using hdiff⟩
                by_contra hge
                have hi : baseAssignments.length ≤ i := Nat.le_of_not_lt hge
                have h1 : outF.getD i 0 = 0 := by
                  rw [List.getD_eq_getElem?_getD,
                    List.getElem?_eq_none (by omega)]
                  rfl
                have h2 : baseAssignments.getD i 0 = 0 := by
                  rw [List.getD_eq_getElem?_getD, List.getElem?_eq_none hi]
                  rfl
                rw [h1, h2] at hdiff
                exact hdiff rfl
              · intro hand
                simpa using hand.2
          · intro hcov b hb
            have hpos0 : ∀ b : Nat, b < bucketCount → 0 < counts.getD b 0 := by
              intro b2 hb2
              rw [hchist b2 hb2]
              rw [List.countP_pos]
              exact ⟨(b2 : Int), hcov b2 hb2, by simp⟩
            have := hpos2 hpos0 b hb
            rw [hhist2 b hb, List.countP_pos] at this
            obtain ⟨v, hv, hvb⟩ := this
            have : v = (b : Int) := by simpa using hvb
            rw [← this]
            exact hv

/-- C8: perturbAssignments never empties a bucket: for every base
    assignment, adjacency, bucket count, target and rng state, if every
    bucket in [0, bucketCount) has at least one member under the base
    assignment, then every bucket has at least one member under a
    normally returned assignment. -/
theorem perturbAssignments_keeps_buckets (baseAssignments : List Int)
    (adjacency : List (List Nat)) (bucketCount : Nat) (targetDifferences : Int)
    (rng : Nat) (label : String) (out : List Int)
    (hcov : ∀ b : Nat, b < bucketCount → (b : Int) ∈ baseAssignments)
    (hres : perturbAssignments baseAssignments adjacency bucketCount
      targetDifferences rng label = .ok out) :
    ∀ b : Nat, b < bucketCount → (b : Int) ∈ out := by
  unfold perturbAssignments at hres
  cases hfull : perturbAssignmentsFull baseAssignments adjacency bucketCount
      targetDifferences rng label with
  | error e => rw [hfull] at hres; exact Except.noConfusion hres
  | ok p =>
    obtain ⟨out2, rng2⟩ := p
    rw [hfull] at hres
    simp only [Except.ok.injEq] at hres
    subst hres
    exact (perturbAssignmentsFull_spec _ _ _ _ _ _ _ _ hfull).2.2.2 hcov

theorem perturbAssignments_keeps_buckets_witness :
    ((0 : Int) ∈ ([0, 1, 1] : List Int)) ∧ ((1 : Int) ∈ ([0, 1, 1] : List Int)) :=
  ⟨perturbAssignments_keeps_buckets [0, 0, 1] [[1], [0, 2], [1]] 2 1 1 "t" [0, 1, 1]
      (by decide) (by rfl) 0 (by decide),
    perturbAssignments_keeps_buckets [0, 0, 1] [[1], [0, 2], [1]] 2 1 1 "t" [0, 1, 1]
      (by decide) (by rfl) 1 (by decide)⟩

theorem generateCountyBase_spec (width height countyCount seedP fuel : Nat)
    (cb : CountyBase)
    (h : generateCountyBase width height countyCount seedP fuel = some (.ok cb)) :
    cb.tileToCounty.length = width * height ∧
    (∀ v ∈ cb.tileToCounty, 0 ≤ v ∧ v < countyCount) ∧
    (∀ r : Nat, r < countyCount → (r : Int) ∈ cb.tileToCounty) ∧
    cb.countyNames = buildNames "County" countyCount := by
  unfold generateCountyBase at h
  dsimp only at h
  cases hrg : regionGrow (width * height) countyCount
      (mkXorShift32P (seedP ^^^ 0x9e3779b9)) (buildTileAdjacency width height)
      fuel fuel fuel with
  | none => rw [hrg] at h; exact Option.noConfusion h
  | some res =>
    cases res with
    | error e => rw [hrg] at h; simp at h
    | ok tileToCounty =>
      rw [hrg] at h
      simp only at h
      cases hra : buildRegionAdjacencyFromTiles tileToCounty countyCount width
          height with
      | error e => rw [hra] at h; simp at h
      | ok countyAdjacency =>
        rw [hra] at h
        simp only [Option.some.injEq, Except.ok.injEq] at h
        obtain ⟨hspec1, hspec2, hspec3⟩ := regionGrow_spec _ _ _ _ _ _ _ _ hrg
        rw [← h]
        exact ⟨hspec1, hspec2, hspec3, rfl⟩

theorem generateUpperHierarchy_spec (countyAdjacency : List (List Nat))
    (countyCount duchyCount kingdomCount seedP fuel : Nat) (u : UpperHierarchy)
    (h : generateUpperHierarchy countyAdjacency countyCount duchyCount kingdomCount
      seedP fuel = some (.ok u)) :
    u.countyToDuchy.length = countyCount ∧
    (∀ v ∈ u.countyToDuchy, 0 ≤ v ∧ v < duchyCount) ∧
    (∀ r : Nat, r < duchyCount → (r : Int) ∈ u.countyToDuchy) ∧
    u.duchyToKingdom.length = duchyCount ∧
    (∀ v ∈ u.duchyToKingdom, 0 ≤ v ∧ v < kingdomCount) ∧
    (∀ r : Nat, r < kingdomCount → (r : Int) ∈ u.duchyToKingdom) ∧
    u.duchyNames = buildNames "Duchy" duchyCount ∧
    u.kingdomNames = buildNames "Kingdom" kingdomCount := by
  unfold generateUpperHierarchy at h
  dsimp only at h
  cases hrg : regionGrow countyCount duchyCount
      (mkXorShift32P (seedP ^^^ 0x85ebca6b)) countyAdjacency fuel fuel fuel with
  | none => rw [hrg] at h; exact Option.noConfusion h
  | some res =>
    cases res with
    | error e => rw [hrg] at h; simp at h
    | ok countyToDuchy =>
      rw [hrg] at h
      simp only at h
      cases hpa : projectAdjacency countyAdjacency countyToDuchy duchyCount with
      | error e => rw [hpa] at h; simp at h
      | ok duchyAdjacency =>
        rw [hpa] at h
        simp only at h
        cases hrg2 : regionGrow duchyCount kingdomCount
            (mkXorShift32P (seedP ^^^ 0xc2b2ae35)) duchyAdjacency fuel fuel fuel with
        | none => rw [hrg2] at h; exact Option.noConfusion h
        | some res2 =>
          cases res2 with
          | error e => rw [hrg2] at h; simp at h
          | ok duchyToKingdom =>
            rw [hrg2] at h
            simp only [Option.some.injEq, Except.ok.injEq] at h
            obtain ⟨h11, h12, h13⟩ := regionGrow_spec _ _ _ _ _ _ _ _ hrg
            obtain ⟨h21, h22, h23⟩ := regionGrow_spec _ _ _ _ _ _ _ _ hrg2
            rw [← h]
            exact ⟨h11, h12, h13, h21, h22, h23, rfl, rfl⟩

theorem generateDeFactoUpperHierarchy_spec (countyAdjacency : List (List Nat))
    (countyCount duchyCount kingdomCount : Nat) (seed : Int)
    (deJureUpper : UpperHierarchy) (u : UpperHierarchy)
    (h : generateDeFactoUpperHierarchy countyAdjacency countyCount duchyCount
      kingdomCount seed deJureUpper = .ok u) :
    u.countyToDuchy.length = deJureUpper.countyToDuchy.length ∧
    (List.range deJureUpper.countyToDuchy.length).countP
      (fun i => decide (u.countyToDuchy.getD i 0 ≠
        deJureUpper.countyToDuchy.getD i 0)) =
      (max 1 (diffTarget countyCount defactoCountyDiffRatio)).toNat ∧
    (∀ v ∈ u.countyToDuchy, 0 ≤ v ∧ v < duchyCount) ∧
    ((∀ b : Nat, b < duchyCount → (b : Int) ∈ deJureUpper.countyToDuchy) →
      ∀ b : Nat, b < duchyCount → (b : Int) ∈ u.countyToDuchy) ∧
    u.duchyToKingdom.length = deJureUpper.duchyToKingdom.length ∧
    (∀ v ∈ u.duchyToKingdom, 0 ≤ v ∧ v < kingdomCount) ∧
    ((∀ b : Nat, b < kingdomCount → (b : Int) ∈ deJureUpper.duchyToKingdom) →
      ∀ b : Nat, b < kingdomCount → (b : Int) ∈ u.duchyToKingdom) ∧
    u.duchyNames = deJureUpper.duchyNames ∧
    u.kingdomNames = deJureUpper.kingdomNames := by
  unfold generateDeFactoUpperHierarchy at h
  dsimp only at h
  cases hp1 : perturbAssignmentsFull deJureUpper.countyToDuchy countyAdjacency
      duchyCount (diffTarget countyCount defactoCountyDiffRatio)
      (mkXorShift32P (seedXor seed DEFACTO_SALT)) "countyToDuchy" with
  | error e => rw [hp1] at h; exact Except.noConfusion h
  | ok p1 =>
    obtain ⟨countyToDuchy, rngA⟩ := p1
    rw [hp1] at h
    simp only at h
    cases hpa : projectAdjacency countyAdjacency countyToDuchy duchyCount with
    | error e => rw [hpa] at h; exact Except.noConfusion h
    | ok deFactoDuchyAdjacency =>
      rw [hpa] at h
      simp only at h
      cases hp2 : perturbAssignments deJureUpper.duchyToKingdom
          deFactoDuchyAdjacency kingdomCount
          (diffTarget duchyCount defactoDuchyDiffRatio) rngA "duchyToKingdom" with
      | error e => rw [hp2] at h; exact Except.noConfusion h
      | ok duchyToKingdom =>
        rw [hp2] at h
        simp only [Except.ok.injEq] at h
        obtain ⟨hs11, hs12, hs13, hs14⟩ := perturbAssignmentsFull_spec _ _ _ _ _ _ _ _ hp1
        have hp2full : ∃ rngB, perturbAssignmentsFull deJureUpper.duchyToKingdom
            deFactoDuchyAdjacency kingdomCount
            (diffTarget duchyCount defactoDuchyDiffRatio) rngA "duchyToKingdom" =
            .ok (duchyToKingdom, rngB) := by
          unfold perturbAssignments at hp2
          cases hfull : perturbAssignmentsFull deJureUpper.duchyToKingdom
              deFactoDuchyAdjacency kingdomCount
              (diffTarget duchyCount defactoDuchyDiffRatio) rngA "duchyToKingdom" with
          | error e => rw [hfull] at hp2; exact Except.noConfusion hp2
          | ok p =>
            obtain ⟨o2, r2⟩ := p
            rw [hfull] at hp2
            simp only [Except.ok.injEq] at hp2
            subst hp2
            exact ⟨r2, rfl⟩
        obtain ⟨rngB, hp2f⟩ := hp2full
        obtain ⟨hs21, hs22, hs23, hs24⟩ := perturbAssignmentsFull_spec _ _ _ _ _ _ _ _ hp2f
        rw [← h]
        exact ⟨hs11, hs12, hs13, hs14, hs21, hs23, hs24, rfl, rfl⟩

theorem generateWorldMapDataBody_ok (seedI : Int) (ccN dcN kcN fuel : Nat)
    (d : WorldMapDataV2)
    (h : generateWorldMapDataBody seedI ccN dcN kcN fuel = some (.ok d)) :
    ∃ (countyBase : CountyBase) (deJureUpper deFactoUpper : UpperHierarchy)
      (tc : TitlesAndCharacters),
      generateCountyBase MAP_WIDTH MAP_HEIGHT ccN (seedXor seedI COUNTY_BASE_SALT)
        fuel = some (.ok countyBase) ∧
      generateUpperHierarchy countyBase.countyAdjacency ccN dcN kcN
        (seedXor seedI DEJURE_SALT) fuel = some (.ok deJureUpper) ∧
      generateDeFactoUpperHierarchy countyBase.countyAdjacency ccN dcN kcN seedI
        deJureUpper = .ok deFactoUpper ∧
      generateTitlesAndCharacters seedI countyBase.countyNames
        deJureUpper.duchyNames deJureUpper.kingdomNames deJureUpper deFactoUpper =
        .ok tc ∧
      d =
        { version := MAP_VERSION,
          grid :=
            { width := MAP_WIDTH, height := MAP_HEIGHT,
              tileSizePx := TILE_SIZE_PX, chunkSize := CHUNK_SIZE, seed := seedI },
          deJure :=
            { tileToCounty := countyBase.tileToCounty,
              countyNames := countyBase.countyNames,
              countyToDuchy := deJureUpper.countyToDuchy,
              duchyToKingdom := deJureUpper.duchyToKingdom,
              duchyNames := deJureUpper.duchyNames,
              kingdomNames := deJureUpper.kingdomNames },
          deFacto :=
            { tileToCounty := countyBase.tileToCounty,
              countyNames := countyBase.countyNames,
              countyToDuchy := deFactoUpper.countyToDuchy,
              duchyToKingdom := deFactoUpper.duchyToKingdom,
              duchyNames := deFactoUpper.duchyNames,
              kingdomNames := deFactoUpper.kingdomNames },
          titles := tc.titles, characters := tc.characters } := by
  unfold generateWorldMapDataBody at h
  cases h1 : generateCountyBase MAP_WIDTH MAP_HEIGHT ccN
      (seedXor seedI COUNTY_BASE_SALT) fuel with
  | none => rw [h1] at h; exact Option.noConfusion h
  | some res1 =>
    cases res1 with
    | error e => rw [h1] at h; simp at h
    | ok countyBase =>
      rw [h1] at h
      simp only at h
      cases h2 : generateUpperHierarchy countyBase.countyAdjacency ccN dcN kcN
          (seedXor seedI DEJURE_SALT) fuel with
      | none => rw [h2] at h; exact Option.noConfusion h
      | some res2 =>
        cases res2 with
        | error e => rw [h2] at h; simp at h
        | ok deJureUpper =>
          rw [h2] at h
          simp only at h
          cases h3 : generateDeFactoUpperHierarchy countyBase.countyAdjacency ccN
              dcN kcN seedI deJureUpper with
          | error e => rw [h3] at h; simp at h
          | ok deFactoUpper =>
            rw [h3] at h
            simp only at h
            cases h4 : generateTitlesAndCharacters seedI countyBase.countyNames
                deJureUpper.duchyNames deJureUpper.kingdomNames deJureUpper
                deFactoUpper with
            | error e => rw [h4] at h; simp at h
            | ok tc =>
              rw [h4] at h
              simp only [Option.some.injEq, Except.ok.injEq] at h
              exact ⟨countyBase, deJureUpper, deFactoUpper, tc, rfl, h2, h3, h4,
                h.symm⟩

theorem generateWorldMapData_ok (seed : ℚ) (cc dc kc : Int) (fuel : Nat)
    (d : WorldMapDataV2)
    (h : generateWorldMapData seed cc dc kc fuel = some (.ok d)) :
    seed.den = 1 ∧ 0 < cc ∧ 0 < dc ∧ 0 < kc ∧ dc ≤ cc ∧ kc ≤ dc ∧
    generateWorldMapDataBody seed.num cc.toNat dc.toNat kc.toNat fuel =
      some (.ok d) := by
  unfold generateWorldMapData at h
  by_cases hden : seed.den ≠ 1
  · rw [if_pos hden] at h; simp at h
  · rw [if_neg hden] at h
    by_cases hcnt : cc ≤ 0 ∨ dc ≤ 0 ∨ kc ≤ 0
    · rw [if_pos hcnt] at h; simp at h
    · rw [if_neg hcnt] at h
      by_cases hdc : cc < dc
      · rw [if_pos hdc] at h; simp at h
      · rw [if_neg hdc] at h
        by_cases hkc : dc < kc
        · rw [if_pos hkc] at h; simp at h
        · rw [if_neg hkc] at h
          push_neg at hcnt hden
          exact ⟨hden, hcnt.1, hcnt.2.1, hcnt.2.2, Int.not_lt.mp hdc,
            Int.not_lt.mp hkc, h⟩

/-- C5: whenever generateWorldMapData succeeds at the default parameters
    (countyCount 320, duchyCount 52, kingdomCount 7), the deJure and deFacto
    countyToDuchy arrays are not element-wise equal, and the fraction of
    indices at which they differ (as computed by calculateModeDifferenceRatio)
    is exactly 1/10, which lies in the closed interval [0.08, 0.12]. -/
theorem defacto_countyToDuchy_divergence (seed : ℚ) (fuel : Nat) :
    onOk (generateWorldMapData seed 320 52 7 fuel) (fun d =>
      d.deJure.countyToDuchy ≠ d.deFacto.countyToDuchy ∧
      ∃ r : ℚ,
        calculateModeDifference d.deJure.countyToDuchy d.deFacto.countyToDuchy =
          .ok r ∧ (8 : ℚ) / 100 ≤ r ∧ r ≤ (12 : ℚ) / 100) := by
  unfold onOk
  split
  · rename_i d hg
    obtain ⟨-, -, -, -, -, -, hbody⟩ := generateWorldMapData_ok _ _ _ _ _ _ hg
    obtain ⟨cb, dj, df, tc, hcb, hdj, hdf, htc, hd⟩ :=
      generateWorldMapDataBody_ok _ _ _ _ _ _ hbody
    obtain ⟨hdjlen, -, -, -, -, -, -, -⟩ :=
      generateUpperHierarchy_spec _ _ _ _ _ _ _ hdj
    obtain ⟨hdflen, hcount, -, -, -, -, -, -, -⟩ :=
      generateDeFactoUpperHierarchy_spec _ _ _ _ _ _ _ hdf
    have htoNat : ((320 : Int)).toNat = 320 := rfl
    have htarg : (max 1 (diffTarget ((320 : Int)).toNat
        defactoCountyDiffRatio)).toNat = 32 := by
      have h1 : (((320 : Int).toNat : ℚ)) * defactoCountyDiffRatio = 32 := by
        rw [htoNat]
        norm_num [defactoCountyDiffRatio]
      have h2 : jsRound (32 : ℚ) = 32 := by
        unfold jsRound
        norm_num
      unfold diffTarget
      rw [h1, h2]
      decide
    rw [htarg] at hcount
    have hswap : (List.range dj.countyToDuchy.length).countP
        (fun i => decide (dj.countyToDuchy.getD i 0 ≠
          df.countyToDuchy.getD i 0)) = 32 := by
      rw [← hcount]
      refine List.countP_congr (fun a _ => ?_)
      simp only [decide_eq_true_eq]
      exact ne_comm
    subst hd
    refine ⟨?_, ?_⟩
    · show dj.countyToDuchy ≠ df.countyToDuchy
      intro heq
      rw [heq] at hswap
      simp at hswap
    · show ∃ r : ℚ,
        calculateModeDifference dj.countyToDuchy df.countyToDuchy =
          .ok r ∧ (8 : ℚ) / 100 ≤ r ∧ r ≤ (12 : ℚ) / 100
      refine ⟨(1 : ℚ) / 10, ?_, by norm_num, by norm_num⟩
      unfold calculateModeDifference
      rw [if_neg (by rw [hdflen]; simp)]
      rw [hswap, hdjlen, htoNat]
      norm_num
  · trivial

/-- C10: for every WorldMapData whose active-mode tileToCounty has length
    grid.width * grid.height, every mode and level, buildActiveEntityByTile
    returns an array of that length whose entry at each tileId equals
    resolveEntityId at that tile when it is non-null, and -1 when it is null. -/
theorem buildActiveEntityByTile_refines (data : WorldMapDataV2) (mode : MapMode)
    (level : MapLevel)
    (h : (getHierarchyByMode data mode).tileToCounty.length =
      data.grid.width * data.grid.height) :
    (buildActiveEntityByTile data mode level).length =
      data.grid.width * data.grid.height ∧
    ∀ tileId : Nat, tileId < data.grid.width * data.grid.height →
      (buildActiveEntityByTile data mode level)[tileId]? =
        some ((resolveEntityId data mode level tileId).getD (-1)) := by
  have hvalid : ∀ t : Nat, t < data.grid.width * data.grid.height →
      isValidTileId t data.grid = true := by
    intro t ht
    unfold isValidTileId getTileCount
    simpa using ht
  cases level with
  | county =>
    have hb : buildActiveEntityByTile data mode MapLevel.county =
        (getHierarchyByMode data mode).tileToCounty := by
      unfold buildActiveEntityByTile
      rw [if_pos rfl]
    refine ⟨by rw [hb]; exact h, ?_⟩
    intro t ht
    have htl : t < (getHierarchyByMode data mode).tileToCounty.length := by
      rw [h]; exact ht
    have hres : resolveEntityId data mode MapLevel.county t =
        some ((getHierarchyByMode data mode).tileToCounty[t]) := by
      unfold resolveEntityId
      rw [if_pos (hvalid t ht)]
      unfold getEntityIdForTile
      rw [List.getElem?_eq_getElem htl]
    rw [hb, hres, List.getElem?_eq_getElem htl]
    rfl
  | duchy =>
    have hb : buildActiveEntityByTile data mode MapLevel.duchy =
        (List.range (getHierarchyByMode data mode).tileToCounty.length).map
          (fun tileId =>
            match (getHierarchyByMode data mode).tileToCounty[tileId]? with
            | none => -1
            | some countyId =>
              match intIndex (getHierarchyByMode data mode).countyToDuchy
                  countyId with
              | none => -1
              | some duchyId => duchyId) := by
      unfold buildActiveEntityByTile
      rw [if_neg (by simp)]
      refine List.map_congr_left (fun a _ => ?_)
      dsimp only
      cases (getHierarchyByMode data mode).tileToCounty[a]? with
      | none => rfl
      | some countyId =>
        dsimp only
        cases intIndex (getHierarchyByMode data mode).countyToDuchy countyId with
        | none => rfl
        | some duchyId => simp
    constructor
    · rw [hb]
      simpa using h
    · intro t ht
      have htl : t < (getHierarchyByMode data mode).tileToCounty.length := by
        rw [h]; exact ht
      have hres : resolveEntityId data mode MapLevel.duchy t =
          intIndex (getHierarchyByMode data mode).countyToDuchy
            ((getHierarchyByMode data mode).tileToCounty[t]) := by
        unfold resolveEntityId
        rw [if_pos (hvalid t ht)]
        unfold getEntityIdForTile
        rw [List.getElem?_eq_getElem htl]
        show (match intIndex (getHierarchyByMode data mode).countyToDuchy
            ((getHierarchyByMode data mode).tileToCounty[t]) with
          | none => (none : Option Int)
          | some duchyId => some duchyId) = _
        cases intIndex (getHierarchyByMode data mode).countyToDuchy
            ((getHierarchyByMode data mode).tileToCounty[t]) with
        | none => rfl
        | some duchyId => rfl
      rw [hb, List.getElem?_map, List.getElem?_range htl, Option.map_some', hres,
        List.getElem?_eq_getElem htl]
      show some (match intIndex (getHierarchyByMode data mode).countyToDuchy
          ((getHierarchyByMode data mode).tileToCounty[t]) with
        | none => (-1 : Int)
        | some duchyId => duchyId) =
        some ((intIndex (getHierarchyByMode data mode).countyToDuchy
          ((getHierarchyByMode data mode).tileToCounty[t])).getD (-1))
      cases intIndex (getHierarchyByMode data mode).countyToDuchy
          ((getHierarchyByMode data mode).tileToCounty[t]) with
      | none => rfl
      | some duchyId => rfl
  | kingdom =>
    have hb : buildActiveEntityByTile data mode MapLevel.kingdom =
        (List.range (getHierarchyByMode data mode).tileToCounty.length).map
          (fun tileId =>
            match (getHierarchyByMode data mode).tileToCounty[tileId]? with
            | none => -1
            | some countyId =>
              match intIndex (getHierarchyByMode data mode).countyToDuchy
                  countyId with
              | none => -1
              | some duchyId =>
                (intIndex (getHierarchyByMode data mode).duchyToKingdom
                  duchyId).getD (-1)) := by
      unfold buildActiveEntityByTile
      rw [if_neg (by simp)]
      refine List.map_congr_left (fun a _ => ?_)
      dsimp only
      cases (getHierarchyByMode data mode).tileToCounty[a]? with
      | none => rfl
      | some countyId =>
        dsimp only
        cases intIndex (getHierarchyByMode data mode).countyToDuchy countyId with
        | none => rfl
        | some duchyId => simp
    constructor
    · rw [hb]
      simpa using h
    · intro t ht
      have htl : t < (getHierarchyByMode data mode).tileToCounty.length := by
        rw [h]; exact ht
      have hres : resolveEntityId data mode MapLevel.kingdom t =
          (match intIndex (getHierarchyByMode data mode).countyToDuchy
              ((getHierarchyByMode data mode).tileToCounty[t]) with
           | none => none
           | some duchyId =>
             intIndex (getHierarchyByMode data mode).duchyToKingdom duchyId) := by
        unfold resolveEntityId
        rw [if_pos (hvalid t ht)]
        unfold getEntityIdForTile
        rw [List.getElem?_eq_getElem htl]
      rw [hb, List.getElem?_map, List.getElem?_range htl, Option.map_some', hres,
        List.getElem?_eq_getElem htl]
      show some (match intIndex (getHierarchyByMode data mode).countyToDuchy
          ((getHierarchyByMode data mode).tileToCounty[t]) with
        | none => (-1 : Int)
        | some duchyId =>
          (intIndex (getHierarchyByMode data mode).duchyToKingdom
            duchyId).getD (-1)) =
        some ((match intIndex (getHierarchyByMode data mode).countyToDuchy
            ((getHierarchyByMode data mode).tileToCounty[t]) with
          | none => (none : Option Int)
          | some duchyId =>
            intIndex (getHierarchyByMode data mode).duchyToKingdom
              duchyId).getD (-1))
      cases intIndex (getHierarchyByMode data mode).countyToDuchy
          ((getHierarchyByMode data mode).tileToCounty[t]) with
      | none => rfl
      | some duchyId => rfl

def tinyMapData : WorldMapDataV2 :=
  { version := 2,
    grid :=
      { width := 1, height := 1, tileSizePx := 10, chunkSize := 20, seed := 0 },
    deJure :=
      { tileToCounty := [0], countyToDuchy := [0], duchyToKingdom := [0],
        countyNames := ["c"], duchyNames := ["d"], kingdomNames := ["k"] },
    deFacto :=
      { tileToCounty := [0], countyToDuchy := [0], duchyToKingdom := [0],
        countyNames := ["c"], duchyNames := ["d"], kingdomNames := ["k"] },
    titles := [], characters := [] }

/-- Witness for C10 at a concrete one-tile map. -/
theorem buildActiveEntityByTile_refines_witness :
    (getHierarchyByMode tinyMapData MapMode.deJure).tileToCounty.length =
      tinyMapData.grid.width * tinyMapData.grid.height ∧
    ((buildActiveEntityByTile tinyMapData MapMode.deJure MapLevel.duchy).length =
      tinyMapData.grid.width * tinyMapData.grid.height ∧
    ∀ tileId : Nat, tileId < tinyMapData.grid.width * tinyMapData.grid.height →
      (buildActiveEntityByTile tinyMapData MapMode.deJure MapLevel.duchy)[tileId]? =
        some ((resolveEntityId tinyMapData MapMode.deJure MapLevel.duchy
          tileId).getD (-1))) :=
  ⟨rfl, buildActiveEntityByTile_refines tinyMapData MapMode.deJure MapLevel.duchy
    rfl⟩

theorem intIndex_spec (l : List Int) (B : Nat) (i : Int)
    (hl : ∀ v ∈ l, 0 ≤ v ∧ v < (B : Int)) (h0 : 0 ≤ i)
    (hi : i < (l.length : Int)) :
    ∃ v, intIndex l i = some v ∧ 0 ≤ v ∧ v < (B : Int) := by
  unfold intIndex
  rw [if_pos h0]
  have hlt : i.toNat < l.length := by omega
  refine ⟨l[i.toNat], ?_, hl _ (List.getElem_mem hlt)⟩
  rw [List.getElem?_eq_getElem hlt]

def levelEntityCount (countyCount duchyCount kingdomCount : Nat)
    (level : MapLevel) : Nat :=
  match level with
  | MapLevel.county => countyCount
  | MapLevel.duchy => duchyCount
  | MapLevel.kingdom => kingdomCount

/-- C3: for every WorldMapData produced by generateWorldMapData with valid
    parameters, every tileId in [0, grid.width * grid.height), both modes and
    all three levels, resolveEntityId returns a non-null id lying in
    [0, entityCount) for that level. -/
theorem resolveEntityId_coverage (seed : ℚ) (cc dc kc : Int) (fuel : Nat) :
    onOk (generateWorldMapData seed cc dc kc fuel) (fun d =>
      ∀ tileId : Nat, tileId < d.grid.width * d.grid.height →
      ∀ mode : MapMode, ∀ level : MapLevel,
      ∃ id : Int, resolveEntityId d mode level tileId = some id ∧ 0 ≤ id ∧
        id < (levelEntityCount cc.toNat dc.toNat kc.toNat level : Int)) := by
  unfold onOk
  split
  · rename_i d hg
    obtain ⟨-, -, -, -, -, -, hbody⟩ := generateWorldMapData_ok _ _ _ _ _ _ hg
    obtain ⟨cb, dj, df, tc, hcb, hdj, hdf, htc, hd⟩ :=
      generateWorldMapDataBody_ok _ _ _ _ _ _ hbody
    obtain ⟨hcb1, hcb2, -, -⟩ := generateCountyBase_spec _ _ _ _ _ _ hcb
    obtain ⟨hdj1, hdj2, -, hdj4, hdj5, -, -, -⟩ :=
      generateUpperHierarchy_spec _ _ _ _ _ _ _ hdj
    obtain ⟨hdf1, -, hdf3, -, hdf5, hdf6, -, -, -⟩ :=
      generateDeFactoUpperHierarchy_spec _ _ _ _ _ _ _ hdf
    subst hd
    intro tileId ht mode level
    have ht' : tileId < MAP_WIDTH * MAP_HEIGHT := ht
    have hmain : ∀ hier : HierarchyData,
        hier.tileToCounty = cb.tileToCounty →
        hier.countyToDuchy.length = cc.toNat →
        (∀ v ∈ hier.countyToDuchy, 0 ≤ v ∧ v < ((dc.toNat : Nat) : Int)) →
        hier.duchyToKingdom.length = dc.toNat →
        (∀ v ∈ hier.duchyToKingdom, 0 ≤ v ∧ v < ((kc.toNat : Nat) : Int)) →
        ∃ id : Int, getEntityIdForTile hier tileId level = some id ∧ 0 ≤ id ∧
          id < (levelEntityCount cc.toNat dc.toNat kc.toNat level : Int) := by
      intro hier h1 h2 h3 h4 h5
      have htcl : tileId < hier.tileToCounty.length := by
        rw [h1, hcb1]; exact ht'
      have hcmem : 0 ≤ hier.tileToCounty[tileId] ∧
          hier.tileToCounty[tileId] < ((cc.toNat : Nat) : Int) := by
        refine hcb2 _ ?_
        rw [← h1]
        exact List.getElem_mem htcl
      cases level with
      | county =>
        refine ⟨hier.tileToCounty[tileId], ?_, hcmem⟩
        unfold getEntityIdForTile
        rw [List.getElem?_eq_getElem htcl]
      | duchy =>
        obtain ⟨v, hv, hv0, hvB⟩ := intIndex_spec hier.countyToDuchy dc.toNat
          (hier.tileToCounty[tileId]) h3 hcmem.1 (by rw [h2]; exact hcmem.2)
        refine ⟨v, ?_, hv0, hvB⟩
        unfold getEntityIdForTile
        rw [List.getElem?_eq_getElem htcl]
        show (match intIndex hier.countyToDuchy (hier.tileToCounty[tileId]) with
          | none => (none : Option Int)
          | some duchyId => some duchyId) = some v
        rw [hv]
      | kingdom =>
        obtain ⟨v, hv, hv0, hvB⟩ := intIndex_spec hier.countyToDuchy dc.toNat
          (hier.tileToCounty[tileId]) h3 hcmem.1 (by rw [h2]; exact hcmem.2)
        obtain ⟨w, hw, hw0, hwB⟩ := intIndex_spec hier.duchyToKingdom kc.toNat
          v h5 hv0 (by rw [h4]; exact hvB)
        refine ⟨w, ?_, hw0, hwB⟩
        unfold getEntityIdForTile
        rw [List.getElem?_eq_getElem htcl]
        show (match intIndex hier.countyToDuchy (hier.tileToCounty[tileId]) with
          | none => (none : Option Int)
          | some duchyId => intIndex hier.duchyToKingdom duchyId) = some w
        rw [hv]
        exact hw
    have hvalid : ∀ g : GridConfig, g.width = MAP_WIDTH → g.height = MAP_HEIGHT →
        isValidTileId tileId g = true := by
      intro g hw hh
      unfold isValidTileId getTileCount
      rw [hw, hh]
      simpa using ht'
    cases mode with
    | deJure =>
      unfold resolveEntityId
      rw [if_pos (hvalid _ rfl rfl)]
      refine hmain _ rfl hdj1 hdj2 hdj4 hdj5
    | deFacto =>
      unfold resolveEntityId
      rw [if_pos (hvalid _ rfl rfl)]
      refine hmain _ rfl ?_ hdf3 ?_ hdf6
      · show df.countyToDuchy.length = cc.toNat
        rw [hdf1]; exact hdj1
      · show df.duchyToKingdom.length = dc.toNat
        rw [hdf5]; exact hdj4
  · trivial

/-- Precondition-violation predicate transcribed from the words of the claim:
    a count nonpositive, duchyCount > countyCount, kingdomCount > duchyCount,
    or a non-integer seed. -/
def genPreconditionViolated (seed : ℚ) (countyCount duchyCount kingdomCount : Int) :
    Prop :=
  countyCount ≤ 0 ∨ duchyCount ≤ 0 ∨ kingdomCount ≤ 0 ∨
  duchyCount > countyCount ∨ kingdomCount > duchyCount ∨ seed.den ≠ 1

/-- C7: generateWorldMapData fails immediately - with an entry error that does
    not depend on the generation fuel, i.e. before any generation work -
    exactly when a precondition is violated; for parameters satisfying all the
    preconditions it proceeds directly to the generation body, raising no
    entry failure. -/
theorem generateWorldMapData_preconditions (seed : ℚ) (cc dc kc : Int) :
    (genPreconditionViolated seed cc dc kc →
      ∃ msg : String, ∀ fuel : Nat,
        generateWorldMapData seed cc dc kc fuel = some (.error msg)) ∧
    (¬ genPreconditionViolated seed cc dc kc →
      ∀ fuel : Nat, generateWorldMapData seed cc dc kc fuel =
        generateWorldMapDataBody seed.num cc.toNat dc.toNat kc.toNat fuel) := by
  constructor
  · intro hviol
    by_cases h1 : seed.den ≠ 1
    · refine ⟨"seed must be integer", fun fuel => ?_⟩
      unfold generateWorldMapData
      rw [if_pos h1]
    · by_cases h2 : cc ≤ 0 ∨ dc ≤ 0 ∨ kc ≤ 0
      · refine ⟨"county/duchy/kingdom counts must be > 0", fun fuel => ?_⟩
        unfold generateWorldMapData
        rw [if_neg h1, if_pos h2]
      · by_cases h3 : cc < dc
        · refine ⟨"duchyCount must be <= countyCount", fun fuel => ?_⟩
          unfold generateWorldMapData
          rw [if_neg h1, if_neg h2, if_pos h3]
        · by_cases h4 : dc < kc
          · refine ⟨"kingdomCount must be <= duchyCount", fun fuel => ?_⟩
            unfold generateWorldMapData
            rw [if_neg h1, if_neg h2, if_neg h3, if_pos h4]
          · exfalso
            rcases hviol with hv | hv | hv | hv | hv | hv
            · exact h2 (Or.inl hv)
            · exact h2 (Or.inr (Or.inl hv))
            · exact h2 (Or.inr (Or.inr hv))
            · exact h3 hv
            · exact h4 hv
            · exact h1 hv
  · intro hnv fuel
    unfold genPreconditionViolated at hnv
    push_neg at hnv
    obtain ⟨hc, hd, hk, hdc, hkd, hs⟩ := hnv
    unfold generateWorldMapData
    rw [if_neg (fun hne => hne hs), if_neg (by push_neg; exact ⟨hc, hd, hk⟩),
      if_neg (Int.not_lt.mpr hdc), if_neg (Int.not_lt.mpr hkd)]

theorem chooseSeedsLoop_stuck_at_zero :
    ∀ fuel : Nat, chooseSeedsLoop 2 2 fuel [0] 0 = none := by
  intro fuel
  induction fuel with
  | zero => rfl
  | succ n ih =>
    rw [show chooseSeedsLoop 2 2 (n + 1) [0] 0 =
      chooseSeedsLoop 2 2 n [0] 0 from rfl]
    exact ih

/-- The divergence witnessed against C9's regionGrow half: with rng state 0
    (a fixed point of the xorshift step) the seed-selection rejection loop
    never terminates, for every fuel bound of the model. -/
def regionGrowDivergesAtRngZero : Prop :=
  ∀ fuelSizes fuelSeeds fuelLoop : Nat,
    regionGrow 2 2 0 [[1], [0]] fuelSizes fuelSeeds fuelLoop = none

/-- C9 counterexample: regionGrow has no attempt ceiling - chooseUniqueSeeds
    rejection-samples forever at rng state 0, so regionGrow diverges there
    (returns none at every fuel). -/
theorem regionGrow_no_attempt_ceiling : regionGrowDivergesAtRngZero := by
  intro f1 f2 f3
  have hseeds : ∀ fuel : Nat, chooseSeedsLoop 2 2 fuel ([] : List Nat) 0 = none := by
    intro fuel
    cases fuel with
    | zero => rfl
    | succ n =>
      rw [show chooseSeedsLoop 2 2 (n + 1) [] 0 =
        chooseSeedsLoop 2 2 n [0] 0 from rfl]
      exact chooseSeedsLoop_stuck_at_zero n
  have hcu : chooseUniqueSeeds 2 2 0 f2 = none := by
    unfold chooseUniqueSeeds
    rw [if_neg (by omega)]
    exact hseeds f2
  have hbd : buildDesiredSizes 2 2 0 f1 = some (.ok ([1, 1], 0)) := by
    cases f1 with
    | zero => rfl
    | succ n => rfl
  unfold regionGrow
  rw [hbd]
  simp only [hcu]

/-- C9 (amended): the perturbation engine does have an attempt ceiling - its
    retry loop is capped at maxAttemptsFor (length) = max 500 (length * 120)
    attempts and the function always returns, either ok with exactly the
    desired number of changed indices or fail-fast with an error. The region
    grower's half of the claim is refuted separately: its seed-selection
    rejection loop has no ceiling. -/
theorem perturbAssignments_bounded (base : List Int) (adj : List (List Nat))
    (bucketCount : Nat) (target : Int) (rng : Nat) (label : String) :
    (∃ out : List Int, perturbAssignments base adj bucketCount target rng label =
        .ok out ∧ out.length = base.length ∧
      (List.range base.length).countP
        (fun i => decide (out.getD i 0 ≠ base.getD i 0)) = (max 1 target).toNat) ∨
    (∃ msg : String, perturbAssignments base adj bucketCount target rng label =
        .error msg) := by
  cases hf : perturbAssignmentsFull base adj bucketCount target rng label with
  | error e =>
    right
    refine ⟨e, ?_⟩
    unfold perturbAssignments
    rw [hf]
  | ok p =>
    obtain ⟨out, rng2⟩ := p
    obtain ⟨h1, h2, -, -⟩ := perturbAssignmentsFull_spec _ _ _ _ _ _ _ _ hf
    left
    refine ⟨out, ?_, h1, h2⟩
    unfold perturbAssignments
    rw [hf]

/-- Pull the j-th element of t to the front, depositing x at position j:
    a permutation of x :: t. -/
theorem getD_cons_set_perm {α : Type} [Inhabited α] :
    ∀ (t : List α) (j : Nat) (x : α), j < t.length →
      List.Perm (t.getD j default :: t.set j x) (x :: t)
  | [], j, x, h => absurd h (by simp)
  | y :: s, 0, x, _ => by
    simpa using List.Perm.swap x y s
  | y :: s, j + 1, x, h => by
    have hj : j < s.length := by simpa using h
    have step : List.Perm (s.getD j default :: y :: s.set j x)
        (y :: (s.getD j default :: s.set j x)) := List.Perm.swap y _ _
    refine step.trans ?_
    refine List.Perm.trans (List.Perm.cons y (getD_cons_set_perm s j x hj)) ?_
    exact List.Perm.swap x y s

/-- Swapping two in-range positions permutes the list. -/
theorem set_swap_perm {α : Type} [Inhabited α] :
    ∀ (l : List α) (a b : Nat), a < l.length → b < l.length →
      List.Perm ((l.set a (l.getD b default)).set b (l.getD a default)) l
  | [], a, _, ha, _ => absurd ha (by simp)
  | x :: t, 0, 0, _, _ => by simp
  | x :: t, 0, j + 1, _, hb => by
    have hj : j < t.length := by simpa using hb
    show List.Perm (t.getD j default :: t.set j x) (x :: t)
    exact getD_cons_set_perm t j x hj
  | x :: t, i + 1, 0, ha, _ => by
    have hi : i < t.length := by simpa using ha
    show List.Perm (t.getD i default :: t.set i x) (x :: t)
    exact getD_cons_set_perm t i x hi
  | x :: t, i + 1, j + 1, ha, hb => by
    have hi : i < t.length := by simpa using ha
    have hj : j < t.length := by simpa using hb
    show List.Perm (x :: (t.set i (t.getD j default)).set j (t.getD i default))
      (x :: t)
    exact List.Perm.cons x (set_swap_perm t i j hi hj)

theorem shuffleLoop_perm :
    ∀ (i : Nat) (out : List Nat) (rng : Nat) (res : List Nat × Nat),
      i < out.length → shuffleLoop i out rng = .ok res →
      List.Perm res.1 out := by
  intro i
  induction i with
  | zero =>
    intro out rng res _ h
    unfold shuffleLoop at h
    simp only [Except.ok.injEq] at h
    rw [← h]
  | succ n ih =>
    intro out rng res hlen h
    unfold shuffleLoop at h
    rw [nextInt_ok (n + 2) rng (by omega)] at h
    simp only at h
    have hres := ih _ _ _ (by simp; omega) h
    refine hres.trans ?_
    have hj : (xsStep rng % U32) * (n + 2) / U32 < out.length := by
      have := nextInt_val_lt (n + 2) rng (by omega)
      omega
    exact set_swap_perm out (n + 1) _ hlen hj

theorem shuffledIndices_perm (count rng : Nat) (order : List Nat) (r1 : Nat)
    (h : shuffledIndices count rng = .ok (order, r1)) :
    List.Perm order (List.range count) := by
  unfold shuffledIndices at h
  cases count with
  | zero =>
    unfold shuffleLoop at h
    simp only [Except.ok.injEq, Prod.mk.injEq] at h
    rw [← h.1]
  | succ n =>
    have := shuffleLoop_perm n (List.range (n + 1)) rng (order, r1)
      (by simp) h
    exact this

theorem lt_of_getElem?_eq_some {α : Type} {l : List α} {i : Nat} {a : α}
    (h : l[i]? = some a) : i < l.length := by
  by_contra hn
  rw [List.getElem?_eq_none (Nat.le_of_not_lt hn)] at h
  exact Option.noConfusion h

theorem atSomeE_ok {α : Type} {l : List (Option α)} {i : Nat} {label : String}
    {a : α} (h : atSomeE l i label = .ok a) : l[i]? = some (some a) := by
  unfold atSomeE at h
  cases hl : l[i]? with
  | none => rw [hl] at h; exact Except.noConfusion h
  | some b =>
    cases b with
    | none => rw [hl] at h; exact Except.noConfusion h
    | some c => rw [hl] at h; simp only [Except.ok.injEq] at h; rw [h]

theorem pushAtE_ok {α : Type} {ls : List (List α)} {i : Nat} {a : α}
    {label : String} {out : List (List α)}
    (h : pushAtE ls i a label = .ok out) :
    ∃ l, ls[i]? = some l ∧ out = ls.set i (l ++ [a]) := by
  unfold pushAtE at h
  cases hl : ls[i]? with
  | none => rw [hl] at h; exact Except.noConfusion h
  | some l =>
    rw [hl] at h
    simp only [Except.ok.injEq] at h
    exact ⟨l, rfl, h.symm⟩

/-- An Except fold over range' s k that appends exactly one element per
    index: the result extends the accumulator by k characterized elements. -/
theorem foldlM_build_spec {α : Type} (f : Nat → Except String α)
    (g : List α → Nat → Except String (List α))
    (hg : ∀ a i, g a i = (match f i with
      | .error e => .error e
      | .ok t => .ok (a ++ [t]) : Except String (List α))) :
    ∀ (k s : Nat) (acc out : List α),
      (List.range' s k).foldlM g acc = .ok out →
      ∃ ts : List α, out = acc ++ ts ∧ ts.length = k ∧
        ∀ j, j < k → ∃ t, f (s + j) = .ok t ∧ ts[j]? = some t := by
  intro k
  induction k with
  | zero =>
    intro s acc out h
    have h2 : (pure acc : Except String (List α)) = .ok out := h
    simp only [pure, Except.pure, Except.ok.injEq] at h2
    refine ⟨[], ?_, rfl, fun j hj => absurd hj (by omega)⟩
    rw [h2]
    simp
  | succ n ih =>
    intro s acc out h
    rw [show List.range' s (n + 1) = s :: List.range' (s + 1) n from rfl] at h
    rw [show (s :: List.range' (s + 1) n).foldlM g acc =
      (g acc s).bind
        (fun a => (List.range' (s + 1) n).foldlM g a) from rfl] at h
    rw [hg acc s] at h
    cases hf : f s with
    | error e =>
      rw [hf] at h
      exact Except.noConfusion h
    | ok t =>
      rw [hf] at h
      rw [show (Except.ok (acc ++ [t]) : Except String (List α)).bind
          (fun a => (List.range' (s + 1) n).foldlM g a) =
        (List.range' (s + 1) n).foldlM g (acc ++ [t]) from rfl] at h
      obtain ⟨ts, hout, hlen, hspec⟩ := ih (s + 1) (acc ++ [t]) out h
      refine ⟨t :: ts, ?_, by simp [hlen], ?_⟩
      · rw [hout]; simp
      · intro j hj
        cases j with
        | zero => exact ⟨t, by simpa using hf, by simp⟩
        | succ m =>
          obtain ⟨u, hu, hts⟩ := hspec m (by omega)
          refine ⟨u, ?_, by simpa using hts⟩
          rw [show s + (m + 1) = s + 1 + m by omega]
          exact hu

theorem titleMapGet_some (titles : List MapTitle) (id : TitleId) (t : MapTitle)
    (h : titleMapGet titles id = some t) : t ∈ titles ∧ t.id = id := by
  unfold titleMapGet at h
  suffices hgen : ∀ (l : List MapTitle) (acc : Option MapTitle),
      l.foldl (fun acc x => if x.id = id then some x else acc) acc = some t →
      acc = some t ∨ (t ∈ l ∧ t.id = id) by
    rcases hgen titles none h with hc | hc
    · exact Option.noConfusion hc
    · exact hc
  intro l
  induction l with
  | nil =>
    intro acc h2
    exact Or.inl h2
  | cons hd tl ih =>
    intro acc h2
    rw [List.foldl_cons] at h2
    rcases ih _ h2 with hc | hc
    · by_cases he : hd.id = id
      · rw [if_pos he] at hc
        simp only [Option.some.injEq] at hc
        exact Or.inr ⟨by rw [← hc]; exact List.mem_cons_self hd tl, by rw [← hc]; exact he⟩
      · rw [if_neg he] at hc
        exact Or.inl hc
    · exact Or.inr ⟨List.mem_cons_of_mem hd hc.1, hc.2⟩

theorem foldl_titleMap_no_match (id : TitleId) :
    ∀ (l : List MapTitle) (acc : Option MapTitle),
      (∀ x ∈ l, x.id ≠ id) →
      l.foldl (fun acc x => if x.id = id then some x else acc) acc = acc := by
  intro l
  induction l with
  | nil => intro acc _; rfl
  | cons hd tl ih =>
    intro acc hne
    rw [List.foldl_cons, if_neg (hne hd (List.mem_cons_self hd tl))]
    exact ih acc (fun x hx => hne x (List.mem_cons_of_mem hd hx))

theorem titleMapGet_of_mem (titles : List MapTitle) (t : MapTitle)
    (hmem : t ∈ titles) (hnd : (titles.map (fun x => x.id)).Nodup) :
    titleMapGet titles t.id = some t := by
  unfold titleMapGet
  suffices hgen : ∀ (l : List MapTitle) (acc : Option MapTitle), t ∈ l →
      (l.map (fun x => x.id)).Nodup →
      l.foldl (fun acc x => if x.id = t.id then some x else acc) acc = some t by
    exact hgen titles none hmem hnd
  intro l
  induction l with
  | nil => intro acc hm _; exact absurd hm (List.not_mem_nil t)
  | cons hd tl ih =>
    intro acc hm hnd2
    rw [List.map_cons, List.nodup_cons] at hnd2
    rw [List.foldl_cons]
    rcases List.mem_cons.mp hm with he | hm2
    · subst he
      rw [if_pos rfl]
      refine foldl_titleMap_no_match t.id tl (some t) ?_
      intro x hx hxid
      apply hnd2.1
      rw [← hxid]
      exact List.mem_map_of_mem (fun y => y.id) hx
    · by_cases he2 : hd.id = t.id
      · exfalso
        apply hnd2.1
        rw [he2]
        exact List.mem_map_of_mem (fun y => y.id) hm2
      · rw [if_neg he2]
        exact ih acc hm2 hnd2.2

theorem selectPrimaryLoop_cases (titles : List MapTitle) :
    ∀ (ids : List TitleId) (best : Option MapTitle) (bt : MapTitle),
      selectPrimaryLoop titles ids best = .ok (some bt) →
      best = some bt ∨ ∃ id ∈ ids, titleMapGet titles id = some bt := by
  intro ids
  induction ids with
  | nil =>
    intro best bt h
    unfold selectPrimaryLoop at h
    simp only [Except.ok.injEq] at h
    exact Or.inl h
  | cons id rest ih =>
    intro best bt h
    unfold selectPrimaryLoop at h
    cases hg : titleMapGet titles id with
    | none => rw [hg] at h; exact Except.noConfusion h
    | some title =>
      rw [hg] at h
      simp only at h
      cases best with
      | none =>
        rcases ih (some title) bt h with hc | hc
        · simp only [Option.some.injEq] at hc
          exact Or.inr ⟨id, List.mem_cons_self id rest, by rw [hg, hc]⟩
        · obtain ⟨id2, hm, hmg⟩ := hc
          exact Or.inr ⟨id2, List.mem_cons_of_mem id hm, hmg⟩
      | some bestTitle =>
        simp only at h
        by_cases h1 : rankWeight bestTitle.rank < rankWeight title.rank
        · rw [if_pos h1] at h
          rcases ih (some title) bt h with hc | hc
          · simp only [Option.some.injEq] at hc
            exact Or.inr ⟨id, List.mem_cons_self id rest, by rw [hg, hc]⟩
          · obtain ⟨id2, hm, hmg⟩ := hc
            exact Or.inr ⟨id2, List.mem_cons_of_mem id hm, hmg⟩
        · rw [if_neg h1] at h
          by_cases h2 : rankWeight title.rank = rankWeight bestTitle.rank ∧
              title.entityId < bestTitle.entityId
          · rw [if_pos h2] at h
            rcases ih (some title) bt h with hc | hc
            · simp only [Option.some.injEq] at hc
              exact Or.inr ⟨id, List.mem_cons_self id rest, by rw [hg, hc]⟩
            · obtain ⟨id2, hm, hmg⟩ := hc
              exact Or.inr ⟨id2, List.mem_cons_of_mem id hm, hmg⟩
          · rw [if_neg h2] at h
            rcases ih (some bestTitle) bt h with hc | hc
            · simp only [Option.some.injEq] at hc
              exact Or.inl (by rw [hc])
            · obtain ⟨id2, hm, hmg⟩ := hc
              exact Or.inr ⟨id2, List.mem_cons_of_mem id hm, hmg⟩

theorem selectPrimaryTitleId_mem (heldTitleIds : List TitleId)
    (titles : List MapTitle) (pid : TitleId)
    (h : selectPrimaryTitleId heldTitleIds titles = .ok pid) :
    pid ∈ heldTitleIds := by
  unfold selectPrimaryTitleId at h
  cases hl : selectPrimaryLoop titles heldTitleIds none with
  | error e => rw [hl] at h; exact Except.noConfusion h
  | ok best =>
    cases best with
    | none => rw [hl] at h; exact Except.noConfusion h
    | some bt =>
      rw [hl] at h
      simp only [Except.ok.injEq] at h
      rcases selectPrimaryLoop_cases titles heldTitleIds none bt hl with hc | hc
      · exact Option.noConfusion hc
      · obtain ⟨id, hm, hmg⟩ := hc
        have := titleMapGet_some titles id bt hmg
        rw [← h, this.2]
        exact hm

/-- One iteration of the county-title loop, as a standalone step. -/
def countyStep (seed : Int) (countyNames : List String)
    (countyHolderByCounty : List (Option Nat)) (deJureCtd deFactoCtd : List Int)
    (countyId : Nat) : Except String MapTitle :=
  match atSomeE countyHolderByCounty countyId "countyHolderByCounty" with
  | .error e => .error e
  | .ok holderIndex =>
    match atE countyNames countyId "countyNames" with
    | .error e => .error e
    | .ok name =>
      match atE deJureCtd countyId "deJureUpper.countyToDuchy" with
      | .error e => .error e
      | .ok dj =>
        match atE deFactoCtd countyId "deFactoUpper.countyToDuchy" with
        | .error e => .error e
        | .ok df =>
          .ok
            { id := buildTitleId .county countyId, rank := .county,
              entityId := (countyId : Int), name := name,
              mapColor := colorForTitle .county countyId,
              coatOfArmsSeed :=
                buildCoatOfArmsSeed seed (buildTitleId .county countyId),
              holderCharacterId := buildCharacterId holderIndex,
              deJureParentTitleId := some (buildTitleId .duchy dj.toNat),
              deFactoParentTitleId := some (buildTitleId .duchy df.toNat) }

theorem buildCountyTitles_shape (seed : Int) (countyNames : List String)
    (countyHolderByCounty : List (Option Nat)) (deJureCtd deFactoCtd : List Int) :
    buildCountyTitles seed countyNames countyHolderByCounty deJureCtd deFactoCtd =
      (List.range' 0 countyNames.length).foldlM
        (fun a i => (match countyStep seed countyNames countyHolderByCounty
            deJureCtd deFactoCtd i with
          | .error e => .error e
          | .ok t => .ok (a ++ [t]) : Except String (List MapTitle))) [] := by
  unfold buildCountyTitles
  rw [List.range_eq_range']
  congr 1
  funext a i
  unfold countyStep
  cases h1 : atSomeE countyHolderByCounty i "countyHolderByCounty" with
  | error e => rfl
  | ok v1 =>
    cases h2 : atE countyNames i "countyNames" with
    | error e => rfl
    | ok v2 =>
      cases h3 : atE deJureCtd i "deJureUpper.countyToDuchy" with
      | error e => rfl
      | ok v3 =>
        cases h4 : atE deFactoCtd i "deFactoUpper.countyToDuchy" with
        | error e => rfl
        | ok v4 => rfl

theorem buildCountyTitles_spec (seed : Int) (countyNames : List String)
    (countyHolderByCounty : List (Option Nat)) (deJureCtd deFactoCtd : List Int)
    (l : List MapTitle)
    (h : buildCountyTitles seed countyNames countyHolderByCounty deJureCtd
      deFactoCtd = .ok l) :
    l.length = countyNames.length ∧
    ∀ c, c < countyNames.length → ∃ hIdx : Nat,
      countyHolderByCounty[c]? = some (some hIdx) ∧
      l[c]? = some
        { id := TitleId.mk .county c, rank := .county, entityId := (c : Int),
          name := countyNames.getD c "",
          mapColor := colorForTitle .county c,
          coatOfArmsSeed := buildCoatOfArmsSeed seed (TitleId.mk .county c),
          holderCharacterId := buildCharacterId hIdx,
          deJureParentTitleId := some (TitleId.mk .duchy (deJureCtd.getD c 0).toNat),
          deFactoParentTitleId :=
            some (TitleId.mk .duchy (deFactoCtd.getD c 0).toNat) } := by
  rw [buildCountyTitles_shape] at h
  obtain ⟨ts, hout, hlen, hspec⟩ := foldlM_build_spec
    (countyStep seed countyNames countyHolderByCounty deJureCtd deFactoCtd) _
    (fun a i => by
      cases countyStep seed countyNames countyHolderByCounty deJureCtd
        deFactoCtd i <;> rfl)
    countyNames.length 0 [] l h
  have hl : l = ts := by rw [hout]; simp
  subst hl
  refine ⟨hlen, ?_⟩
  intro c hc
  obtain ⟨t, hstep, hts⟩ := hspec c (by omega)
  rw [Nat.zero_add] at hstep
  unfold countyStep at hstep
  cases h1 : atSomeE countyHolderByCounty c "countyHolderByCounty" with
  | error e => rw [h1] at hstep; exact Except.noConfusion hstep
  | ok hIdx =>
    rw [h1] at hstep
    simp only at hstep
    cases h2 : atE countyNames c "countyNames" with
    | error e => rw [h2] at hstep; exact Except.noConfusion hstep
    | ok name =>
      rw [h2] at hstep
      simp only at hstep
      cases h3 : atE deJureCtd c "deJureUpper.countyToDuchy" with
      | error e => rw [h3] at hstep; exact Except.noConfusion hstep
      | ok dj =>
        rw [h3] at hstep
        simp only at hstep
        cases h4 : atE deFactoCtd c "deFactoUpper.countyToDuchy" with
        | error e => rw [h4] at hstep; exact Except.noConfusion hstep
        | ok df =>
          rw [h4] at hstep
          simp only [Except.ok.injEq] at hstep
          refine ⟨hIdx, atSomeE_ok h1, ?_⟩
          rw [hts, ← hstep]
          rw [getD_eq_some (atE_ok h2), getD_eq_some (atE_ok h3),
            getD_eq_some (atE_ok h4)]
          rfl

def duchyStep (seed : Int) (duchyNames : List String)
    (duchyHolderByDuchy : List (Option Nat)) (deJureDtk deFactoDtk : List Int)
    (duchyId : Nat) : Except String MapTitle :=
  match atSomeE duchyHolderByDuchy duchyId "duchyHolderByDuchy" with
  | .error e => .error e
  | .ok holderIndex =>
    match atE duchyNames duchyId "duchyNames" with
    | .error e => .error e
    | .ok name =>
      match atE deJureDtk duchyId "deJureUpper.duchyToKingdom" with
      | .error e => .error e
      | .ok dj =>
        match atE deFactoDtk duchyId "deFactoUpper.duchyToKingdom" with
        | .error e => .error e
        | .ok df =>
          .ok
            { id := buildTitleId .duchy duchyId, rank := .duchy,
              entityId := (duchyId : Int), name := name,
              mapColor := colorForTitle .duchy duchyId,
              coatOfArmsSeed :=
                buildCoatOfArmsSeed seed (buildTitleId .duchy duchyId),
              holderCharacterId := buildCharacterId holderIndex,
              deJureParentTitleId := some (buildTitleId .kingdom dj.toNat),
              deFactoParentTitleId := some (buildTitleId .kingdom df.toNat) }

theorem buildDuchyTitles_shape (seed : Int) (duchyNames : List String)
    (duchyHolderByDuchy : List (Option Nat)) (deJureDtk deFactoDtk : List Int) :
    buildDuchyTitles seed duchyNames duchyHolderByDuchy deJureDtk deFactoDtk =
      (List.range' 0 duchyNames.length).foldlM
        (fun a i => (match duchyStep seed duchyNames duchyHolderByDuchy
            deJureDtk deFactoDtk i with
          | .error e => .error e
          | .ok t => .ok (a ++ [t]) : Except String (List MapTitle))) [] := by
  unfold buildDuchyTitles
  rw [List.range_eq_range']
  congr 1
  funext a i
  unfold duchyStep
  cases h1 : atSomeE duchyHolderByDuchy i "duchyHolderByDuchy" with
  | error e => rfl
  | ok v1 =>
    cases h2 : atE duchyNames i "duchyNames" with
    | error e => rfl
    | ok v2 =>
      cases h3 : atE deJureDtk i "deJureUpper.duchyToKingdom" with
      | error e => rfl
      | ok v3 =>
        cases h4 : atE deFactoDtk i "deFactoUpper.duchyToKingdom" with
        | error e => rfl
        | ok v4 => rfl

theorem buildDuchyTitles_spec (seed : Int) (duchyNames : List String)
    (duchyHolderByDuchy : List (Option Nat)) (deJureDtk deFactoDtk : List Int)
    (l : List MapTitle)
    (h : buildDuchyTitles seed duchyNames duchyHolderByDuchy deJureDtk
      deFactoDtk = .ok l) :
    l.length = duchyNames.length ∧
    ∀ c, c < duchyNames.length → ∃ hIdx : Nat,
      duchyHolderByDuchy[c]? = some (some hIdx) ∧
      l[c]? = some
        { id := TitleId.mk .duchy c, rank := .duchy, entityId := (c : Int),
          name := duchyNames.getD c "",
          mapColor := colorForTitle .duchy c,
          coatOfArmsSeed := buildCoatOfArmsSeed seed (TitleId.mk .duchy c),
          holderCharacterId := buildCharacterId hIdx,
          deJureParentTitleId := some (TitleId.mk .kingdom (deJureDtk.getD c 0).toNat),
          deFactoParentTitleId :=
            some (TitleId.mk .kingdom (deFactoDtk.getD c 0).toNat) } := by
  rw [buildDuchyTitles_shape] at h
  obtain ⟨ts, hout, hlen, hspec⟩ := foldlM_build_spec
    (duchyStep seed duchyNames duchyHolderByDuchy deJureDtk deFactoDtk) _
    (fun a i => by
      cases duchyStep seed duchyNames duchyHolderByDuchy deJureDtk
        deFactoDtk i <;> rfl)
    duchyNames.length 0 [] l h
  have hl : l = ts := by rw [hout]; simp
  subst hl
  refine ⟨hlen, ?_⟩
  intro c hc
  obtain ⟨t, hstep, hts⟩ := hspec c (by omega)
  rw [Nat.zero_add] at hstep
  unfold duchyStep at hstep
  cases h1 : atSomeE duchyHolderByDuchy c "duchyHolderByDuchy" with
  | error e => rw [h1] at hstep; exact Except.noConfusion hstep
  | ok hIdx =>
    rw [h1] at hstep
    simp only at hstep
    cases h2 : atE duchyNames c "duchyNames" with
    | error e => rw [h2] at hstep; exact Except.noConfusion hstep
    | ok name =>
      rw [h2] at hstep
      simp only at hstep
      cases h3 : atE deJureDtk c "deJureUpper.duchyToKingdom" with
      | error e => rw [h3] at hstep; exact Except.noConfusion hstep
      | ok dj =>
        rw [h3] at hstep
        simp only at hstep
        cases h4 : atE deFactoDtk c "deFactoUpper.duchyToKingdom" with
        | error e => rw [h4] at hstep; exact Except.noConfusion hstep
        | ok df =>
          rw [h4] at hstep
          simp only [Except.ok.injEq] at hstep
          refine ⟨hIdx, atSomeE_ok h1, ?_⟩
          rw [hts, ← hstep]
          rw [getD_eq_some (atE_ok h2), getD_eq_some (atE_ok h3),
            getD_eq_some (atE_ok h4)]
          rfl

def kingdomStep (seed : Int) (kingdomNames : List String)
    (kingdomHolderByKingdom : List (Option Nat)) (kingdomId : Nat) :
    Except String MapTitle :=
  match atSomeE kingdomHolderByKingdom kingdomId "kingdomHolderByKingdom" with
  | .error e => .error e
  | .ok holderIndex =>
    match atE kingdomNames kingdomId "kingdomNames" with
    | .error e => .error e
    | .ok name =>
      .ok
        { id := buildTitleId .kingdom kingdomId, rank := .kingdom,
          entityId := (kingdomId : Int), name := name,
          mapColor := colorForTitle .kingdom kingdomId,
          coatOfArmsSeed :=
            buildCoatOfArmsSeed seed (buildTitleId .kingdom kingdomId),
          holderCharacterId := buildCharacterId holderIndex,
          deJureParentTitleId := none, deFactoParentTitleId := none }

theorem buildKingdomTitles_shape (seed : Int) (kingdomNames : List String)
    (kingdomHolderByKingdom : List (Option Nat)) :
    buildKingdomTitles seed kingdomNames kingdomHolderByKingdom =
      (List.range' 0 kingdomNames.length).foldlM
        (fun a i => (match kingdomStep seed kingdomNames kingdomHolderByKingdom i with
          | .error e => .error e
          | .ok t => .ok (a ++ [t]) : Except String (List MapTitle))) [] := by
  unfold buildKingdomTitles
  rw [List.range_eq_range']
  congr 1
  funext a i
  unfold kingdomStep
  cases h1 : atSomeE kingdomHolderByKingdom i "kingdomHolderByKingdom" with
  | error e => rfl
  | ok v1 =>
    cases h2 : atE kingdomNames i "kingdomNames" with
    | error e => rfl
    | ok v2 => rfl

theorem buildKingdomTitles_spec (seed : Int) (kingdomNames : List String)
    (kingdomHolderByKingdom : List (Option Nat)) (l : List MapTitle)
    (h : buildKingdomTitles seed kingdomNames kingdomHolderByKingdom = .ok l) :
    l.length = kingdomNames.length ∧
    ∀ c, c < kingdomNames.length → ∃ hIdx : Nat,
      kingdomHolderByKingdom[c]? = some (some hIdx) ∧
      l[c]? = some
        { id := TitleId.mk .kingdom c, rank := .kingdom, entityId := (c : Int),
          name := kingdomNames.getD c "",
          mapColor := colorForTitle .kingdom c,
          coatOfArmsSeed := buildCoatOfArmsSeed seed (TitleId.mk .kingdom c),
          holderCharacterId := buildCharacterId hIdx,
          deJureParentTitleId := none, deFactoParentTitleId := none } := by
  rw [buildKingdomTitles_shape] at h
  obtain ⟨ts, hout, hlen, hspec⟩ := foldlM_build_spec
    (kingdomStep seed kingdomNames kingdomHolderByKingdom) _
    (fun a i => by
      cases kingdomStep seed kingdomNames kingdomHolderByKingdom i <;> rfl)
    kingdomNames.length 0 [] l h
  have hl : l = ts := by rw [hout]; simp
  subst hl
  refine ⟨hlen, ?_⟩
  intro c hc
  obtain ⟨t, hstep, hts⟩ := hspec c (by omega)
  rw [Nat.zero_add] at hstep
  unfold kingdomStep at hstep
  cases h1 : atSomeE kingdomHolderByKingdom c "kingdomHolderByKingdom" with
  | error e => rw [h1] at hstep; exact Except.noConfusion hstep
  | ok hIdx =>
    rw [h1] at hstep
    simp only at hstep
    cases h2 : atE kingdomNames c "kingdomNames" with
    | error e => rw [h2] at hstep; exact Except.noConfusion hstep
    | ok name =>
      rw [h2] at hstep
      simp only [Except.ok.injEq] at hstep
      refine ⟨hIdx, atSomeE_ok h1, ?_⟩
      rw [hts, ← hstep]
      rw [getD_eq_some (atE_ok h2)]
      rfl

theorem except_bind_ok {ε β γ : Type} (x : β) (k : β → Except ε γ) :
    (Except.ok x : Except ε β) >>= k = k x := rfl

theorem except_bind_error {ε β γ : Type} (e : ε) (k : β → Except ε γ) :
    (Except.error e : Except ε β) >>= k = .error e := rfl

def characterStep (characterNames : List String) (titles : List MapTitle)
    (held : List (List TitleId)) (characterIndex : Nat) :
    Except String MapCharacter :=
  match atE held characterIndex "heldTitleIdsByCharacter" with
  | .error e => .error e
  | .ok heldTitleIds =>
    if heldTitleIds.length = 0 then .error "character has no titles"
    else
      match selectPrimaryTitleId heldTitleIds titles with
      | .error e => .error e
      | .ok primaryTitleId =>
        match atE characterNames characterIndex "characterNames" with
        | .error e => .error e
        | .ok name =>
          .ok
            { id := buildCharacterId characterIndex, name := name,
              primaryTitleId := primaryTitleId, heldTitleIds := heldTitleIds }

theorem buildCharactersList_shape (characterNames : List String)
    (titles : List MapTitle) (held : List (List TitleId)) (countyCount : Nat) :
    buildCharactersList characterNames titles held countyCount =
      (List.range' 0 countyCount).foldlM
        (fun a i => (match characterStep characterNames titles held i with
          | .error e => .error e
          | .ok t => .ok (a ++ [t]) : Except String (List MapCharacter))) [] := by
  unfold buildCharactersList
  rw [List.range_eq_range']
  congr 1
  funext a i
  unfold characterStep
  cases h1 : atE held i "heldTitleIdsByCharacter" with
  | error e => rfl
  | ok ids =>
    by_cases h2 : ids.length = 0
    · have hnil : ids = [] := List.length_eq_zero.mp h2
      subst hnil
      simp [except_bind_ok]
    · have hne : ids ≠ [] := by
        intro hnil
        rw [hnil] at h2
        exact h2 rfl
      cases h3 : selectPrimaryTitleId ids titles with
      | error e => simp [except_bind_ok, except_bind_error, hne, h3]
      | ok pid =>
        cases h4 : atE characterNames i "characterNames" with
        | error e => simp [except_bind_ok, except_bind_error, hne, h3, h4]
        | ok name => simp [except_bind_ok, except_bind_error, hne, h3, h4]

theorem buildCharactersList_spec (characterNames : List String)
    (titles : List MapTitle) (held : List (List TitleId)) (countyCount : Nat)
    (l : List MapCharacter)
    (h : buildCharactersList characterNames titles held countyCount = .ok l) :
    l.length = countyCount ∧
    ∀ i, i < countyCount → ∃ ids pid,
      held[i]? = some ids ∧ ids ≠ [] ∧
      selectPrimaryTitleId ids titles = .ok pid ∧
      l[i]? = some
        { id := buildCharacterId i, name := characterNames.getD i "",
          primaryTitleId := pid, heldTitleIds := ids } := by
  rw [buildCharactersList_shape] at h
  obtain ⟨ts, hout, hlen, hspec⟩ := foldlM_build_spec
    (characterStep characterNames titles held) _
    (fun a i => by cases characterStep characterNames titles held i <;> rfl)
    countyCount 0 [] l h
  have hl : l = ts := by rw [hout]; simp
  subst hl
  refine ⟨hlen, ?_⟩
  intro i hi
  obtain ⟨t, hstep, hts⟩ := hspec i (by omega)
  rw [Nat.zero_add] at hstep
  unfold characterStep at hstep
  cases h1 : atE held i "heldTitleIdsByCharacter" with
  | error e => rw [h1] at hstep; exact Except.noConfusion hstep
  | ok ids =>
    rw [h1] at hstep
    simp only at hstep
    by_cases h2 : ids.length = 0
    · rw [if_pos h2] at hstep
      exact Except.noConfusion hstep
    · rw [if_neg h2] at hstep
      cases h3 : selectPrimaryTitleId ids titles with
      | error e => rw [h3] at hstep; exact Except.noConfusion hstep
      | ok pid =>
        rw [h3] at hstep
        simp only at hstep
        cases h4 : atE characterNames i "characterNames" with
        | error e => rw [h4] at hstep; exact Except.noConfusion hstep
        | ok name =>
          rw [h4] at hstep
          simp only [Except.ok.injEq] at hstep
          refine ⟨ids, pid, atE_ok h1, ?_, h3, ?_⟩
          · intro hnil
            rw [hnil] at h2
            exact h2 rfl
          · rw [hts, ← hstep]
            rw [getD_eq_some (atE_ok h4)]

theorem assignCountyLoop_spec (countyOrder : List Nat) :
    ∀ (k ci : Nat) (holder : List (Option Nat)) (held : List (List TitleId))
      (holder' : List (Option Nat)) (held' : List (List TitleId)),
      assignCountyLoop countyOrder k ci holder held = .ok (holder', held') →
      countyOrder.Nodup → (∀ v ∈ countyOrder, v < holder.length) →
      held'.length = held.length ∧ holder'.length = holder.length ∧
      (∀ i, i < ci ∨ ci + k ≤ i → held'[i]? = held[i]?) ∧
      (∀ i, ci ≤ i → i < ci + k → i < countyOrder.length ∧ i < held.length ∧
        held'[i]? =
          some (held.getD i [] ++ [TitleId.mk .county (countyOrder.getD i 0)])) ∧
      (∀ c : Nat, (∀ i, ci ≤ i → i < ci + k → countyOrder.getD i 0 ≠ c) →
        holder'[c]? = holder[c]?) ∧
      (∀ i, ci ≤ i → i < ci + k →
        holder'[countyOrder.getD i 0]? = some (some i)) := by
  intro k
  induction k with
  | zero =>
    intro ci holder held holder' held' h _ _
    unfold assignCountyLoop at h
    simp only [Except.ok.injEq, Prod.mk.injEq] at h
    obtain ⟨h1, h2⟩ := h
    subst h1
    subst h2
    refine ⟨rfl, rfl, fun i _ => rfl, fun i hi1 hi2 => absurd hi2 (by omega),
      fun c _ => rfl, fun i hi1 hi2 => absurd hi2 (by omega)⟩
  | succ n ih =>
    intro ci holder held holder' held' h hnd hbound
    unfold assignCountyLoop at h
    cases h1 : atE countyOrder ci "countyOrder" with
    | error e => rw [h1, except_bind_error] at h; exact Except.noConfusion h
    | ok countyId =>
      rw [h1, except_bind_ok] at h
      cases h2 : pushAtE held ci (buildTitleId .county countyId)
          "heldTitleIdsByCharacter" with
      | error e => rw [h2, except_bind_error] at h; exact Except.noConfusion h
      | ok held2 =>
        rw [h2, except_bind_ok] at h
        obtain ⟨lheld, hlheld, hheld2⟩ := pushAtE_ok h2
        have hciord : countyOrder[ci]? = some countyId := atE_ok h1
        have hcilt : ci < countyOrder.length := lt_of_getElem?_eq_some hciord
        have hcilt2 : ci < held.length := lt_of_getElem?_eq_some hlheld
        have hgetDco : countyOrder.getD ci 0 = countyId := getD_eq_some hciord
        have hbound2 : ∀ v ∈ countyOrder,
            v < (holder.set countyId (some ci)).length := by
          intro v hv
          rw [List.length_set]
          exact hbound v hv
        obtain ⟨ihl1, ihl2, ihout, ihwin, ihnoh, ihhit⟩ :=
          ih (ci + 1) (holder.set countyId (some ci)) held2 holder' held' h
            hnd hbound2
        have hheld2len : held2.length = held.length := by
          rw [hheld2, List.length_set]
        have hwinlt : ∀ i, ci + 1 ≤ i → i < ci + 1 + n →
            i < countyOrder.length := fun i a b => (ihwin i a b).1
        refine ⟨by rw [ihl1, hheld2len], by rw [ihl2, List.length_set], ?_, ?_,
          ?_, ?_⟩
        · intro i hi
          have hout2 : held'[i]? = held2[i]? := ihout i (by omega)
          rw [hout2, hheld2]
          exact List.getElem?_set_ne (by omega)
        · intro i hi1 hi2
          by_cases hie : i = ci
          · subst hie
            refine ⟨hcilt, hcilt2, ?_⟩
            have hout2 : held'[i]? = held2[i]? := ihout i (by omega)
            rw [hout2, hheld2, List.getElem?_set_eq_of_lt _ hcilt2]
            rw [hgetDco, getD_eq_some hlheld]
            rfl
          · have hi1' : ci + 1 ≤ i := by omega
            obtain ⟨ho1, ho2, ho3⟩ := ihwin i hi1' (by omega)
            refine ⟨ho1, by rw [← hheld2len]; exact ho2, ?_⟩
            rw [ho3, hheld2]
            congr 2
            rw [List.getD_eq_getElem?_getD, List.getD_eq_getElem?_getD,
              List.getElem?_set_ne (fun he => hie (he.symm))]
        · intro c hc
          have hnoh2 : holder'[c]? = (holder.set countyId (some ci))[c]? := by
            refine ihnoh c ?_
            intro i hi1 hi2
            exact hc i (by omega) (by omega)
          rw [hnoh2]
          refine List.getElem?_set_ne ?_
          intro he
          exact hc ci (by omega) (by omega) (by rw [hgetDco]; exact he)
        · intro i hi1 hi2
          by_cases hie : i = ci
          · subst hie
            rw [hgetDco]
            have hmemco : countyId ∈ countyOrder := by
              rw [← hgetDco]
              exact getD_mem_of_lt countyOrder i 0 hcilt
            have hnoh2 : holder'[countyId]? =
                (holder.set countyId (some i))[countyId]? := by
              refine ihnoh countyId ?_
              intro j hj1 hj2
              have hjlt : j < countyOrder.length := hwinlt j hj1 hj2
              rw [List.getD_eq_getElem?_getD, List.getElem?_eq_getElem hjlt]
              simp only [Option.getD_some]
              intro he
              have : countyOrder[j] = countyOrder[i] := by
                rw [he, ← hgetDco, List.getD_eq_getElem?_getD,
                  List.getElem?_eq_getElem hcilt]
                rfl
              have hji : j = i := (List.Nodup.getElem_inj_iff hnd).mp this
              omega
            rw [hnoh2]
            exact List.getElem?_set_eq_of_lt _ (hbound countyId hmemco)
          · exact ihhit i (by omega) (by omega)

theorem duchyHolderLoop_spec (duchyCandidates : List (List Nat)) :
    ∀ (k did : Nat) (holder : List (Option Nat)) (held : List (List TitleId))
      (rng : Nat) (holder' : List (Option Nat)) (held' : List (List TitleId))
      (rng' : Nat),
      duchyHolderLoop duchyCandidates k did holder held rng =
        .ok (holder', held', rng') →
      did + k ≤ holder.length →
      held'.length = held.length ∧ holder'.length = holder.length ∧
      (∀ d, d < did ∨ did + k ≤ d → holder'[d]? = holder[d]?) ∧
      (∀ d, did ≤ d → d < did + k → ∃ h, h < held.length ∧
        holder'[d]? = some (some h) ∧ TitleId.mk .duchy d ∈ held'.getD h []) ∧
      (∀ i id, id ∈ held'.getD i [] → id ∈ held.getD i [] ∨
        ∃ d, did ≤ d ∧ d < did + k ∧ id = TitleId.mk .duchy d ∧
          holder'[d]? = some (some i)) ∧
      (∀ i, ∀ id ∈ held.getD i [], id ∈ held'.getD i []) ∧
      ((∀ i, (held.getD i []).Nodup) →
        (∀ i, ∀ id ∈ held.getD i [], id.rank = TitleRank.duchy → id.num < did) →
        (∀ i, (held'.getD i []).Nodup) ∧
        (∀ i, ∀ id ∈ held'.getD i [],
          id.rank = TitleRank.duchy → id.num < did + k)) := by
  intro k
  induction k with
  | zero =>
    intro did holder held rng holder' held' rng' h _
    unfold duchyHolderLoop at h
    simp only [Except.ok.injEq, Prod.mk.injEq] at h
    obtain ⟨h1, h2, -⟩ := h
    subst h1
    subst h2
    exact ⟨rfl, rfl, fun d _ => rfl,
      fun d hd1 hd2 => absurd hd2 (by omega),
      fun i id hm => Or.inl hm, fun i id hm => hm,
      fun hnd hrk => ⟨hnd, fun i id hm h1 => by
        have := hrk i id hm h1
        omega⟩⟩
  | succ n ih =>
    intro did holder held rng holder' held' rng' h hwin
    unfold duchyHolderLoop at h
    cases h1 : atE duchyCandidates did "duchyCandidates" with
    | error e => rw [h1, except_bind_error] at h; exact Except.noConfusion h
    | ok candidates =>
      rw [h1, except_bind_ok] at h
      by_cases hc0 : candidates.length = 0
      · rw [if_pos hc0] at h
        exact Except.noConfusion h
      · rw [if_neg hc0] at h
        cases hni : nextInt candidates.length rng with
        | error e => rw [hni] at h; exact Except.noConfusion h
        | ok p =>
          obtain ⟨ci, r1⟩ := p
          rw [hni] at h
          simp only at h
          cases h2 : pushAtE held (candidates.getD ci 0)
              (buildTitleId .duchy did) "heldTitleIdsByCharacter" with
          | error e => rw [h2, except_bind_error] at h; exact Except.noConfusion h
          | ok held2 =>
            rw [h2, except_bind_ok] at h
            obtain ⟨lheld, hlheld, hheld2⟩ := pushAtE_ok h2
            have hIdxlt : candidates.getD ci 0 < held.length :=
              lt_of_getElem?_eq_some hlheld
            have hdidlt : did < holder.length := by omega
            have hheld2len : held2.length = held.length := by
              rw [hheld2, List.length_set]
            have hheld2getd : ∀ i, held2.getD i [] =
                if i = candidates.getD ci 0
                then lheld ++ [buildTitleId .duchy did]
                else held.getD i [] := by
              intro i
              by_cases hie : i = candidates.getD ci 0
              · rw [if_pos hie, hheld2, hie]
                rw [List.getD_eq_getElem?_getD
                    (held.set (candidates.getD ci 0)
                      (lheld ++ [buildTitleId .duchy did]))
                    (candidates.getD ci 0) [],
                  List.getElem?_set_eq_of_lt _ hIdxlt]
                rfl
              · rw [if_neg hie, hheld2]
                rw [List.getD_eq_getElem?_getD
                    (held.set (candidates.getD ci 0)
                      (lheld ++ [buildTitleId .duchy did])) i [],
                  List.getD_eq_getElem?_getD held i [],
                  List.getElem?_set_ne (fun he => hie (he.symm))]
            obtain ⟨ihl1, ihl2, ihout, ihwin, ihinv, ihpres, ihnd⟩ :=
              ih (did + 1) (holder.set did (some (candidates.getD ci 0)))
                held2 r1 holder' held' rng' h
                (by rw [List.length_set]; omega)
            have hhit : holder'[did]? = some (some (candidates.getD ci 0)) := by
              rw [ihout did (by omega)]
              exact List.getElem?_set_eq_of_lt _ hdidlt
            refine ⟨by rw [ihl1, hheld2len], by rw [ihl2, List.length_set],
              ?_, ?_, ?_, ?_, ?_⟩
            · intro d hd
              rw [ihout d (by omega)]
              exact List.getElem?_set_ne (by omega)
            · intro d hd1 hd2
              by_cases hde : d = did
              · subst hde
                refine ⟨candidates.getD ci 0, hIdxlt, hhit, ?_⟩
                refine ihpres _ _ ?_
                rw [hheld2getd, if_pos rfl]
                exact List.mem_append_right _ (List.mem_singleton_self _)
              · obtain ⟨hh, hh1, hh2, hh3⟩ := ihwin d (by omega) (by omega)
                exact ⟨hh, by rw [← hheld2len]; exact hh1, hh2, hh3⟩
            · intro i id hm
              rcases ihinv i id hm with hl | hr
              · rw [hheld2getd] at hl
                by_cases hie : i = candidates.getD ci 0
                · rw [if_pos hie] at hl
                  rcases List.mem_append.mp hl with hl2 | hl2
                  · left
                    rw [hie, getD_eq_some hlheld]
                    exact hl2
                  · right
                    refine ⟨did, by omega, by omega, ?_, ?_⟩
                    · simpa using hl2
                    · rw [hhit, hie]
                · rw [if_neg hie] at hl
                  exact Or.inl hl
              · obtain ⟨d, hd1, hd2, hd3, hd4⟩ := hr
                exact Or.inr ⟨d, by omega, by omega, hd3, hd4⟩
            · intro i id hm
              refine ihpres i id ?_
              rw [hheld2getd]
              by_cases hie : i = candidates.getD ci 0
              · rw [if_pos hie]
                refine List.mem_append_left _ ?_
                rw [hie, getD_eq_some hlheld] at hm
                exact hm
              · rw [if_neg hie]
                exact hm
            · intro hnd hrk
              have hnd2 : ∀ i, (held2.getD i []).Nodup := by
                intro i
                rw [hheld2getd]
                by_cases hie : i = candidates.getD ci 0
                · rw [if_pos hie]
                  rw [List.nodup_append]
                  refine ⟨by rw [← getD_eq_some hlheld]; exact hnd _, by simp, ?_⟩
                  intro a ha hb
                  rw [List.mem_singleton] at hb
                  subst hb
                  have := hrk (candidates.getD ci 0) _
                    (by rw [getD_eq_some hlheld]; exact ha) rfl
                  rw [show (buildTitleId TitleRank.duchy did).num = did
                    from rfl] at this
                  omega
                · rw [if_neg hie]
                  exact hnd _
              have hrk2 : ∀ i, ∀ id ∈ held2.getD i [],
                  id.rank = TitleRank.duchy → id.num < did + 1 := by
                intro i id hm hr
                rw [hheld2getd] at hm
                by_cases hie : i = candidates.getD ci 0
                · rw [if_pos hie] at hm
                  rcases List.mem_append.mp hm with hm2 | hm2
                  · refine Nat.lt_succ_of_lt (hrk i id ?_ hr)
                    rw [hie, getD_eq_some hlheld]
                    exact hm2
                  · rw [List.mem_singleton] at hm2
                    subst hm2
                    show did < did + 1
                    omega
                · rw [if_neg hie] at hm
                  have := hrk i id hm hr
                  omega
              obtain ⟨hc1, hc2⟩ := ihnd hnd2 hrk2
              refine ⟨hc1, ?_⟩
              intro i id hm hr
              have := hc2 i id hm hr
              omega

theorem kingdomHolderLoop_spec (kingdomCandidateSets : List (List Nat)) :
    ∀ (k kid : Nat) (holder : List (Option Nat)) (held : List (List TitleId))
      (rng : Nat) (holder' : List (Option Nat)) (held' : List (List TitleId))
      (rng' : Nat),
      kingdomHolderLoop kingdomCandidateSets k kid holder held rng =
        .ok (holder', held', rng') →
      kid + k ≤ holder.length →
      held'.length = held.length ∧ holder'.length = holder.length ∧
      (∀ d, d < kid ∨ kid + k ≤ d → holder'[d]? = holder[d]?) ∧
      (∀ d, kid ≤ d → d < kid + k → ∃ h, h < held.length ∧
        holder'[d]? = some (some h) ∧ TitleId.mk .kingdom d ∈ held'.getD h []) ∧
      (∀ i id, id ∈ held'.getD i [] → id ∈ held.getD i [] ∨
        ∃ d, kid ≤ d ∧ d < kid + k ∧ id = TitleId.mk .kingdom d ∧
          holder'[d]? = some (some i)) ∧
      (∀ i, ∀ id ∈ held.getD i [], id ∈ held'.getD i []) ∧
      ((∀ i, (held.getD i []).Nodup) →
        (∀ i, ∀ id ∈ held.getD i [], id.rank = TitleRank.kingdom → id.num < kid) →
        (∀ i, (held'.getD i []).Nodup) ∧
        (∀ i, ∀ id ∈ held'.getD i [],
          id.rank = TitleRank.kingdom → id.num < kid + k)) := by
  intro k
  induction k with
  | zero =>
    intro kid holder held rng holder' held' rng' h _
    unfold kingdomHolderLoop at h
    simp only [Except.ok.injEq, Prod.mk.injEq] at h
    obtain ⟨h1, h2, -⟩ := h
    subst h1
    subst h2
    exact ⟨rfl, rfl, fun d _ => rfl,
      fun d hd1 hd2 => absurd hd2 (by omega),
      fun i id hm => Or.inl hm, fun i id hm => hm,
      fun hnd hrk => ⟨hnd, fun i id hm h1 => by
        have := hrk i id hm h1
        omega⟩⟩
  | succ n ih =>
    intro kid holder held rng holder' held' rng' h hwin
    unfold kingdomHolderLoop at h
    cases h1 : atE kingdomCandidateSets kid "kingdomCandidateSets" with
    | error e => rw [h1, except_bind_error] at h; exact Except.noConfusion h
    | ok candidates =>
      rw [h1, except_bind_ok] at h
      by_cases hc0 : candidates.length = 0
      · rw [if_pos hc0] at h
        exact Except.noConfusion h
      · rw [if_neg hc0] at h
        cases hni : nextInt candidates.length rng with
        | error e => rw [hni] at h; exact Except.noConfusion h
        | ok p =>
          obtain ⟨ci, r1⟩ := p
          rw [hni] at h
          simp only at h
          cases h2 : pushAtE held (candidates.getD ci 0)
              (buildTitleId .kingdom kid) "heldTitleIdsByCharacter" with
          | error e => rw [h2, except_bind_error] at h; exact Except.noConfusion h
          | ok held2 =>
            rw [h2, except_bind_ok] at h
            obtain ⟨lheld, hlheld, hheld2⟩ := pushAtE_ok h2
            have hIdxlt : candidates.getD ci 0 < held.length :=
              lt_of_getElem?_eq_some hlheld
            have hkidlt : kid < holder.length := by omega
            have hheld2len : held2.length = held.length := by
              rw [hheld2, List.length_set]
            have hheld2getd : ∀ i, held2.getD i [] =
                if i = candidates.getD ci 0
                then lheld ++ [buildTitleId .kingdom kid]
                else held.getD i [] := by
              intro i
              by_cases hie : i = candidates.getD ci 0
              · rw [if_pos hie, hheld2, hie]
                rw [List.getD_eq_getElem?_getD
                    (held.set (candidates.getD ci 0)
                      (lheld ++ [buildTitleId .kingdom kid]))
                    (candidates.getD ci 0) [],
                  List.getElem?_set_eq_of_lt _ hIdxlt]
                rfl
              · rw [if_neg hie, hheld2]
                rw [List.getD_eq_getElem?_getD
                    (held.set (candidates.getD ci 0)
                      (lheld ++ [buildTitleId .kingdom kid])) i [],
                  List.getD_eq_getElem?_getD held i [],
                  List.getElem?_set_ne (fun he => hie (he.symm))]
            obtain ⟨ihl1, ihl2, ihout, ihwin, ihinv, ihpres, ihnd⟩ :=
              ih (kid + 1) (holder.set kid (some (candidates.getD ci 0)))
                held2 r1 holder' held' rng' h
                (by rw [List.length_set]; omega)
            have hhit : holder'[kid]? = some (some (candidates.getD ci 0)) := by
              rw [ihout kid (by omega)]
              exact List.getElem?_set_eq_of_lt _ hkidlt
            refine ⟨by rw [ihl1, hheld2len], by rw [ihl2, List.length_set],
              ?_, ?_, ?_, ?_, ?_⟩
            · intro d hd
              rw [ihout d (by omega)]
              exact List.getElem?_set_ne (by omega)
            · intro d hd1 hd2
              by_cases hde : d = kid
              · subst hde
                refine ⟨candidates.getD ci 0, hIdxlt, hhit, ?_⟩
                refine ihpres _ _ ?_
                rw [hheld2getd, if_pos rfl]
                exact List.mem_append_right _ (List.mem_singleton_self _)
              · obtain ⟨hh, hh1, hh2, hh3⟩ := ihwin d (by omega) (by omega)
                exact ⟨hh, by rw [← hheld2len]; exact hh1, hh2, hh3⟩
            · intro i id hm
              rcases ihinv i id hm with hl | hr
              · rw [hheld2getd] at hl
                by_cases hie : i = candidates.getD ci 0
                · rw [if_pos hie] at hl
                  rcases List.mem_append.mp hl with hl2 | hl2
                  · left
                    rw [hie, getD_eq_some hlheld]
                    exact hl2
                  · right
                    refine ⟨kid, by omega, by omega, ?_, ?_⟩
                    · simpa using hl2
                    · rw [hhit, hie]
                · rw [if_neg hie] at hl
                  exact Or.inl hl
              · obtain ⟨d, hd1, hd2, hd3, hd4⟩ := hr
                exact Or.inr ⟨d, by omega, by omega, hd3, hd4⟩
            · intro i id hm
              refine ihpres i id ?_
              rw [hheld2getd]
              by_cases hie : i = candidates.getD ci 0
              · rw [if_pos hie]
                refine List.mem_append_left _ ?_
                rw [hie, getD_eq_some hlheld] at hm
                exact hm
              · rw [if_neg hie]
                exact hm
            · intro hnd hrk
              have hnd2 : ∀ i, (held2.getD i []).Nodup := by
                intro i
                rw [hheld2getd]
                by_cases hie : i = candidates.getD ci 0
                · rw [if_pos hie]
                  rw [List.nodup_append]
                  refine ⟨by rw [← getD_eq_some hlheld]; exact hnd _, by simp, ?_⟩
                  intro a ha hb
                  rw [List.mem_singleton] at hb
                  subst hb
                  have := hrk (candidates.getD ci 0) _
                    (by rw [getD_eq_some hlheld]; exact ha) rfl
                  rw [show (buildTitleId TitleRank.kingdom kid).num = kid
                    from rfl] at this
                  omega
                · rw [if_neg hie]
                  exact hnd _
              have hrk2 : ∀ i, ∀ id ∈ held2.getD i [],
                  id.rank = TitleRank.kingdom → id.num < kid + 1 := by
                intro i id hm hr
                rw [hheld2getd] at hm
                by_cases hie : i = candidates.getD ci 0
                · rw [if_pos hie] at hm
                  rcases List.mem_append.mp hm with hm2 | hm2
                  · refine Nat.lt_succ_of_lt (hrk i id ?_ hr)
                    rw [hie, getD_eq_some hlheld]
                    exact hm2
                  · rw [List.mem_singleton] at hm2
                    subst hm2
                    show kid < kid + 1
                    omega
                · rw [if_neg hie] at hm
                  have := hrk i id hm hr
                  omega
              obtain ⟨hc1, hc2⟩ := ihnd hnd2 hrk2
              refine ⟨hc1, ?_⟩
              intro i id hm hr
              have := hc2 i id hm hr
              omega

theorem append_space_ne_empty (a b c : String) (hb : b.length = 1) :
    a ++ b ++ c ≠ "" := by
  intro h
  have : (a ++ b ++ c).length = 0 := by rw [h]; rfl
  rw [String.length_append, String.length_append, hb] at this
  omega

theorem nameCombinations_ne_empty : ∀ s ∈ nameCombinations, s ≠ "" := by
  intro s hs
  unfold nameCombinations at hs
  rw [List.mem_flatMap] at hs
  obtain ⟨fn, -, hs2⟩ := hs
  rw [List.mem_map] at hs2
  obtain ⟨fam, -, hs3⟩ := hs2
  rw [← hs3]
  exact append_space_ne_empty fn " " fam rfl

theorem buildCharacterNames_spec (count rng : Nat) (names : List String)
    (h : buildCharacterNames count rng = .ok names) :
    names.length = count ∧ ∀ i, i < count → names.getD i "" ≠ "" := by
  unfold buildCharacterNames at h
  cases hsh : shuffledIndices nameCombinations.length rng with
  | error e => rw [hsh] at h; exact Except.noConfusion h
  | ok p =>
    obtain ⟨order, r2⟩ := p
    rw [hsh] at h
    simp only [Except.ok.injEq] at h
    have hperm := shuffledIndices_perm _ _ _ _ hsh
    have hlen : order.length = nameCombinations.length := by
      rw [hperm.length_eq, List.length_range]
    refine ⟨by rw [← h]; simp, ?_⟩
    intro i hi
    have hni : names[i]? = some (if i < nameCombinations.length then
        nameCombinations.getD (order.getD i 0) ""
      else "Ruler " ++ toString (i + 1)) := by
      rw [← h]
      rw [List.getElem?_map, List.getElem?_range hi]
      rfl
    rw [getD_eq_some hni]
    by_cases hic : i < nameCombinations.length
    · rw [if_pos hic]
      have hordi : order.getD i 0 ∈ order :=
        getD_mem_of_lt order i 0 (by omega)
      have hordlt : order.getD i 0 < nameCombinations.length := by
        have := hperm.mem_iff.mp hordi
        rw [List.mem_range] at this
        exact this
      exact nameCombinations_ne_empty _
        (getD_mem_of_lt nameCombinations (order.getD i 0) "" hordlt)
    · rw [if_neg hic]
      exact append_space_ne_empty "Ruler" " " (toString (i + 1)) rfl

set_option maxRecDepth 4000 in
theorem generateTitlesAndCharacters_ok (seed : Int) (cn dn kn : List String)
    (dj df : UpperHierarchy) (tc : TitlesAndCharacters)
    (h : generateTitlesAndCharacters seed cn dn kn dj df = .ok tc) :
    ∃ (characterNames : List String) (countyOrder : List Nat) (r1 : Nat)
      (holder1 : List (Option Nat)) (held1 : List (List TitleId))
      (duchyCands : List (List Nat)) (dholder : List (Option Nat))
      (held2 : List (List TitleId)) (r2 : Nat)
      (kingdomSets : List (List Nat)) (kholder : List (Option Nat))
      (held3 : List (List TitleId)) (r3 : Nat)
      (countyTitles duchyTitles kingdomTitles : List MapTitle)
      (characters : List MapCharacter),
      buildCharacterNames cn.length (mkXorShift32P (seedXor seed NAME_SALT)) =
        .ok characterNames ∧
      shuffledIndices cn.length (mkXorShift32P (seedXor seed CHARACTER_SALT)) =
        .ok (countyOrder, r1) ∧
      assignCountyLoop countyOrder cn.length 0 (List.replicate cn.length none)
        (List.replicate cn.length []) = .ok (holder1, held1) ∧
      duchyCandidatesLoop df.countyToDuchy holder1 cn.length 0
        (List.replicate dn.length []) = .ok duchyCands ∧
      duchyHolderLoop duchyCands dn.length 0 (List.replicate dn.length none)
        held1 r1 = .ok (dholder, held2, r2) ∧
      kingdomCandidatesLoop df.duchyToKingdom dholder dn.length 0
        (List.replicate kn.length []) = .ok kingdomSets ∧
      kingdomHolderLoop kingdomSets kn.length 0 (List.replicate kn.length none)
        held2 r2 = .ok (kholder, held3, r3) ∧
      buildCountyTitles seed cn holder1 dj.countyToDuchy df.countyToDuchy =
        .ok countyTitles ∧
      buildDuchyTitles seed dn dholder dj.duchyToKingdom df.duchyToKingdom =
        .ok duchyTitles ∧
      buildKingdomTitles seed kn kholder = .ok kingdomTitles ∧
      buildCharactersList characterNames
        (countyTitles ++ duchyTitles ++ kingdomTitles) held3 cn.length =
        .ok characters ∧
      tc = { titles := countyTitles ++ duchyTitles ++ kingdomTitles,
             characters := characters } := by
  unfold generateTitlesAndCharacters at h
  dsimp only at h
  cases h1 : buildCharacterNames cn.length
      (mkXorShift32P (seedXor seed NAME_SALT)) with
  | error e => rw [h1, except_bind_error] at h; exact Except.noConfusion h
  | ok characterNames =>
    rw [h1, except_bind_ok] at h
    cases h2 : shuffledIndices cn.length
        (mkXorShift32P (seedXor seed CHARACTER_SALT)) with
    | error e => rw [h2] at h; exact Except.noConfusion h
    | ok p2 =>
      obtain ⟨countyOrder, r1⟩ := p2
      rw [h2] at h
      simp only at h
      cases h3 : assignCountyLoop countyOrder cn.length 0
          (List.replicate cn.length none) (List.replicate cn.length []) with
      | error e => rw [h3, except_bind_error] at h; exact Except.noConfusion h
      | ok s1 =>
        obtain ⟨holder1, held1⟩ := s1
        rw [h3, except_bind_ok] at h
        simp only at h
        cases h4 : duchyCandidatesLoop df.countyToDuchy holder1 cn.length 0
            (List.replicate dn.length []) with
        | error e => rw [h4, except_bind_error] at h; exact Except.noConfusion h
        | ok duchyCands =>
          rw [h4, except_bind_ok] at h
          cases h5 : duchyHolderLoop duchyCands dn.length 0
              (List.replicate dn.length none) held1 r1 with
          | error e => rw [h5, except_bind_error] at h; exact Except.noConfusion h
          | ok s2 =>
            obtain ⟨dholder, held2, r2⟩ := s2
            rw [h5, except_bind_ok] at h
            simp only at h
            cases h6 : kingdomCandidatesLoop df.duchyToKingdom dholder dn.length 0
                (List.replicate kn.length []) with
            | error e =>
              rw [h6, except_bind_error] at h
              exact Except.noConfusion h
            | ok kingdomSets =>
              rw [h6, except_bind_ok] at h
              cases h7 : kingdomHolderLoop kingdomSets kn.length 0
                  (List.replicate kn.length none) held2 r2 with
              | error e =>
                rw [h7, except_bind_error] at h
                exact Except.noConfusion h
              | ok s3 =>
                obtain ⟨kholder, held3, r3⟩ := s3
                rw [h7, except_bind_ok] at h
                simp only at h
                cases h8 : buildCountyTitles seed cn holder1 dj.countyToDuchy
                    df.countyToDuchy with
                | error e =>
                  rw [h8, except_bind_error] at h
                  exact Except.noConfusion h
                | ok countyTitles =>
                  rw [h8, except_bind_ok] at h
                  cases h9 : buildDuchyTitles seed dn dholder dj.duchyToKingdom
                      df.duchyToKingdom with
                  | error e =>
                    rw [h9, except_bind_error] at h
                    exact Except.noConfusion h
                  | ok duchyTitles =>
                    rw [h9, except_bind_ok] at h
                    cases h10 : buildKingdomTitles seed kn kholder with
                    | error e =>
                      rw [h10, except_bind_error] at h
                      exact Except.noConfusion h
                    | ok kingdomTitles =>
                      rw [h10, except_bind_ok] at h
                      cases h11 : buildCharactersList characterNames
                          (countyTitles ++ duchyTitles ++ kingdomTitles)
                          held3 cn.length with
                      | error e =>
                        rw [h11, except_bind_error] at h
                        exact Except.noConfusion h
                      | ok characters =>
                        rw [h11, except_bind_ok] at h
                        simp only [Except.ok.injEq] at h
                        exact ⟨characterNames, countyOrder, r1, holder1, held1,
                          duchyCands, dholder, held2, r2, kingdomSets, kholder,
                          held3, r3, countyTitles, duchyTitles, kingdomTitles,
                          characters, rfl, rfl, h3, h4, h5, h6, h7, h8, h9, h10,
                          h11, h.symm⟩

def countyTitleFor (seed : Int) (cn : List String) (dj df : UpperHierarchy)
    (holder : Nat → Nat) (c : Nat) : MapTitle :=
  { id := TitleId.mk .county c, rank := .county, entityId := (c : Int),
    name := cn.getD c "", mapColor := colorForTitle .county c,
    coatOfArmsSeed := buildCoatOfArmsSeed seed (TitleId.mk .county c),
    holderCharacterId := buildCharacterId (holder c),
    deJureParentTitleId :=
      some (TitleId.mk .duchy (dj.countyToDuchy.getD c 0).toNat),
    deFactoParentTitleId :=
      some (TitleId.mk .duchy (df.countyToDuchy.getD c 0).toNat) }

def duchyTitleFor (seed : Int) (dn : List String) (dj df : UpperHierarchy)
    (holder : Nat → Nat) (d : Nat) : MapTitle :=
  { id := TitleId.mk .duchy d, rank := .duchy, entityId := (d : Int),
    name := dn.getD d "", mapColor := colorForTitle .duchy d,
    coatOfArmsSeed := buildCoatOfArmsSeed seed (TitleId.mk .duchy d),
    holderCharacterId := buildCharacterId (holder d),
    deJureParentTitleId :=
      some (TitleId.mk .kingdom (dj.duchyToKingdom.getD d 0).toNat),
    deFactoParentTitleId :=
      some (TitleId.mk .kingdom (df.duchyToKingdom.getD d 0).toNat) }

def kingdomTitleFor (seed : Int) (kn : List String) (holder : Nat → Nat)
    (q : Nat) : MapTitle :=
  { id := TitleId.mk .kingdom q, rank := .kingdom, entityId := (q : Int),
    name := kn.getD q "", mapColor := colorForTitle .kingdom q,
    coatOfArmsSeed := buildCoatOfArmsSeed seed (TitleId.mk .kingdom q),
    holderCharacterId := buildCharacterId (holder q),
    deJureParentTitleId := none, deFactoParentTitleId := none }

def defaultMapCharacter : MapCharacter :=
  { id := 0, name := "", primaryTitleId := TitleId.mk .county 0,
    heldTitleIds := [] }

theorem getD_replicate_nil {α : Type} (n i : Nat) :
    (List.replicate n ([] : List α)).getD i [] = [] := by
  rw [List.getD_eq_getElem?_getD, List.getElem?_replicate]
  by_cases h : i < n
  · rw [if_pos h]
    rfl
  · rw [if_neg h]
    rfl

theorem optionGetD_extract {l : List (Option Nat)} {c h : Nat}
    (hEq : l[c]? = some (some h)) : (l.getD c none).getD 0 = h := by
  rw [List.getD_eq_getElem?_getD, hEq]
  rfl

set_option maxRecDepth 4000 in
theorem generateTitlesAndCharacters_spec (seed : Int) (cn dn kn : List String)
    (dj df : UpperHierarchy) (tc : TitlesAndCharacters)
    (h : generateTitlesAndCharacters seed cn dn kn dj df = .ok tc) :
    ∃ (countyOrder : List Nat) (countyHolder duchyHolder kingdomHolder : Nat → Nat)
      (held : Nat → List TitleId) (charNames : List String) (prim : Nat → TitleId),
      List.Perm countyOrder (List.range cn.length) ∧
      (∀ c, c < cn.length → countyHolder c < cn.length ∧
        countyOrder.getD (countyHolder c) 0 = c) ∧
      (∀ d, d < dn.length → duchyHolder d < cn.length) ∧
      (∀ q, q < kn.length → kingdomHolder q < cn.length) ∧
      (∀ i, i < cn.length → ∀ id, (id ∈ held i ↔
        id = TitleId.mk .county (countyOrder.getD i 0) ∨
        (∃ d, d < dn.length ∧ id = TitleId.mk .duchy d ∧ duchyHolder d = i) ∨
        (∃ q, q < kn.length ∧ id = TitleId.mk .kingdom q ∧ kingdomHolder q = i))) ∧
      (∀ i, i < cn.length → (held i).Nodup) ∧
      (∀ i, i < cn.length → prim i ∈ held i) ∧
      (∀ i, i < cn.length → charNames.getD i "" ≠ "") ∧
      tc.titles =
        (List.range cn.length).map (countyTitleFor seed cn dj df countyHolder) ++
        (List.range dn.length).map (duchyTitleFor seed dn dj df duchyHolder) ++
        (List.range kn.length).map (kingdomTitleFor seed kn kingdomHolder) ∧
      tc.characters = (List.range cn.length).map (fun i =>
        { id := buildCharacterId i, name := charNames.getD i "",
          primaryTitleId := prim i, heldTitleIds := held i }) := by
  obtain ⟨charNames, countyOrder, r1, holder1, held1, duchyCands, dholder, held2,
    r2, kingdomSets, kholder, held3, r3, cT, dT, kT, chars, hnames, hsh, hacl,
    hdc, hdhl, hkc, hkhl, hbct, hbdt, hbkt, hbcl, htc⟩ :=
    generateTitlesAndCharacters_ok seed cn dn kn dj df tc h
  have hperm := shuffledIndices_perm _ _ _ _ hsh
  have hnd : countyOrder.Nodup :=
    (List.Perm.nodup_iff hperm).mpr (List.nodup_range cn.length)
  have hbound : ∀ v ∈ countyOrder, v < cn.length := by
    intro v hv
    exact List.mem_range.mp (hperm.mem_iff.mp hv)
  obtain ⟨hac1, hac2, hacout, hacwin, hacnoh, hachit⟩ :=
    assignCountyLoop_spec countyOrder cn.length 0 _ _ _ _ hacl hnd
      (by rw [List.length_replicate]; exact hbound)
  obtain ⟨hdl1, hdl2, hdout, hdwin, hdinv, hdpres, hdnd⟩ :=
    duchyHolderLoop_spec duchyCands dn.length 0 _ held1 r1 _ _ _ hdhl
      (by rw [List.length_replicate]; omega)
  obtain ⟨hkl1, hkl2, hkout, hkwin, hkinv, hkpres, hknd⟩ :=
    kingdomHolderLoop_spec kingdomSets kn.length 0 _ held2 r2 _ _ _ hkhl
      (by rw [List.length_replicate]; omega)
  have hheld1len : held1.length = cn.length := by
    rw [hac1, List.length_replicate]
  have hheld2len : held2.length = cn.length := by
    rw [hdl1, hheld1len]
  have hheld1 : ∀ i, i < cn.length →
      held1.getD i [] = [TitleId.mk .county (countyOrder.getD i 0)] := by
    intro i hi
    obtain ⟨-, -, hw⟩ := hacwin i (by omega) (by omega)
    rw [List.getD_eq_getElem?_getD, hw, getD_replicate_nil]
    rfl
  have hheld1out : ∀ i, cn.length ≤ i → held1.getD i [] = [] := by
    intro i hi
    rw [List.getD_eq_getElem?_getD, hacout i (Or.inr (by omega)),
      List.getElem?_replicate, if_neg (by omega)]
    rfl
  have hheld1nd : ∀ i, (held1.getD i []).Nodup := by
    intro i
    by_cases hi : i < cn.length
    · rw [hheld1 i hi]
      exact List.nodup_singleton _
    · rw [hheld1out i (by omega)]
      exact List.nodup_nil
  have hheld1rankd : ∀ i, ∀ id ∈ held1.getD i [],
      id.rank = TitleRank.duchy → id.num < 0 := by
    intro i id hm hr
    by_cases hi : i < cn.length
    · rw [hheld1 i hi, List.mem_singleton] at hm
      rw [hm] at hr
      exact absurd hr (by simp [TitleId.mk])
    · rw [hheld1out i (by omega)] at hm
      exact absurd hm (List.not_mem_nil id)
  obtain ⟨hheld2nd, -⟩ := hdnd hheld1nd hheld1rankd
  have hheld2rankk : ∀ i, ∀ id ∈ held2.getD i [],
      id.rank = TitleRank.kingdom → id.num < 0 := by
    intro i id hm hr
    rcases hdinv i id hm with hm2 | ⟨d, -, -, hid, -⟩
    · by_cases hi : i < cn.length
      · rw [hheld1 i hi, List.mem_singleton] at hm2
        rw [hm2] at hr
        exact absurd hr (by simp [TitleId.mk])
      · rw [hheld1out i (by omega)] at hm2
        exact absurd hm2 (List.not_mem_nil id)
    · rw [hid] at hr
      exact absurd hr (by simp [TitleId.mk])
  obtain ⟨hheld3nd, -⟩ := hknd hheld2nd hheld2rankk
  obtain ⟨hcTlen, hcTspec⟩ := buildCountyTitles_spec _ _ _ _ _ _ hbct
  obtain ⟨hdTlen, hdTspec⟩ := buildDuchyTitles_spec _ _ _ _ _ _ hbdt
  obtain ⟨hkTlen, hkTspec⟩ := buildKingdomTitles_spec _ _ _ _ hbkt
  obtain ⟨hchlen, hchspec⟩ := buildCharactersList_spec _ _ _ _ _ hbcl
  obtain ⟨hcnlen, hcnne⟩ := buildCharacterNames_spec _ _ _ hnames
  refine ⟨countyOrder, fun c => (holder1.getD c none).getD 0,
    fun d => (dholder.getD d none).getD 0,
    fun q => (kholder.getD q none).getD 0,
    fun i => held3.getD i [], charNames,
    fun i => (chars.getD i defaultMapCharacter).primaryTitleId,
    hperm, ?_, ?_, ?_, ?_, ?_, ?_, ?_, ?_, ?_⟩
  · intro c hc
    beta_reduce
    obtain ⟨hIdx, hhol, -⟩ := hcTspec c hc
    rw [optionGetD_extract hhol]
    have hwriter : ∃ i, i < cn.length ∧ countyOrder.getD i 0 = c := by
      by_contra hno
      push_neg at hno
      have hsame := hacnoh c (fun i hi0 hilt => hno i (by omega))
      rw [hhol, List.getElem?_replicate, if_pos hc] at hsame
      simp at hsame
    obtain ⟨i, hilt, hico⟩ := hwriter
    have hh := hachit i (by omega) (by omega)
    rw [hico, hhol] at hh
    simp only [Option.some.injEq] at hh
    rw [hh]
    exact ⟨hilt, hico⟩
  · intro d hd
    beta_reduce
    obtain ⟨hIdx, hhol, -⟩ := hdTspec d hd
    rw [optionGetD_extract hhol]
    obtain ⟨hh, hh1, hh2, -⟩ := hdwin d (by omega) (by omega)
    rw [hhol] at hh2
    simp only [Option.some.injEq] at hh2
    rw [hh2]
    rw [hheld1len] at hh1
    exact hh1
  · intro q hq
    beta_reduce
    obtain ⟨hIdx, hhol, -⟩ := hkTspec q hq
    rw [optionGetD_extract hhol]
    obtain ⟨hh, hh1, hh2, -⟩ := hkwin q (by omega) (by omega)
    rw [hhol] at hh2
    simp only [Option.some.injEq] at hh2
    rw [hh2]
    rw [hheld2len] at hh1
    exact hh1
  · intro i hi id
    beta_reduce
    constructor
    · intro hm
      rcases hkinv i id hm with hm2 | ⟨q, hq1, hq2, hq3, hq4⟩
      · rcases hdinv i id hm2 with hm3 | ⟨d, hd1, hd2, hd3, hd4⟩
        · rw [hheld1 i hi, List.mem_singleton] at hm3
          exact Or.inl hm3
        · exact Or.inr (Or.inl ⟨d, by omega, hd3, optionGetD_extract hd4⟩)
      · exact Or.inr (Or.inr ⟨q, by omega, hq3, optionGetD_extract hq4⟩)
    · intro hm
      rcases hm with hm | ⟨d, hd1, hd2, hd3⟩ | ⟨q, hq1, hq2, hq3⟩
      · refine hkpres _ _ (hdpres _ _ ?_)
        rw [hheld1 i hi, hm]
        exact List.mem_singleton_self _
      · obtain ⟨hIdx, hhol, -⟩ := hdTspec d hd1
        obtain ⟨hh, hh1, hh2, hh3⟩ := hdwin d (by omega) (by omega)
        have hval : (dholder.getD d none).getD 0 = hh := optionGetD_extract hh2
        rw [hval] at hd3
        rw [hd2]
        rw [← hd3]
        exact hkpres _ _ hh3
      · obtain ⟨hIdx, hhol, -⟩ := hkTspec q hq1
        obtain ⟨hh, hh1, hh2, hh3⟩ := hkwin q (by omega) (by omega)
        have hval : (kholder.getD q none).getD 0 = hh := optionGetD_extract hh2
        rw [hval] at hq3
        rw [hq2, ← hq3]
        exact hh3
  · intro i hi
    exact hheld3nd i
  · intro i hi
    beta_reduce
    obtain ⟨ids, pid, hids, hne, hsel, hrec⟩ := hchspec i hi
    have hids2 : held3.getD i [] = ids := getD_eq_some hids
    rw [getD_eq_some hrec]
    rw [hids2]
    exact selectPrimaryTitleId_mem ids _ pid hsel
  · intro i hi
    exact hcnne i hi
  · rw [htc]
    have hcT_eq : cT = (List.range cn.length).map
        (countyTitleFor seed cn dj df (fun c => (holder1.getD c none).getD 0)) := by
      apply List.ext_getElem?
      intro i
      rw [List.getElem?_map]
      by_cases hic : i < cn.length
      · obtain ⟨hIdx, hhol, hrec⟩ := hcTspec i hic
        rw [hrec, List.getElem?_range hic, Option.map_some']
        unfold countyTitleFor
        beta_reduce
        rw [optionGetD_extract hhol]
      · rw [List.getElem?_eq_none (show (List.range cn.length).length ≤ i by
            simpa using (by omega : cn.length ≤ i)),
          List.getElem?_eq_none (show _ by rw [hcTlen]; omega)]
        rfl
    have hdT_eq : dT = (List.range dn.length).map
        (duchyTitleFor seed dn dj df (fun d => (dholder.getD d none).getD 0)) := by
      apply List.ext_getElem?
      intro i
      rw [List.getElem?_map]
      by_cases hic : i < dn.length
      · obtain ⟨hIdx, hhol, hrec⟩ := hdTspec i hic
        rw [hrec, List.getElem?_range hic, Option.map_some']
        unfold duchyTitleFor
        beta_reduce
        rw [optionGetD_extract hhol]
      · rw [List.getElem?_eq_none (show (List.range dn.length).length ≤ i by
            simpa using (by omega : dn.length ≤ i)),
          List.getElem?_eq_none (show _ by rw [hdTlen]; omega)]
        rfl
    have hkT_eq : kT = (List.range kn.length).map
        (kingdomTitleFor seed kn (fun q => (kholder.getD q none).getD 0)) := by
      apply List.ext_getElem?
      intro i
      rw [List.getElem?_map]
      by_cases hic : i < kn.length
      · obtain ⟨hIdx, hhol, hrec⟩ := hkTspec i hic
        rw [hrec, List.getElem?_range hic, Option.map_some']
        unfold kingdomTitleFor
        beta_reduce
        rw [optionGetD_extract hhol]
      · rw [List.getElem?_eq_none (show (List.range kn.length).length ≤ i by
            simpa using (by omega : kn.length ≤ i)),
          List.getElem?_eq_none (show _ by rw [hkTlen]; omega)]
        rfl
    rw [hcT_eq, hdT_eq, hkT_eq]
  · rw [htc]
    apply List.ext_getElem?
    intro i
    rw [List.getElem?_map]
    by_cases hic : i < cn.length
    · obtain ⟨ids, pid, hids, hne, hsel, hrec⟩ := hchspec i hic
      rw [hrec, List.getElem?_range hic, Option.map_some']
      beta_reduce
      have hids2 : held3.getD i [] = ids := getD_eq_some hids
      rw [getD_eq_some hrec, hids2]
    · rw [List.getElem?_eq_none (show (List.range cn.length).length ≤ i by
          simpa using (by omega : cn.length ≤ i)),
        List.getElem?_eq_none (show chars.length ≤ i by rw [hchlen]; omega)]
      rfl

/-- The bidirectional title/character consistency facts of a successful
    generateTitlesAndCharacters run (shared by the C1 and C2 proofs). -/
theorem titleCharacter_consistent_of_gTC (seed : Int) (cn dn kn : List String)
    (dj df : UpperHierarchy) (tc : TitlesAndCharacters)
    (htcg : generateTitlesAndCharacters seed cn dn kn dj df = .ok tc) :
    (∀ t ∈ tc.titles, ∃ c ∈ tc.characters,
      c.id = t.holderCharacterId ∧ t.id ∈ c.heldTitleIds) ∧
    List.Pairwise (fun c1 c2 => ∀ id ∈ c1.heldTitleIds, id ∉ c2.heldTitleIds)
      tc.characters ∧
    ∀ c ∈ tc.characters, c.heldTitleIds ≠ [] ∧ c.heldTitleIds.Nodup ∧
      c.primaryTitleId ∈ c.heldTitleIds ∧
      ∀ id ∈ c.heldTitleIds, ∃ t ∈ tc.titles,
        t.id = id ∧ t.holderCharacterId = c.id := by
  obtain ⟨countyOrder, countyHolder, duchyHolder, kingdomHolder, held,
    charNames, prim, hperm, hcH, hdH, hkH, hiff, hnodup, hprim, hcne,
    htitles, hchars⟩ := generateTitlesAndCharacters_spec _ _ _ _ _ _ _ htcg
  have hdt : ∀ t, t ∈ tc.titles ↔
      ((∃ c, c < cn.length ∧
        t = countyTitleFor seed cn dj df countyHolder c) ∨
      (∃ e, e < dn.length ∧
        t = duchyTitleFor seed dn dj df duchyHolder e) ∨
      (∃ q, q < kn.length ∧
        t = kingdomTitleFor seed kn kingdomHolder q)) := by
    intro t
    rw [htitles]
    simp only [List.mem_append, List.mem_map, List.mem_range]
    constructor
    · rintro ((⟨c, hc, he⟩ | ⟨e, he2, he⟩) | ⟨q, hq, he⟩)
      · exact Or.inl ⟨c, hc, he.symm⟩
      · exact Or.inr (Or.inl ⟨e, he2, he.symm⟩)
      · exact Or.inr (Or.inr ⟨q, hq, he.symm⟩)
    · rintro (⟨c, hc, he⟩ | ⟨e, he2, he⟩ | ⟨q, hq, he⟩)
      · exact Or.inl (Or.inl ⟨c, hc, he.symm⟩)
      · exact Or.inl (Or.inr ⟨e, he2, he.symm⟩)
      · exact Or.inr ⟨q, hq, he.symm⟩
  have hdc2 : ∀ c, c ∈ tc.characters ↔ ∃ i, i < cn.length ∧
      c = { id := buildCharacterId i, name := charNames.getD i "",
            primaryTitleId := prim i, heldTitleIds := held i } := by
    intro c
    rw [hchars]
    simp only [List.mem_map, List.mem_range]
    constructor
    · rintro ⟨i, hi, he⟩
      exact ⟨i, hi, he.symm⟩
    · rintro ⟨i, hi, he⟩
      exact ⟨i, hi, he.symm⟩
  have hcolen : countyOrder.length = cn.length := by
    rw [hperm.length_eq, List.length_range]
  have hcobound : ∀ i, i < cn.length →
      countyOrder.getD i 0 < cn.length := by
    intro i hi
    have hm : countyOrder.getD i 0 ∈ countyOrder :=
      getD_mem_of_lt countyOrder i 0 (by omega)
    exact List.mem_range.mp (hperm.mem_iff.mp hm)
  have hnd : countyOrder.Nodup :=
    (List.Perm.nodup_iff hperm).mpr (List.nodup_range _)
  have hco_inj : ∀ i j, i < cn.length →
      j < cn.length →
      countyOrder.getD i 0 = countyOrder.getD j 0 → i = j := by
    intro i j hi hj hij
    have hi2 : i < countyOrder.length := by omega
    have hj2 : j < countyOrder.length := by omega
    rw [List.getD_eq_getElem?_getD, List.getD_eq_getElem?_getD,
      List.getElem?_eq_getElem hi2, List.getElem?_eq_getElem hj2] at hij
    simp only [Option.getD_some] at hij
    exact (List.Nodup.getElem_inj_iff hnd).mp hij
  have hcH_inv : ∀ i, i < cn.length →
      countyHolder (countyOrder.getD i 0) = i := by
    intro i hi
    obtain ⟨h1, h2⟩ := hcH (countyOrder.getD i 0) (hcobound i hi)
    exact hco_inj _ _ h1 hi h2
  have hmemheld : ∀ i, i < cn.length → ∀ id, id ∈ held i →
      ∃ t ∈ tc.titles, t.id = id ∧
        t.holderCharacterId = buildCharacterId i := by
    intro i hi id hm
    rcases (hiff i hi id).mp hm with hm2 | ⟨e, he1, he2, he3⟩ | ⟨q, hq1, hq2, hq3⟩
    · refine ⟨countyTitleFor seed cn dj df countyHolder
        (countyOrder.getD i 0), ?_, ?_, ?_⟩
      · exact (hdt _).mpr (Or.inl ⟨_, hcobound i hi, rfl⟩)
      · rw [hm2]
        rfl
      · show buildCharacterId (countyHolder (countyOrder.getD i 0)) = _
        rw [hcH_inv i hi]
    · refine ⟨duchyTitleFor seed dn dj df duchyHolder e,
        (hdt _).mpr (Or.inr (Or.inl ⟨e, he1, rfl⟩)), by rw [he2]; rfl, ?_⟩
      show buildCharacterId (duchyHolder e) = _
      rw [he3]
    · refine ⟨kingdomTitleFor seed kn kingdomHolder q,
        (hdt _).mpr (Or.inr (Or.inr ⟨q, hq1, rfl⟩)), by rw [hq2]; rfl, ?_⟩
      show buildCharacterId (kingdomHolder q) = _
      rw [hq3]
  refine ⟨?_, ?_, ?_⟩
  · intro t ht
    rcases (hdt t).mp ht with ⟨c, hc, he⟩ | ⟨e, he1, he⟩ | ⟨q, hq, he⟩
    · refine ⟨
        { id := buildCharacterId (countyHolder c),
          name := charNames.getD (countyHolder c) "",
          primaryTitleId := prim (countyHolder c),
          heldTitleIds := held (countyHolder c) },
        (hdc2 _).mpr ⟨countyHolder c, (hcH c hc).1, rfl⟩, by rw [he]; rfl, ?_⟩
      show t.id ∈ held (countyHolder c)
      refine ((hiff _ (hcH c hc).1 _).mpr (Or.inl ?_))
      rw [he]
      show TitleId.mk .county c = TitleId.mk .county
        (countyOrder.getD (countyHolder c) 0)
      rw [(hcH c hc).2]
    · refine ⟨
        { id := buildCharacterId (duchyHolder e),
          name := charNames.getD (duchyHolder e) "",
          primaryTitleId := prim (duchyHolder e),
          heldTitleIds := held (duchyHolder e) },
        (hdc2 _).mpr ⟨duchyHolder e, hdH e he1, rfl⟩, by rw [he]; rfl, ?_⟩
      show t.id ∈ held (duchyHolder e)
      refine (hiff _ (hdH e he1) _).mpr (Or.inr (Or.inl ⟨e, he1, ?_, rfl⟩))
      rw [he]
      rfl
    · refine ⟨
        { id := buildCharacterId (kingdomHolder q),
          name := charNames.getD (kingdomHolder q) "",
          primaryTitleId := prim (kingdomHolder q),
          heldTitleIds := held (kingdomHolder q) },
        (hdc2 _).mpr ⟨kingdomHolder q, hkH q hq, rfl⟩, by rw [he]; rfl, ?_⟩
      show t.id ∈ held (kingdomHolder q)
      refine (hiff _ (hkH q hq) _).mpr (Or.inr (Or.inr ⟨q, hq, ?_, rfl⟩))
      rw [he]
      rfl
  · rw [hchars]
    rw [List.pairwise_map]
    have hrange : List.Pairwise (· < ·) (List.range cn.length) :=
      List.pairwise_lt_range _
    refine List.Pairwise.imp_of_mem ?_ hrange
    intro i j hi hj hij
    rw [List.mem_range] at hi hj
    intro id hmi hmj
    have h1 := (hiff i hi id).mp hmi
    have h2 := (hiff j hj id).mp hmj
    have : i = j := by
      rcases h1 with ha | ⟨e1, he11, he12, he13⟩ | ⟨q1, hq11, hq12, hq13⟩ <;>
        rcases h2 with hb | ⟨e2, he21, he22, he23⟩ | ⟨q2, hq21, hq22, hq23⟩
      · rw [ha] at hb
        simp only [TitleId.mk.injEq] at hb
        exact hco_inj i j hi hj hb.2
      · rw [ha] at he22
        simp only [TitleId.mk.injEq] at he22
        exact absurd he22.1 (by simp)
      · rw [ha] at hq22
        simp only [TitleId.mk.injEq] at hq22
        exact absurd hq22.1 (by simp)
      · rw [he12] at hb
        simp only [TitleId.mk.injEq] at hb
        exact absurd hb.1 (by simp)
      · rw [he12] at he22
        simp only [TitleId.mk.injEq] at he22
        rw [← he13, ← he23, he22.2]
      · rw [he12] at hq22
        simp only [TitleId.mk.injEq] at hq22
        exact absurd hq22.1 (by simp)
      · rw [hq12] at hb
        simp only [TitleId.mk.injEq] at hb
        exact absurd hb.1 (by simp)
      · rw [hq12] at he22
        simp only [TitleId.mk.injEq] at he22
        exact absurd he22.1 (by simp)
      · rw [hq12] at hq22
        simp only [TitleId.mk.injEq] at hq22
        rw [← hq13, ← hq23, hq22.2]
    omega
  · intro c hc
    obtain ⟨i, hi, he⟩ := (hdc2 c).mp hc
    subst he
    refine ⟨?_, hnodup i hi, hprim i hi, ?_⟩
    · show held i ≠ []
      intro hnil
      have : TitleId.mk .county (countyOrder.getD i 0) ∈ held i :=
        (hiff i hi _).mpr (Or.inl rfl)
      rw [hnil] at this
      exact List.not_mem_nil _ this
    · intro id hm
      exact hmemheld i hi id hm

/-- C1: every WorldMapData produced by generateWorldMapData with valid
    parameters has bidirectionally consistent title/character holdership:
    every title's holder exists and lists the title; no title id appears in
    two characters' held lists; every character's held list is non-empty,
    duplicate free, contains the primary title, and every listed title
    points back at the character. -/
theorem title_character_bidirectional (seed : ℚ) (cc dc kc : Int) (fuel : Nat) :
    onOk (generateWorldMapData seed cc dc kc fuel) (fun d =>
      (∀ t ∈ d.titles, ∃ c ∈ d.characters,
        c.id = t.holderCharacterId ∧ t.id ∈ c.heldTitleIds) ∧
      List.Pairwise (fun c1 c2 => ∀ id ∈ c1.heldTitleIds, id ∉ c2.heldTitleIds)
        d.characters ∧
      ∀ c ∈ d.characters, c.heldTitleIds ≠ [] ∧ c.heldTitleIds.Nodup ∧
        c.primaryTitleId ∈ c.heldTitleIds ∧
        ∀ id ∈ c.heldTitleIds, ∃ t ∈ d.titles,
          t.id = id ∧ t.holderCharacterId = c.id) := by
  unfold onOk
  split
  · rename_i d hg
    obtain ⟨-, -, -, -, -, -, hbody⟩ := generateWorldMapData_ok _ _ _ _ _ _ hg
    obtain ⟨cb, dj, df, tc, hcb, hdj, hdf, htcg, hd⟩ :=
      generateWorldMapDataBody_ok _ _ _ _ _ _ hbody
    have haux := titleCharacter_consistent_of_gTC _ _ _ _ _ _ _ htcg
    subst hd
    exact haux
  · trivial

theorem assertE_ok {c : Prop} [Decidable c] (m : String) (h : c) :
    assertE c m = .ok () := if_pos h

theorem assertE_bind_ok {c : Prop} [Decidable c] {m : String} {β : Type}
    {k : Unit → Except String β} {y : β}
    (h : (assertE c m >>= k) = .ok y) : c ∧ k () = .ok y := by
  by_cases hc : c
  · rw [assertE_ok _ hc, except_bind_ok] at h
    exact ⟨hc, h⟩
  · unfold assertE at h
    rw [if_neg hc, except_bind_error] at h
    exact Except.noConfusion h

theorem byteTriple_bounds (a b c : ℚ) :
    0 ≤ (((colorByte a <<< 16) ||| (colorByte b <<< 8) ||| colorByte c : Nat) : Int) ∧
    (((colorByte a <<< 16) ||| (colorByte b <<< 8) ||| colorByte c : Nat) : Int) ≤
      0xffffff := by
  have hb : ∀ v : ℚ, colorByte v ≤ 255 := by
    intro v
    unfold colorByte
    exact Nat.and_le_right
  have h1 : colorByte a <<< 16 < 2 ^ 24 := by
    rw [Nat.shiftLeft_eq]
    have := hb a
    have : colorByte a * 2 ^ 16 ≤ 255 * 2 ^ 16 :=
      Nat.mul_le_mul_right _ this
    omega
  have h2 : colorByte b <<< 8 < 2 ^ 24 := by
    rw [Nat.shiftLeft_eq]
    have := hb b
    have : colorByte b * 2 ^ 8 ≤ 255 * 2 ^ 8 :=
      Nat.mul_le_mul_right _ this
    omega
  have h3 : colorByte c < 2 ^ 24 := by
    have := hb c
    omega
  have hor : (colorByte a <<< 16) ||| (colorByte b <<< 8) ||| colorByte c <
      2 ^ 24 :=
    Nat.or_lt_two_pow (Nat.or_lt_two_pow h1 h2) h3
  constructor
  · exact Int.natCast_nonneg _
  · have : ((colorByte a <<< 16) ||| (colorByte b <<< 8) ||| colorByte c : Nat) ≤
        16777215 := by omega
    exact_mod_cast this

theorem colorForTitle_bounds (rank : TitleRank) (entityId : Nat) :
    0 ≤ colorForTitle rank entityId ∧ colorForTitle rank entityId ≤ 0xffffff :=
  byteTriple_bounds _ _ _

theorem buildNames_length (pfx : String) (n : Nat) :
    (buildNames pfx n).length = n := by
  unfold buildNames
  simp

theorem buildNames_getD_ne (pfx : String) (n i : Nat) (hi : i < n) :
    (buildNames pfx n).getD i "" ≠ "" := by
  unfold buildNames
  rw [List.getD_eq_getElem?_getD, List.getElem?_map, List.getElem?_range hi,
    Option.map_some']
  exact append_space_ne_empty pfx " " _ rfl

theorem buildCoatOfArmsSeed_ne (seed : Int) (t : TitleId) :
    buildCoatOfArmsSeed seed t ≠ "" := by
  unfold buildCoatOfArmsSeed
  intro h
  have h2 : ("coa-" ++
      hexPad8 (hashString (toString seed ++ ":" ++ titleIdString t))).length =
      0 := by rw [h]; rfl
  rw [String.length_append] at h2
  rw [show ("coa-" : String).length = 4 from rfl] at h2
  omega

theorem diffCount_ne (dj df : List Int) (t : Int)
    (hcount : (List.range dj.length).countP
      (fun i => decide (df.getD i 0 ≠ dj.getD i 0)) = (max 1 t).toNat) :
    dj ≠ df := by
  have h1 : 1 ≤ (max 1 t).toNat := by
    have : (1 : Int) ≤ max 1 t := le_max_left 1 t
    omega
  have h2 : 0 < (List.range dj.length).countP
      (fun i => decide (df.getD i 0 ≠ dj.getD i 0)) := by omega
  rw [List.countP_pos_iff] at h2
  obtain ⟨i, -, hp⟩ := h2
  rw [decide_eq_true_eq] at hp
  intro he
  rw [he] at hp
  exact hp rfl

/-- The generated title list in shape form (shared by the validator proofs). -/
def titlesShape (seed : Int) (cn dn kn : List String) (dj df : UpperHierarchy)
    (cF dF kF : Nat → Nat) : List MapTitle :=
  (List.range cn.length).map (countyTitleFor seed cn dj df cF) ++
  (List.range dn.length).map (duchyTitleFor seed dn dj df dF) ++
  (List.range kn.length).map (kingdomTitleFor seed kn kF)

theorem titlesShape_mem (seed : Int) (cn dn kn : List String)
    (dj df : UpperHierarchy) (cF dF kF : Nat → Nat) (t : MapTitle) :
    t ∈ titlesShape seed cn dn kn dj df cF dF kF ↔
      (∃ c, c < cn.length ∧ t = countyTitleFor seed cn dj df cF c) ∨
      (∃ e, e < dn.length ∧ t = duchyTitleFor seed dn dj df dF e) ∨
      (∃ q, q < kn.length ∧ t = kingdomTitleFor seed kn kF q) := by
  unfold titlesShape
  simp only [List.mem_append, List.mem_map, List.mem_range]
  constructor
  · rintro ((⟨c, hc, he⟩ | ⟨e, he2, he⟩) | ⟨q, hq, he⟩)
    · exact Or.inl ⟨c, hc, he.symm⟩
    · exact Or.inr (Or.inl ⟨e, he2, he.symm⟩)
    · exact Or.inr (Or.inr ⟨q, hq, he.symm⟩)
  · rintro (⟨c, hc, he⟩ | ⟨e, he2, he⟩ | ⟨q, hq, he⟩)
    · exact Or.inl (Or.inl ⟨c, hc, he.symm⟩)
    · exact Or.inl (Or.inr ⟨e, he2, he.symm⟩)
    · exact Or.inr ⟨q, hq, he.symm⟩

theorem titlesShape_ids (seed : Int) (cn dn kn : List String)
    (dj df : UpperHierarchy) (cF dF kF : Nat → Nat) :
    (titlesShape seed cn dn kn dj df cF dF kF).map (fun t => t.id) =
      (List.range cn.length).map (fun c => TitleId.mk .county c) ++
      (List.range dn.length).map (fun e => TitleId.mk .duchy e) ++
      (List.range kn.length).map (fun q => TitleId.mk .kingdom q) := by
  unfold titlesShape
  rw [List.map_append, List.map_append, List.map_map, List.map_map, List.map_map]
  rfl

theorem mkRank_nodup (r : TitleRank) (n : Nat) :
    ((List.range n).map (fun c => TitleId.mk r c)).Nodup := by
  refine List.Nodup.map ?_ (List.nodup_range n)
  intro a b hab
  simp only [TitleId.mk.injEq] at hab
  exact hab.2

theorem titlesShape_ids_nodup (seed : Int) (cn dn kn : List String)
    (dj df : UpperHierarchy) (cF dF kF : Nat → Nat) :
    ((titlesShape seed cn dn kn dj df cF dF kF).map (fun t => t.id)).Nodup := by
  rw [titlesShape_ids]
  rw [List.nodup_append, List.nodup_append]
  refine ⟨⟨mkRank_nodup _ _, mkRank_nodup _ _, ?_⟩, mkRank_nodup _ _, ?_⟩
  · intro a ha hb
    rw [List.mem_map] at ha hb
    obtain ⟨c, -, hc⟩ := ha
    obtain ⟨e, -, he⟩ := hb
    rw [← hc] at he
    simp only [TitleId.mk.injEq] at he
    exact absurd he.1 (by simp)
  · intro a ha hb
    rw [List.mem_append] at ha
    rw [List.mem_map] at hb
    obtain ⟨q, -, hq⟩ := hb
    rcases ha with ha | ha <;> rw [List.mem_map] at ha
    · obtain ⟨c, -, hc⟩ := ha
      rw [← hc] at hq
      simp only [TitleId.mk.injEq] at hq
      exact absurd hq.1 (by simp)
    · obtain ⟨e, -, he⟩ := ha
      rw [← he] at hq
      simp only [TitleId.mk.injEq] at hq
      exact absurd hq.1 (by simp)

theorem titlesShape_get_county (seed : Int) (cn dn kn : List String)
    (dj df : UpperHierarchy) (cF dF kF : Nat → Nat) (c : Nat)
    (hc : c < cn.length) :
    titleMapGet (titlesShape seed cn dn kn dj df cF dF kF)
      (TitleId.mk .county c) = some (countyTitleFor seed cn dj df cF c) := by
  have hm : countyTitleFor seed cn dj df cF c ∈
      titlesShape seed cn dn kn dj df cF dF kF :=
    (titlesShape_mem _ _ _ _ _ _ _ _ _ _).mpr (Or.inl ⟨c, hc, rfl⟩)
  exact titleMapGet_of_mem _ _ hm (titlesShape_ids_nodup _ _ _ _ _ _ _ _ _)

theorem titlesShape_get_duchy (seed : Int) (cn dn kn : List String)
    (dj df : UpperHierarchy) (cF dF kF : Nat → Nat) (e : Nat)
    (he : e < dn.length) :
    titleMapGet (titlesShape seed cn dn kn dj df cF dF kF)
      (TitleId.mk .duchy e) = some (duchyTitleFor seed dn dj df dF e) := by
  have hm : duchyTitleFor seed dn dj df dF e ∈
      titlesShape seed cn dn kn dj df cF dF kF :=
    (titlesShape_mem _ _ _ _ _ _ _ _ _ _).mpr (Or.inr (Or.inl ⟨e, he, rfl⟩))
  exact titleMapGet_of_mem _ _ hm (titlesShape_ids_nodup _ _ _ _ _ _ _ _ _)

theorem titlesShape_get_kingdom (seed : Int) (cn dn kn : List String)
    (dj df : UpperHierarchy) (cF dF kF : Nat → Nat) (q : Nat)
    (hq : q < kn.length) :
    titleMapGet (titlesShape seed cn dn kn dj df cF dF kF)
      (TitleId.mk .kingdom q) = some (kingdomTitleFor seed kn kF q) := by
  have hm : kingdomTitleFor seed kn kF q ∈
      titlesShape seed cn dn kn dj df cF dF kF :=
    (titlesShape_mem _ _ _ _ _ _ _ _ _ _).mpr (Or.inr (Or.inr ⟨q, hq, rfl⟩))
  exact titleMapGet_of_mem _ _ hm (titlesShape_ids_nodup _ _ _ _ _ _ _ _ _)

theorem natCastList_nodup (n : Nat) :
    ((List.range n).map (fun (c : Nat) => (c : Int))).Nodup := by
  refine List.Nodup.map ?_ (List.nodup_range n)
  intro a b hab
  simp only at hab
  exact_mod_cast hab

theorem titlesShape_dedup_county (seed : Int) (cn dn kn : List String)
    (dj df : UpperHierarchy) (cF dF kF : Nat → Nat) :
    (((titlesShape seed cn dn kn dj df cF dF kF).filter
      (fun t => t.rank = TitleRank.county)).map
        (fun t => t.entityId)).dedup.length = cn.length := by
  have h1 : ((List.range cn.length).map (countyTitleFor seed cn dj df cF)).filter
      (fun t => t.rank = TitleRank.county) =
      (List.range cn.length).map (countyTitleFor seed cn dj df cF) := by
    rw [List.filter_eq_self]
    intro t ht
    rw [List.mem_map] at ht
    obtain ⟨c, -, hc⟩ := ht
    rw [← hc]
    exact decide_eq_true rfl
  have h2 : ((List.range dn.length).map (duchyTitleFor seed dn dj df dF)).filter
      (fun t => t.rank = TitleRank.county) = [] := by
    rw [List.filter_eq_nil_iff]
    intro t ht
    rw [List.mem_map] at ht
    obtain ⟨e, -, he⟩ := ht
    rw [← he]
    simp [duchyTitleFor]
  have h3 : ((List.range kn.length).map (kingdomTitleFor seed kn kF)).filter
      (fun t => t.rank = TitleRank.county) = [] := by
    rw [List.filter_eq_nil_iff]
    intro t ht
    rw [List.mem_map] at ht
    obtain ⟨q, -, hq⟩ := ht
    rw [← hq]
    simp [kingdomTitleFor]
  unfold titlesShape
  rw [List.filter_append, List.filter_append, h1, h2, h3,
    List.append_nil, List.append_nil, List.map_map]
  rw [show ((fun (t : MapTitle) => t.entityId) ∘ countyTitleFor seed cn dj df cF) =
    (fun (c : Nat) => (c : Int)) from rfl]
  rw [List.dedup_eq_self.mpr (natCastList_nodup _)]
  simp

theorem titlesShape_dedup_duchy (seed : Int) (cn dn kn : List String)
    (dj df : UpperHierarchy) (cF dF kF : Nat → Nat) :
    (((titlesShape seed cn dn kn dj df cF dF kF).filter
      (fun t => t.rank = TitleRank.duchy)).map
        (fun t => t.entityId)).dedup.length = dn.length := by
  have h1 : ((List.range cn.length).map (countyTitleFor seed cn dj df cF)).filter
      (fun t => t.rank = TitleRank.duchy) = [] := by
    rw [List.filter_eq_nil_iff]
    intro t ht
    rw [List.mem_map] at ht
    obtain ⟨c, -, hc⟩ := ht
    rw [← hc]
    simp [countyTitleFor]
  have h2 : ((List.range dn.length).map (duchyTitleFor seed dn dj df dF)).filter
      (fun t => t.rank = TitleRank.duchy) =
      (List.range dn.length).map (duchyTitleFor seed dn dj df dF) := by
    rw [List.filter_eq_self]
    intro t ht
    rw [List.mem_map] at ht
    obtain ⟨e, -, he⟩ := ht
    rw [← he]
    exact decide_eq_true rfl
  have h3 : ((List.range kn.length).map (kingdomTitleFor seed kn kF)).filter
      (fun t => t.rank = TitleRank.duchy) = [] := by
    rw [List.filter_eq_nil_iff]
    intro t ht
    rw [List.mem_map] at ht
    obtain ⟨q, -, hq⟩ := ht
    rw [← hq]
    simp [kingdomTitleFor]
  unfold titlesShape
  rw [List.filter_append, List.filter_append, h1, h2, h3,
    List.nil_append, List.append_nil, List.map_map]
  rw [show ((fun (t : MapTitle) => t.entityId) ∘ duchyTitleFor seed dn dj df dF) =
    (fun (c : Nat) => (c : Int)) from rfl]
  rw [List.dedup_eq_self.mpr (natCastList_nodup _)]
  simp

theorem titlesShape_dedup_kingdom (seed : Int) (cn dn kn : List String)
    (dj df : UpperHierarchy) (cF dF kF : Nat → Nat) :
    (((titlesShape seed cn dn kn dj df cF dF kF).filter
      (fun t => t.rank = TitleRank.kingdom)).map
        (fun t => t.entityId)).dedup.length = kn.length := by
  have h1 : ((List.range cn.length).map (countyTitleFor seed cn dj df cF)).filter
      (fun t => t.rank = TitleRank.kingdom) = [] := by
    rw [List.filter_eq_nil_iff]
    intro t ht
    rw [List.mem_map] at ht
    obtain ⟨c, -, hc⟩ := ht
    rw [← hc]
    simp [countyTitleFor]
  have h2 : ((List.range dn.length).map (duchyTitleFor seed dn dj df dF)).filter
      (fun t => t.rank = TitleRank.kingdom) = [] := by
    rw [List.filter_eq_nil_iff]
    intro t ht
    rw [List.mem_map] at ht
    obtain ⟨e, -, he⟩ := ht
    rw [← he]
    simp [duchyTitleFor]
  have h3 : ((List.range kn.length).map (kingdomTitleFor seed kn kF)).filter
      (fun t => t.rank = TitleRank.kingdom) =
      (List.range kn.length).map (kingdomTitleFor seed kn kF) := by
    rw [List.filter_eq_self]
    intro t ht
    rw [List.mem_map] at ht
    obtain ⟨q, -, hq⟩ := ht
    rw [← hq]
    exact decide_eq_true rfl
  unfold titlesShape
  rw [List.filter_append, List.filter_append, h1, h2, h3,
    List.nil_append, List.nil_append, List.map_map]
  rw [show ((fun (t : MapTitle) => t.entityId) ∘ kingdomTitleFor seed kn kF) =
    (fun (c : Nat) => (c : Int)) from rfl]
  rw [List.dedup_eq_self.mpr (natCastList_nodup _)]
  simp

theorem validateHierarchy_ok (hd : HierarchyData) (tileCount : Nat) (mode : String)
    (h1 : hd.tileToCounty.length = tileCount)
    (h2 : 0 < hd.countyNames.length) (h3 : 0 < hd.duchyNames.length)
    (h4 : 0 < hd.kingdomNames.length)
    (h5 : hd.countyToDuchy.length = hd.countyNames.length)
    (h6 : hd.duchyToKingdom.length = hd.duchyNames.length)
    (h7 : boundsOk hd.tileToCounty hd.countyNames.length)
    (h8 : boundsOk hd.countyToDuchy hd.duchyNames.length)
    (h9 : boundsOk hd.duchyToKingdom hd.kingdomNames.length)
    (h10 : coveredOk hd.tileToCounty hd.countyNames.length)
    (h11 : coveredOk hd.countyToDuchy hd.duchyNames.length)
    (h12 : coveredOk hd.duchyToKingdom hd.kingdomNames.length) :
    validateHierarchy hd tileCount mode = .ok hd := by
  unfold validateHierarchy
  rw [assertE_ok _ h1, except_bind_ok, assertE_ok _ h2, except_bind_ok,
    assertE_ok _ h3, except_bind_ok, assertE_ok _ h4, except_bind_ok,
    assertE_ok _ h5, except_bind_ok, assertE_ok _ h6, except_bind_ok,
    assertE_ok _ h7, except_bind_ok, assertE_ok _ h8, except_bind_ok,
    assertE_ok _ h9, except_bind_ok, assertE_ok _ h10, except_bind_ok,
    assertE_ok _ h11, except_bind_ok, assertE_ok _ h12, except_bind_ok]
  rfl

theorem validateTitles_ok (titles : List MapTitle) (deJure : HierarchyData)
    (h1 : (titles.map (fun t => t.id)).Nodup)
    (h2 : ∀ t ∈ titles, titleFieldsOk deJure t)
    (h3 : ((titles.filter (fun t => t.rank = TitleRank.county)).map
      (fun t => t.entityId)).dedup.length = expectedCountByRank .county deJure)
    (h4 : ((titles.filter (fun t => t.rank = TitleRank.duchy)).map
      (fun t => t.entityId)).dedup.length = expectedCountByRank .duchy deJure)
    (h5 : ((titles.filter (fun t => t.rank = TitleRank.kingdom)).map
      (fun t => t.entityId)).dedup.length = expectedCountByRank .kingdom deJure) :
    validateTitles titles deJure = .ok titles := by
  unfold validateTitles
  rw [assertE_ok _ h1, except_bind_ok, assertE_ok _ h2, except_bind_ok,
    assertE_ok _ h3, except_bind_ok, assertE_ok _ h4, except_bind_ok,
    assertE_ok _ h5, except_bind_ok]
  rfl

theorem validateCharacters_ok (characters : List MapCharacter)
    (h1 : (characters.map (fun c => c.id)).Nodup)
    (h2 : ∀ c ∈ characters, characterFieldsOk c) :
    validateCharacters characters = .ok characters := by
  unfold validateCharacters
  rw [assertE_ok _ h1, except_bind_ok, assertE_ok _ h2, except_bind_ok]
  rfl

theorem countyTitleFor_fieldsOk (seed : Int) (cn : List String)
    (dj df : UpperHierarchy) (cF : Nat → Nat) (c : Nat)
    (deJure : HierarchyData) (hcl : c < cn.length)
    (hcn : cn.length = deJure.countyNames.length)
    (hgd : cn.getD c "" ≠ "") :
    titleFieldsOk deJure (countyTitleFor seed cn dj df cF c) := by
  unfold titleFieldsOk
  simp only [countyTitleFor]
  refine ⟨trivial, trivial, Int.natCast_nonneg _, ?_, hgd,
    (colorForTitle_bounds TitleRank.county c).1,
    (colorForTitle_bounds TitleRank.county c).2,
    buildCoatOfArmsSeed_ne _ _⟩
  show (c : Int) < ((deJure.countyNames.length : Nat) : Int)
  rw [← hcn]
  exact_mod_cast hcl

theorem duchyTitleFor_fieldsOk (seed : Int) (dn : List String)
    (dj df : UpperHierarchy) (dF : Nat → Nat) (e : Nat)
    (deJure : HierarchyData) (hel : e < dn.length)
    (hdn : dn.length = deJure.duchyNames.length)
    (hgd : dn.getD e "" ≠ "") :
    titleFieldsOk deJure (duchyTitleFor seed dn dj df dF e) := by
  unfold titleFieldsOk
  simp only [duchyTitleFor]
  refine ⟨trivial, trivial, Int.natCast_nonneg _, ?_, hgd,
    (colorForTitle_bounds TitleRank.duchy e).1,
    (colorForTitle_bounds TitleRank.duchy e).2,
    buildCoatOfArmsSeed_ne _ _⟩
  show (e : Int) < ((deJure.duchyNames.length : Nat) : Int)
  rw [← hdn]
  exact_mod_cast hel

theorem kingdomTitleFor_fieldsOk (seed : Int) (kn : List String)
    (kF : Nat → Nat) (q : Nat) (deJure : HierarchyData)
    (hql : q < kn.length)
    (hkn : kn.length = deJure.kingdomNames.length)
    (hgd : kn.getD q "" ≠ "") :
    titleFieldsOk deJure (kingdomTitleFor seed kn kF q) := by
  unfold titleFieldsOk
  simp only [kingdomTitleFor]
  refine ⟨trivial, trivial, Int.natCast_nonneg _, ?_, hgd,
    (colorForTitle_bounds TitleRank.kingdom q).1,
    (colorForTitle_bounds TitleRank.kingdom q).2,
    buildCoatOfArmsSeed_ne _ _⟩
  show (q : Int) < ((deJure.kingdomNames.length : Nat) : Int)
  rw [← hkn]
  exact_mod_cast hql

set_option maxHeartbeats 2000000 in
/-- C2: validateWorldMapData, applied to any payload returned by
    generateWorldMapData, succeeds and returns a value deep-equal to that
    payload. -/
theorem validate_generate_roundtrip (seed : ℚ) (cc dc kc : Int) (fuel : Nat) :
    onOk (generateWorldMapData seed cc dc kc fuel) (fun d =>
      validateWorldMapData d = .ok d) := by
  unfold onOk
  split
  · rename_i d hg
    obtain ⟨-, hcc, hdcp, hkcp, -, -, hbody⟩ :=
      generateWorldMapData_ok _ _ _ _ _ _ hg
    obtain ⟨cb, dj, df, tc, hcb, hdj, hdf, htcg, hd⟩ :=
      generateWorldMapDataBody_ok _ _ _ _ _ _ hbody
    obtain ⟨hcb1, hcb2, hcb3, hcb4⟩ := generateCountyBase_spec _ _ _ _ _ _ hcb
    obtain ⟨hdj1, hdj2, hdj3, hdj4, hdj5, hdj6, hdj7, hdj8⟩ :=
      generateUpperHierarchy_spec _ _ _ _ _ _ _ hdj
    obtain ⟨hdf1, hdfcnt, hdf3, hdf4, hdf5, hdf6, hdf7, hdf8, hdf9⟩ :=
      generateDeFactoUpperHierarchy_spec _ _ _ _ _ _ _ hdf
    obtain ⟨countyOrder, cF, dF, kF, held, charNames, prim, hperm, hcH, hdH,
      hkH, hiff, hnodup, hprim, hcne, htitles, hchars⟩ :=
      generateTitlesAndCharacters_spec _ _ _ _ _ _ _ htcg
    obtain ⟨hbi1, hbi2, hbi3⟩ := titleCharacter_consistent_of_gTC _ _ _ _ _ _ _ htcg
    have hccN : 0 < cc.toNat := by omega
    have hdcN : 0 < dc.toNat := by omega
    have hkcN : 0 < kc.toNat := by omega
    have hcnlen : cb.countyNames.length = cc.toNat := by
      rw [hcb4, buildNames_length]
    have hdnlen : dj.duchyNames.length = dc.toNat := by
      rw [hdj7, buildNames_length]
    have hknlen : dj.kingdomNames.length = kc.toNat := by
      rw [hdj8, buildNames_length]
    have htitles2 : tc.titles = titlesShape seed.num cb.countyNames dj.duchyNames
        dj.kingdomNames dj df cF dF kF := htitles
    have hdJ : d.deJure =
        { tileToCounty := cb.tileToCounty, countyNames := cb.countyNames,
          countyToDuchy := dj.countyToDuchy,
          duchyToKingdom := dj.duchyToKingdom,
          duchyNames := dj.duchyNames, kingdomNames := dj.kingdomNames } := by
      rw [hd]
    have hdF : d.deFacto =
        { tileToCounty := cb.tileToCounty, countyNames := cb.countyNames,
          countyToDuchy := df.countyToDuchy,
          duchyToKingdom := df.duchyToKingdom,
          duchyNames := df.duchyNames, kingdomNames := df.kingdomNames } := by
      rw [hd]
    have hdT : d.titles = tc.titles := by rw [hd]
    have hdC : d.characters = tc.characters := by rw [hd]
    have hVersion : d.version = MAP_VERSION := by rw [hd]
    have hW : d.grid.width = MAP_WIDTH := by rw [hd]
    have hH : d.grid.height = MAP_HEIGHT := by rw [hd]
    have hT : d.grid.tileSizePx = TILE_SIZE_PX := by rw [hd]
    have hC : d.grid.chunkSize = CHUNK_SIZE := by rw [hd]
    have hvj : validateHierarchy d.deJure (MAP_WIDTH * MAP_HEIGHT) "deJure" =
        .ok d.deJure := by
      rw [hdJ]
      refine validateHierarchy_ok _ _ _ hcb1 ?_ ?_ ?_ ?_ ?_ ?_ ?_ ?_ ?_ ?_ ?_
      · show 0 < cb.countyNames.length
        omega
      · show 0 < dj.duchyNames.length
        omega
      · show 0 < dj.kingdomNames.length
        omega
      · show dj.countyToDuchy.length = cb.countyNames.length
        omega
      · show dj.duchyToKingdom.length = dj.duchyNames.length
        omega
      · show boundsOk cb.tileToCounty cb.countyNames.length
        intro v hv
        rw [hcnlen]
        exact hcb2 v hv
      · show boundsOk dj.countyToDuchy dj.duchyNames.length
        intro v hv
        rw [hdnlen]
        exact hdj2 v hv
      · show boundsOk dj.duchyToKingdom dj.kingdomNames.length
        intro v hv
        rw [hknlen]
        exact hdj5 v hv
      · show coveredOk cb.tileToCounty cb.countyNames.length
        intro i hi
        exact hcb3 i (by omega)
      · show coveredOk dj.countyToDuchy dj.duchyNames.length
        intro i hi
        exact hdj3 i (by omega)
      · show coveredOk dj.duchyToKingdom dj.kingdomNames.length
        intro i hi
        exact hdj6 i (by omega)
    have hvf : validateHierarchy d.deFacto (MAP_WIDTH * MAP_HEIGHT) "deFacto" =
        .ok d.deFacto := by
      rw [hdF]
      have hdfn : df.duchyNames.length = dc.toNat := by
        rw [hdf8]
        omega
      have hdfk : df.kingdomNames.length = kc.toNat := by
        rw [hdf9]
        omega
      refine validateHierarchy_ok _ _ _ hcb1 ?_ ?_ ?_ ?_ ?_ ?_ ?_ ?_ ?_ ?_ ?_
      · show 0 < cb.countyNames.length
        omega
      · show 0 < df.duchyNames.length
        omega
      · show 0 < df.kingdomNames.length
        omega
      · show df.countyToDuchy.length = cb.countyNames.length
        omega
      · show df.duchyToKingdom.length = df.duchyNames.length
        omega
      · show boundsOk cb.tileToCounty cb.countyNames.length
        intro v hv
        rw [hcnlen]
        exact hcb2 v hv
      · show boundsOk df.countyToDuchy df.duchyNames.length
        intro v hv
        rw [hdfn]
        exact hdf3 v hv
      · show boundsOk df.duchyToKingdom df.kingdomNames.length
        intro v hv
        rw [hdfk]
        exact hdf6 v hv
      · show coveredOk cb.tileToCounty cb.countyNames.length
        intro i hi
        exact hcb3 i (by omega)
      · show coveredOk df.countyToDuchy df.duchyNames.length
        intro i hi
        exact hdf4 (fun b hb => hdj3 b hb) i (by omega)
      · show coveredOk df.duchyToKingdom df.kingdomNames.length
        intro i hi
        exact hdf7 (fun b hb => hdj6 b hb) i (by omega)
    have hTeq : d.deJure.tileToCounty = d.deFacto.tileToCounty := by
      rw [hdJ, hdF]
    have hNeq : d.deJure.countyNames = d.deFacto.countyNames := by
      rw [hdJ, hdF]
    have hDiff : d.deJure.countyToDuchy.length = d.deFacto.countyToDuchy.length ∧
        d.deJure.countyToDuchy ≠ d.deFacto.countyToDuchy := by
      rw [hdJ, hdF]
      refine ⟨hdf1.symm, ?_⟩
      exact diffCount_ne _ _ _ hdfcnt
    have hfields : ∀ t ∈ tc.titles, titleFieldsOk d.deJure t := by
      rw [htitles2, hdJ]
      intro t ht
      rcases (titlesShape_mem _ _ _ _ _ _ _ _ _ t).mp ht with
        ⟨c, hcl, he⟩ | ⟨e, hel, he⟩ | ⟨q, hql, he⟩
      · subst he
        refine countyTitleFor_fieldsOk _ _ _ _ _ _ _ hcl rfl ?_
        rw [hcb4]
        exact buildNames_getD_ne _ _ _ (by omega)
      · subst he
        refine duchyTitleFor_fieldsOk _ _ _ _ _ _ _ hel rfl ?_
        rw [hdj7]
        exact buildNames_getD_ne _ _ _ (by omega)
      · subst he
        refine kingdomTitleFor_fieldsOk _ _ _ _ _ hql rfl ?_
        rw [hdj8]
        exact buildNames_getD_ne _ _ _ (by omega)
    have hvt : validateTitles d.titles d.deJure = .ok d.titles := by
      rw [hdT]
      refine validateTitles_ok _ _ ?_ ?_ ?_ ?_ ?_
      · rw [htitles2]
        exact titlesShape_ids_nodup _ _ _ _ _ _ _ _ _
      · exact hfields
      · rw [htitles2, hdJ]
        exact titlesShape_dedup_county _ _ _ _ _ _ _ _ _
      · rw [htitles2, hdJ]
        exact titlesShape_dedup_duchy _ _ _ _ _ _ _ _ _
      · rw [htitles2, hdJ]
        exact titlesShape_dedup_kingdom _ _ _ _ _ _ _ _ _
    have hvc : validateCharacters d.characters = .ok d.characters := by
      rw [hdC]
      refine validateCharacters_ok _ ?_ ?_
      · rw [hchars, List.map_map]
        refine List.Nodup.map ?_ (List.nodup_range _)
        intro a b hab
        simp only [Function.comp, MapCharacter.mk.injEq] at hab
        unfold buildCharacterId at hab
        exact Nat.succ_injective hab
      · intro c hc
        obtain ⟨hne, hnd, hpm, -⟩ := hbi3 c hc
        refine ⟨?_, hne, hnd, hpm⟩
        rw [hchars] at hc
        rw [List.mem_map] at hc
        obtain ⟨i, hi, he⟩ := hc
        rw [List.mem_range] at hi
        rw [← he]
        exact hcne i hi
    have hClen : d.characters.length = d.deJure.countyNames.length := by
      rw [hdC, hchars, hdJ]
      simp
    have hPar : ∀ t ∈ d.titles, parentRelOkB d.titles t = true := by
      rw [hdT, htitles2]
      intro t ht
      rcases (titlesShape_mem _ _ _ _ _ _ _ _ _ t).mp ht with
        ⟨c, hcl, he⟩ | ⟨e, hel, he⟩ | ⟨q, hql, he⟩
      · subst he
        have hb1 : (dj.countyToDuchy.getD c 0).toNat < dj.duchyNames.length := by
          have hm : dj.countyToDuchy.getD c 0 ∈ dj.countyToDuchy :=
            getD_mem_of_lt _ _ _ (by omega)
          have := hdj2 _ hm
          omega
        have hb2 : (df.countyToDuchy.getD c 0).toNat < dj.duchyNames.length := by
          have hm : df.countyToDuchy.getD c 0 ∈ df.countyToDuchy :=
            getD_mem_of_lt _ _ _ (by omega)
          have := hdf3 _ hm
          omega
        unfold parentRelOkB parentRankIsB
        simp only [countyTitleFor]
        rw [titlesShape_get_duchy _ _ _ _ _ _ _ _ _ _ hb1,
          titlesShape_get_duchy _ _ _ _ _ _ _ _ _ _ hb2]
        simp only [duchyTitleFor, beq_self_eq_true, Bool.and_self]
      · subst he
        have hb1 : (dj.duchyToKingdom.getD e 0).toNat < dj.kingdomNames.length := by
          have hm : dj.duchyToKingdom.getD e 0 ∈ dj.duchyToKingdom :=
            getD_mem_of_lt _ _ _ (by omega)
          have := hdj5 _ hm
          omega
        have hb2 : (df.duchyToKingdom.getD e 0).toNat < dj.kingdomNames.length := by
          have hm : df.duchyToKingdom.getD e 0 ∈ df.duchyToKingdom :=
            getD_mem_of_lt _ _ _ (by omega)
          have := hdf6 _ hm
          omega
        unfold parentRelOkB parentRankIsB
        simp only [duchyTitleFor]
        rw [titlesShape_get_kingdom _ _ _ _ _ _ _ _ _ _ hb1,
          titlesShape_get_kingdom _ _ _ _ _ _ _ _ _ _ hb2]
        simp only [kingdomTitleFor, beq_self_eq_true, Bool.and_self]
      · subst he
        unfold parentRelOkB
        simp only [kingdomTitleFor, beq_self_eq_true, Bool.and_self]
    have hHier : hierarchyMatchOkB d.titles d.deJure d.deFacto = true := by
      rw [hdT, htitles2, hdJ, hdF]
      unfold hierarchyMatchOkB
      rw [Bool.and_eq_true, Bool.and_eq_true, Bool.and_eq_true]
      refine ⟨⟨⟨?_, ?_⟩, ?_⟩, ?_⟩
      · rw [List.all_eq_true]
        intro c hcm
        rw [List.mem_range] at hcm
        rw [titlesShape_get_county _ _ _ _ _ _ _ _ _ _ hcm]
        simp only [countyTitleFor, beq_self_eq_true, Bool.and_self]
      · rw [List.all_eq_true]
        intro e hem
        rw [List.mem_range] at hem
        rw [titlesShape_get_duchy _ _ _ _ _ _ _ _ _ _ hem]
        simp only [duchyTitleFor, beq_self_eq_true, Bool.and_self]
      · rw [List.all_eq_true]
        intro q hqm
        rw [List.mem_range] at hqm
        rw [titlesShape_get_kingdom _ _ _ _ _ _ _ _ _ _ hqm]
        simp only [kingdomTitleFor, beq_self_eq_true, Bool.and_self]
      · rw [decide_eq_true_eq]
        rw [List.dedup_eq_self.mpr (titlesShape_ids_nodup _ _ _ _ _ _ _ _ _)]
        rw [List.length_map]
    have hHolder : ∀ t ∈ d.titles, ∃ c ∈ d.characters,
        c.id = t.holderCharacterId := by
      rw [hdT, hdC]
      intro t ht
      obtain ⟨c, hcm, hcid, -⟩ := hbi1 t ht
      exact ⟨c, hcm, hcid⟩
    have hHeldCons : ∀ c ∈ d.characters, heldConsistentB d.titles c = true := by
      rw [hdT, hdC]
      intro c hc
      unfold heldConsistentB
      rw [List.all_eq_true]
      intro id hm
      obtain ⟨-, -, -, hptr⟩ := hbi3 c hc
      obtain ⟨t, htm, htid, hth⟩ := hptr id hm
      have hmg : titleMapGet tc.titles id = some t := by
        rw [← htid]
        refine titleMapGet_of_mem _ _ htm ?_
        rw [htitles2]
        exact titlesShape_ids_nodup _ _ _ _ _ _ _ _ _
      simp only [hmg, beq_iff_eq]
      exact hth
    have hFlat : (d.characters.flatMap (fun c => c.heldTitleIds)).Nodup := by
      rw [hdC]
      rw [List.nodup_flatMap]
      constructor
      · intro c hc
        exact (hbi3 c hc).2.1
      · refine List.Pairwise.imp ?_ hbi2
        intro c1 c2 hdis
        intro x hx1 hx2
        exact hdis x hx1 hx2
    have hPrim : ∀ c ∈ d.characters, c.primaryTitleId ∈ c.heldTitleIds := by
      rw [hdC]
      intro c hc
      exact (hbi3 c hc).2.2.1
    have hHeldBy : ∀ t ∈ d.titles, ∃ c ∈ d.characters, t.id ∈ c.heldTitleIds := by
      rw [hdT, hdC]
      intro t ht
      obtain ⟨c, hcm, -, hmem⟩ := hbi1 t ht
      exact ⟨c, hcm, hmem⟩
    unfold validateWorldMapData
    simp only [assertE_ok _ hVersion, assertE_ok _ hW, assertE_ok _ hH,
      assertE_ok _ hT, assertE_ok _ hC, hvj, hvf, assertE_ok _ hTeq,
      assertE_ok _ hNeq, assertE_ok _ hDiff, hvt, hvc, assertE_ok _ hClen,
      assertE_ok _ hPar, assertE_ok _ hHier, assertE_ok _ hHolder,
      assertE_ok _ hHeldCons, assertE_ok _ hFlat, assertE_ok _ hPrim,
      assertE_ok _ hHeldBy, except_bind_ok]
    rw [hd]
    rfl
  · trivial

theorem mem_of_getElemqE {α : Type} (l : List α) (n : Nat) (a : α)
    (h : l[n]? = some a) : a ∈ l := by
  obtain ⟨hlt, he⟩ := List.getElem?_eq_some.mp h
  exact he ▸ List.getElem_mem _

theorem except_ok_bind_inv {ε β γ : Type} {x : Except ε β} {k : β → Except ε γ}
    {y : γ} (h : (x >>= k) = .ok y) : ∃ a, x = .ok a ∧ k a = .ok y := by
  cases x with
  | ok a =>
    rw [except_bind_ok] at h
    exact ⟨a, rfl, h⟩
  | error e =>
    rw [except_bind_error] at h
    exact Except.noConfusion h

theorem validateTitles_ok_inv (titles : List MapTitle) (dj : HierarchyData)
    (out : List MapTitle) (h : validateTitles titles dj = .ok out) :
    out = titles ∧ (titles.map (fun t => t.id)).Nodup := by
  unfold validateTitles at h
  obtain ⟨hnd, h⟩ := assertE_bind_ok h
  obtain ⟨-, h⟩ := assertE_bind_ok h
  obtain ⟨-, h⟩ := assertE_bind_ok h
  obtain ⟨-, h⟩ := assertE_bind_ok h
  obtain ⟨-, h⟩ := assertE_bind_ok h
  have h2 : (Except.ok titles : Except String (List MapTitle)) = .ok out := h
  exact ⟨((Except.ok.injEq _ _).mp h2).symm, hnd⟩

theorem validateCharacters_ok_inv (characters : List MapCharacter)
    (out : List MapCharacter) (h : validateCharacters characters = .ok out) :
    out = characters ∧ ∀ c ∈ characters, characterFieldsOk c := by
  unfold validateCharacters at h
  obtain ⟨-, h⟩ := assertE_bind_ok h
  obtain ⟨hcf, h⟩ := assertE_bind_ok h
  have h2 : (Except.ok characters : Except String (List MapCharacter)) = .ok out := h
  exact ⟨((Except.ok.injEq _ _).mp h2).symm, hcf⟩

theorem validateWorldMapData_ok_inv (d x : WorldMapDataV2)
    (h : validateWorldMapData d = .ok x) :
    (d.titles.map (fun t => t.id)).Nodup ∧
    (∀ c ∈ d.characters, characterFieldsOk c) ∧
    (∀ t ∈ d.titles, parentRelOkB d.titles t = true) ∧
    (∀ t ∈ d.titles, ∃ c ∈ d.characters, c.id = t.holderCharacterId) := by
  unfold validateWorldMapData at h
  obtain ⟨-, h⟩ := assertE_bind_ok h
  obtain ⟨-, h⟩ := assertE_bind_ok h
  obtain ⟨-, h⟩ := assertE_bind_ok h
  obtain ⟨-, h⟩ := assertE_bind_ok h
  obtain ⟨-, h⟩ := assertE_bind_ok h
  obtain ⟨dJ, -, h⟩ := except_ok_bind_inv h
  obtain ⟨dF2, -, h⟩ := except_ok_bind_inv h
  obtain ⟨-, h⟩ := assertE_bind_ok h
  obtain ⟨-, h⟩ := assertE_bind_ok h
  obtain ⟨-, h⟩ := assertE_bind_ok h
  obtain ⟨ts, hts, h⟩ := except_ok_bind_inv h
  obtain ⟨hts1, hts2⟩ := validateTitles_ok_inv _ _ _ hts
  subst hts1
  obtain ⟨cs, hcs, h⟩ := except_ok_bind_inv h
  obtain ⟨hcs1, hcs2⟩ := validateCharacters_ok_inv _ _ hcs
  subst hcs1
  obtain ⟨-, h⟩ := assertE_bind_ok h
  obtain ⟨hpar, h⟩ := assertE_bind_ok h
  obtain ⟨-, h⟩ := assertE_bind_ok h
  obtain ⟨hhold, h⟩ := assertE_bind_ok h
  exact ⟨hts2, hcs2, hpar, hhold⟩

/-- Mutation (claim-side): replace title index i by a function of itself. -/
def mutateTitleAt (d : WorldMapDataV2) (i : Nat) (f : MapTitle → MapTitle) :
    WorldMapDataV2 :=
  match d.titles[i]? with
  | some t => { d with titles := d.titles.set i (f t) }
  | none => d

/-- Mutation (a): titles[0].holderCharacterId set to 0, an id no character has. -/
def mutHolderZero (d : WorldMapDataV2) : WorldMapDataV2 :=
  mutateTitleAt d 0 (fun t => { t with holderCharacterId := 0 })

/-- Mutation (b): titles[0].deJureParentTitleId set to a kingdom-rank id. -/
def mutParentKingdom (d : WorldMapDataV2) : WorldMapDataV2 :=
  mutateTitleAt d 0 (fun t =>
    { t with deJureParentTitleId := some (TitleId.mk .kingdom 0) })

/-- Mutation (c): titles[1].id set equal to titles[0].id. -/
def mutDupTitleId (d : WorldMapDataV2) : WorldMapDataV2 :=
  match d.titles[0]? with
  | some t0 => mutateTitleAt d 1 (fun t => { t with id := t0.id })
  | none => d

/-- Mutation (d): characters[0].primaryTitleId set to county title id 320,
    which lies outside the 320-county id range so no character holds it. -/
def mutPrimaryOut (d : WorldMapDataV2) : WorldMapDataV2 :=
  match d.characters[0]? with
  | some c0 =>
      let c0p : MapCharacter :=
        { c0 with primaryTitleId := TitleId.mk .county 320 }
      { d with characters := d.characters.set 0 c0p }
  | none => d

set_option maxHeartbeats 1000000 in
/-- C6: on the payload generated with seed 9527 and default counts
    (320 counties, 52 duchies, 7 kingdoms), validation fails for each of the
    four single-field mutations: (a) titles[0].holderCharacterId set to an id
    (0) that no character record carries; (b) titles[0].deJureParentTitleId
    set to a kingdom-rank title id while titles[0] has county rank;
    (c) titles[1].id set equal to titles[0].id; (d) characters[0]'s
    primaryTitleId set to a title id not contained in its heldTitleIds. -/
theorem validator_rejects_mutations (fuel : Nat) :
    onOk (generateWorldMapData 9527 320 52 7 fuel) (fun d =>
      ((∀ c ∈ d.characters, c.id ≠ 0) ∧
        ∃ msg, validateWorldMapData (mutHolderZero d) = .error msg) ∧
      ((∃ t0, d.titles[0]? = some t0 ∧ t0.rank = TitleRank.county) ∧
        ∃ msg, validateWorldMapData (mutParentKingdom d) = .error msg) ∧
      (∃ msg, validateWorldMapData (mutDupTitleId d) = .error msg) ∧
      ((∃ c0, d.characters[0]? = some c0 ∧
          TitleId.mk .county 320 ∉ c0.heldTitleIds) ∧
        ∃ msg, validateWorldMapData (mutPrimaryOut d) = .error msg)) := by
  unfold onOk
  split
  · rename_i d hg
    obtain ⟨-, -, -, -, -, -, hbody⟩ := generateWorldMapData_ok _ _ _ _ _ _ hg
    obtain ⟨cb, dj, df, tc, hcb, hdj, hdf, htcg, hd⟩ :=
      generateWorldMapDataBody_ok _ _ _ _ _ _ hbody
    obtain ⟨hcb1, hcb2, hcb3, hcb4⟩ := generateCountyBase_spec _ _ _ _ _ _ hcb
    obtain ⟨countyOrder, cF, dF, kF, held, charNames, prim, hperm, hcH, hdH,
      hkH, hiff, hndh, hprimm, hcne, htitles, hchars⟩ :=
      generateTitlesAndCharacters_spec _ _ _ _ _ _ _ htcg
    have htitles2 : tc.titles = titlesShape (9527:ℚ).num cb.countyNames
        dj.duchyNames dj.kingdomNames dj df cF dF kF := htitles
    have hlen320 : cb.countyNames.length = 320 := by
      rw [hcb4, buildNames_length]
      decide
    have hdT : d.titles = tc.titles := by rw [hd]
    have hdC : d.characters = tc.characters := by rw [hd]
    have hTlen : 320 ≤ d.titles.length := by
      rw [hdT, htitles]
      simp only [List.length_append, List.length_map, List.length_range, hlen320]
      omega
    have hClen : d.characters.length = 320 := by
      rw [hdC, hchars]
      simp only [List.length_map, List.length_range, hlen320]
    have ht0 : d.titles[0]? =
        some (countyTitleFor (9527:ℚ).num cb.countyNames dj df cF 0) := by
      rw [hdT, htitles]
      rw [List.getElem?_append_left (by
        simp only [List.length_append, List.length_map, List.length_range,
          hlen320]
        omega)]
      rw [List.getElem?_append_left (by
        simp only [List.length_map, List.length_range, hlen320]
        omega)]
      simp [List.getElem?_map, List.getElem?_range, hlen320]
    have ht1 : d.titles[1]? =
        some (countyTitleFor (9527:ℚ).num cb.countyNames dj df cF 1) := by
      rw [hdT, htitles]
      rw [List.getElem?_append_left (by
        simp only [List.length_append, List.length_map, List.length_range,
          hlen320]
        omega)]
      rw [List.getElem?_append_left (by
        simp only [List.length_map, List.length_range, hlen320]
        omega)]
      simp [List.getElem?_map, List.getElem?_range, hlen320]
    have hc0 : d.characters[0]? = some
        { id := buildCharacterId 0, name := charNames.getD 0 "",
          primaryTitleId := prim 0, heldTitleIds := held 0 } := by
      rw [hdC, hchars]
      simp [List.getElem?_map, List.getElem?_range, hlen320]
    have hcid : ∀ c ∈ d.characters, c.id ≠ 0 := by
      rw [hdC, hchars]
      intro c hcm
      rw [List.mem_map] at hcm
      obtain ⟨i, -, he⟩ := hcm
      rw [← he]
      exact Nat.succ_ne_zero i
    have h0cn : 0 < cb.countyNames.length := by omega
    have hnotheld : TitleId.mk .county 320 ∉ held 0 := by
      intro hmem
      rcases (hiff 0 h0cn _).mp hmem with hco | ⟨e, he2, heq, -⟩ | ⟨q, hq, heq, -⟩
      · have h320 : (320:Nat) = countyOrder.getD 0 0 := congrArg TitleId.num hco
        have holen : countyOrder.length = cb.countyNames.length := by
          have hpl := hperm.length_eq
          rw [List.length_range] at hpl
          exact hpl
        have hmem2 : countyOrder.getD 0 0 ∈ countyOrder :=
          getD_mem_of_lt _ _ _ (by omega)
        have hlt := List.mem_range.mp (hperm.mem_iff.mp hmem2)
        omega
      · exact absurd (congrArg TitleId.rank heq) (by simp)
      · exact absurd (congrArg TitleId.rank heq) (by simp)
    refine ⟨⟨hcid, ?_⟩, ⟨⟨_, ht0, rfl⟩, ?_⟩, ?_,
      ⟨⟨_, hc0, fun hm => hnotheld hm⟩, ?_⟩⟩
    · cases hv : validateWorldMapData (mutHolderZero d) with
      | error msg => exact ⟨msg, rfl⟩
      | ok x =>
        exfalso
        obtain ⟨-, -, -, hhold⟩ := validateWorldMapData_ok_inv _ _ hv
        have hm0 : (mutHolderZero d).titles[0]? = some
            { countyTitleFor (9527:ℚ).num cb.countyNames dj df cF 0 with
              holderCharacterId := 0 } := by
          unfold mutHolderZero mutateTitleAt
          simp only [ht0]
          rw [List.getElem?_set_eq_of_lt _ (by omega)]
        have hmc : (mutHolderZero d).characters = d.characters := by
          unfold mutHolderZero mutateTitleAt
          simp only [ht0]
        obtain ⟨c, hcm, hcid0⟩ := hhold _ (mem_of_getElemqE _ _ _ hm0)
        rw [hmc] at hcm
        exact hcid c hcm hcid0
    · cases hv : validateWorldMapData (mutParentKingdom d) with
      | error msg => exact ⟨msg, rfl⟩
      | ok x =>
        exfalso
        obtain ⟨-, -, hpar, -⟩ := validateWorldMapData_ok_inv _ _ hv
        have hm0 : (mutParentKingdom d).titles[0]? = some
            { countyTitleFor (9527:ℚ).num cb.countyNames dj df cF 0 with
              deJureParentTitleId := some (TitleId.mk .kingdom 0) } := by
          unfold mutParentKingdom mutateTitleAt
          simp only [ht0]
          rw [List.getElem?_set_eq_of_lt _ (by omega)]
        have hm0t : (mutParentKingdom d).titles = d.titles.set 0
            { countyTitleFor (9527:ℚ).num cb.countyNames dj df cF 0 with
              deJureParentTitleId := some (TitleId.mk .kingdom 0) } := by
          unfold mutParentKingdom mutateTitleAt
          simp only [ht0]
        have hp := hpar _ (mem_of_getElemqE _ _ _ hm0)
        unfold parentRelOkB at hp
        simp only [countyTitleFor] at hp
        rw [Bool.and_eq_true] at hp
        obtain ⟨hp1, -⟩ := hp
        unfold parentRankIsB at hp1
        simp only at hp1
        cases hq2 : titleMapGet (mutParentKingdom d).titles
            (TitleId.mk .kingdom 0) with
        | none =>
          rw [hq2] at hp1
          simp at hp1
        | some pt =>
          rw [hq2] at hp1
          simp only [beq_iff_eq] at hp1
          obtain ⟨hptm, hptid⟩ := titleMapGet_some _ _ _ hq2
          rw [hm0t] at hptm
          rcases List.mem_or_eq_of_mem_set hptm with hin | heq2
          · have hin2 := (titlesShape_mem _ _ _ _ _ _ _ _ _ pt).mp
              (by rw [← htitles2, ← hdT]; exact hin)
            rcases hin2 with ⟨c2, -, he⟩ | ⟨e2, -, he⟩ | ⟨q2, -, he⟩
            · subst he
              exact absurd (congrArg TitleId.rank hptid) (by simp [countyTitleFor])
            · subst he
              exact absurd (congrArg TitleId.rank hptid) (by simp [duchyTitleFor])
            · subst he
              exact absurd hp1 (by simp [kingdomTitleFor])
          · subst heq2
            exact absurd (congrArg TitleId.rank hptid) (by simp [countyTitleFor])
    · cases hv : validateWorldMapData (mutDupTitleId d) with
      | error msg => exact ⟨msg, rfl⟩
      | ok x =>
        exfalso
        obtain ⟨hnd, -, -, -⟩ := validateWorldMapData_ok_inv _ _ hv
        have hm3 : (mutDupTitleId d).titles = d.titles.set 1
            { countyTitleFor (9527:ℚ).num cb.countyNames dj df cF 1 with
              id := (countyTitleFor (9527:ℚ).num cb.countyNames dj df cF 0).id } := by
          unfold mutDupTitleId mutateTitleAt
          simp only [ht0, ht1]
        have hg0 : ((mutDupTitleId d).titles.map (fun t => t.id))[0]? =
            some (countyTitleFor (9527:ℚ).num cb.countyNames dj df cF 0).id := by
          rw [hm3, List.getElem?_map,
            List.getElem?_set_ne (by omega : (1:Nat) ≠ 0), ht0]
          rfl
        have hg1 : ((mutDupTitleId d).titles.map (fun t => t.id))[1]? =
            some (countyTitleFor (9527:ℚ).num cb.countyNames dj df cF 0).id := by
          rw [hm3, List.getElem?_map, List.getElem?_set_eq_of_lt _ (by omega)]
          rfl
        obtain ⟨hl0, he0⟩ := List.getElem?_eq_some.mp hg0
        obtain ⟨hl1, he1⟩ := List.getElem?_eq_some.mp hg1
        have h01 : (0:Nat) = 1 := hnd.getElem_inj_iff.mp (he0.trans he1.symm)
        exact absurd h01 (by omega)
    · cases hv : validateWorldMapData (mutPrimaryOut d) with
      | error msg => exact ⟨msg, rfl⟩
      | ok x =>
        exfalso
        obtain ⟨-, hcf, -, -⟩ := validateWorldMapData_ok_inv _ _ hv
        have hm4 : (mutPrimaryOut d).characters[0]? = some
            { id := buildCharacterId 0, name := charNames.getD 0 "",
              primaryTitleId := TitleId.mk .county 320,
              heldTitleIds := held 0 } := by
          unfold mutPrimaryOut
          simp only [hc0]
          rw [List.getElem?_set_eq_of_lt _ (by omega)]
        have hfo := hcf _ (mem_of_getElemqE _ _ _ hm4)
        exact hnotheld hfo.2.2.2
  · trivial
